import Mathlib

/-! The TCP multiplexer of xfrpc (`tcpmux.c`).

A shallow embedding of the ring buffer, the frame codec, the stream state
machine, the flow controller and the stream writer of `tcpmux.c`, followed by
theorems about them.

Conventions of the embedding.

* `uint32_t` values are natural numbers; every C operation that can wrap is
  written with `u32` / `u32_sub`, i.e. reduced modulo `2^32`.
* A function that can stop the process (`assert`, `exit`) or read past the end
  of a caller supplied buffer returns `Except Fault _`.
* A pointer to a byte buffer is the list of the bytes it points to; pointer
  arithmetic `data + k` is `List.drop k`.
* `struct bufferevent *` is a handle (a natural number).  Every byte handed to
  `bufferevent_write` is appended to `World.wire` together with the handle it
  was written to, so the order of all writes is kept.
* `RBUF_SIZE` and `MAX_STREAM_WINDOW_SIZE` come from `tcpmux.h`; they are
  parameters of the development.
-/

namespace Tcpmux

/-- Ways in which the C program stops instead of returning to its caller. -/
inductive Fault where
  | assert_failed
  | exited
  | out_of_bounds
  deriving DecidableEq, Repr

/-- Reduction of a natural number to the range of `uint32_t`. -/
def u32 (n : Nat) : Nat := n % 4294967296

/-- Subtraction of `uint32_t` values, wrapping modulo `2^32`. -/
def u32_sub (a b : Nat) : Nat :=
  if b % 4294967296 ≤ a % 4294967296 then a % 4294967296 - b % 4294967296
  else 4294967296 - (b % 4294967296 - a % 4294967296)

/-- Conversion of a `uint32_t` value to `int` / `int32_t` (two's complement). -/
def to_int32 (n : Nat) : Int :=
  if n % 4294967296 < 2147483648 then (n % 4294967296 : Nat) else (n % 4294967296 : Nat) - 4294967296

/-! ## Ring buffer -/

/-- The record `struct ring_buffer`: `cur` is the read position, `end` the write
position (named `end_` here), `sz` the number of bytes held and `data` the
byte array, indexed by position. -/
structure ring_buffer where
  cur : Nat
  end_ : Nat
  sz : Nat
  data : Nat → Nat

/-- A ring as left by `memset(&ring, 0, sizeof(struct ring_buffer))`. -/
def ring_buffer_zero : ring_buffer :=
  { cur := 0, end_ := 0, sz := 0, data := fun _ => 0 }

/-- Array store `a[i] = v`. -/
def store (a : Nat → Nat) (i v : Nat) : Nat → Nat :=
  fun j => if j = i then v else a j

section Ring

variable (RBUF_SIZE : Nat)

/-- The loop `while (i < len) { data[i] = ring->data[ring->cur++]; ... }` of
`ring_buffer_pop`, with `n = len - i` iterations left; `out` is `data[0..i)`. -/
def ring_buffer_pop_loop : Nat → ring_buffer → List Nat → ring_buffer × List Nat
  | 0, ring, out => (ring, out)
  | n + 1, ring, out =>
    let byte := ring.data ring.cur
    let cur := u32 (ring.cur + 1)
    let cur := if cur = RBUF_SIZE then 0 else cur
    ring_buffer_pop_loop n { ring with cur := cur, sz := u32_sub ring.sz 1 } (out ++ [byte])

/-- The function `ring_buffer_pop(ring, data, len)`: the new ring, the bytes
stored into `data` and the return value. The caller supplies a non-null `data`. -/
def ring_buffer_pop (ring : ring_buffer) (len : Nat) :
    Except Fault (ring_buffer × List Nat × Nat) :=
  if ring.sz ≥ len then
    let r := ring_buffer_pop_loop RBUF_SIZE len ring []
    .ok (r.1, r.2, len)
  else .error .assert_failed

/-- The loop `for (; i < len; i++)` of `ring_buffer_append`, with `n = len - i`
iterations left; the list is the source buffer from `data[i]` on. -/
def ring_buffer_append_loop : Nat → Nat → List Nat → ring_buffer →
    Except Fault (ring_buffer × Nat)
  | 0, i, _, ring => .ok (ring, i)
  | _ + 1, _, [], _ => .error .out_of_bounds
  | n + 1, i, byte :: rest, ring =>
    let data := store ring.data ring.end_ byte
    let e := u32 (ring.end_ + 1)
    let e := if e = RBUF_SIZE then 0 else e
    let ring := { ring with data := data, end_ := e, sz := u32 (ring.sz + 1) }
    if ring.cur = ring.end_ then .ok (ring, i)
    else ring_buffer_append_loop n (i + 1) rest ring

/-- The function `ring_buffer_append(ring, data, len)`: the new ring and the
return value `i`. -/
def ring_buffer_append (ring : ring_buffer) (data : List Nat) (len : Nat) :
    Except Fault (ring_buffer × Nat) :=
  let left := u32_sub RBUF_SIZE ring.sz
  if left ≥ len then ring_buffer_append_loop RBUF_SIZE len 0 data ring
  else .error .assert_failed

/-- The loop of `ring_buffer_read`; `bufferevent_read(bev, &slot, 1)` stores
the next input byte of the bufferevent when there is one and nothing otherwise. -/
def ring_buffer_read_loop : Nat → ring_buffer → List Nat → ring_buffer × List Nat
  | 0, ring, input => (ring, input)
  | n + 1, ring, input =>
    let data := match input with
      | [] => ring.data
      | byte :: _ => store ring.data ring.end_ byte
    let e := u32 (ring.end_ + 1)
    let e := if e = RBUF_SIZE then 0 else e
    let ring := { ring with data := data, end_ := e, sz := u32 (ring.sz + 1) }
    if ring.cur = ring.end_ then (ring, input.tail)
    else ring_buffer_read_loop n ring input.tail

/-- The function `ring_buffer_read(bev, ring, len)`; `input` is the input
buffer of `bev`. Result: the ring, the input left and the return value. -/
def ring_buffer_read (input : List Nat) (ring : ring_buffer) (len : Nat) :
    ring_buffer × List Nat × Nat :=
  if ring.sz = RBUF_SIZE then (ring, input, 0)
  else
    let cap := u32_sub RBUF_SIZE ring.sz
    let len := if len > cap then cap else len
    let r := ring_buffer_read_loop RBUF_SIZE len ring input
    (r.1, r.2, len)

/-- The loop `while (len > 0)` of `ring_buffer_write`; `out` collects the bytes
given to `bufferevent_write`. The result carries the final value of `len`. -/
def ring_buffer_write_loop : Nat → ring_buffer → List Nat →
    Except Fault (ring_buffer × List Nat × Nat)
  | 0, ring, out => .ok (ring, out, 0)
  | len + 1, ring, out =>
    let out := out ++ [ring.data ring.cur]
    let cur := u32 (ring.cur + 1)
    let sz := u32_sub ring.sz 1
    let cur := if cur = RBUF_SIZE then 0 else cur
    let ring := { ring with cur := cur, sz := sz }
    if ring.cur = ring.end_ then
      if ring.sz = 0 then .ok (ring, out, len) else .error .assert_failed
    else ring_buffer_write_loop len ring out

/-- The function `ring_buffer_write(bev, ring, len)`: the new ring, the bytes
written to `bev`, in order, and the return value. -/
def ring_buffer_write (ring : ring_buffer) (len : Nat) :
    Except Fault (ring_buffer × List Nat × Nat) :=
  if ring.sz = 0 then .ok (ring, [], 0)
  else
    let len := if len > ring.sz then ring.sz else len
    ring_buffer_write_loop RBUF_SIZE len ring []

/-- The bytes a ring holds, oldest first: `sz` bytes starting at `cur`,
wrapping at `RBUF_SIZE`. -/
def ring_contents (ring : ring_buffer) : List Nat :=
  (List.range ring.sz).map (fun k => ring.data ((ring.cur + k) % RBUF_SIZE))

/-- The wrap invariant of a ring buffer. -/
def ring_wf (ring : ring_buffer) : Prop :=
  ring.cur < RBUF_SIZE ∧ ring.end_ < RBUF_SIZE ∧ ring.sz ≤ RBUF_SIZE ∧
    ring.end_ = (ring.cur + ring.sz) % RBUF_SIZE

instance (ring : ring_buffer) : Decidable (ring_wf RBUF_SIZE ring) := by
  unfold ring_wf; infer_instance

/-- One byte stored at the write position: the effect of
`ring->data[ring->end++] = b; if (ring->end == RBUF_SIZE) ring->end = 0; ring->sz++`. -/
def ring_push (ring : ring_buffer) (b : Nat) : ring_buffer :=
  { ring with
    data := store ring.data ring.end_ b
    end_ := if u32 (ring.end_ + 1) = RBUF_SIZE then 0 else u32 (ring.end_ + 1)
    sz := u32 (ring.sz + 1) }

/-- One byte consumed at the read position: the effect of
`ring->cur++; if (ring->cur == RBUF_SIZE) ring->cur = 0; ring->sz--`. -/
def ring_skip (ring : ring_buffer) : ring_buffer :=
  { ring with
    cur := if u32 (ring.cur + 1) = RBUF_SIZE then 0 else u32 (ring.cur + 1)
    sz := u32_sub ring.sz 1 }

end Ring

/-! ## Constants and records of `tcpmux.h` -/

/-- Modelled from the spec: enumerator `DATA` of `enum tcp_mux_type` (the header
`tcpmux.h` is not part of the sources; spec section 3 gives DATA=0). -/
def DATA : Nat := 0
/-- Modelled from the spec: enumerator `WINDOW_UPDATE` of `enum tcp_mux_type` (=1). -/
def WINDOW_UPDATE : Nat := 1
/-- Modelled from the spec: enumerator `PING` of `enum tcp_mux_type` (=2). -/
def PING : Nat := 2
/-- Modelled from the spec: enumerator `GO_AWAY` of `enum tcp_mux_type` (=3). -/
def GO_AWAY : Nat := 3

/-- Modelled from the spec: enumerator `ZERO` of `enum tcp_mux_flag` (=0). -/
def ZERO : Nat := 0
/-- Modelled from the spec: enumerator `SYN` of `enum tcp_mux_flag` (=1). -/
def SYN : Nat := 1
/-- Modelled from the spec: enumerator `ACK` of `enum tcp_mux_flag` (=2). -/
def ACK : Nat := 2
/-- Modelled from the spec: enumerator `FIN` of `enum tcp_mux_flag` (=4). -/
def FIN : Nat := 4
/-- Modelled from the spec: enumerator `RST` of `enum tcp_mux_flag` (=8). -/
def RST : Nat := 8

/-- Modelled from the spec: go-away reason code `NORMAL` (=0, spec section 6). -/
def NORMAL : Nat := 0
/-- Modelled from the spec: go-away reason code `PROTO_ERR` (=1). -/
def PROTO_ERR : Nat := 1
/-- Modelled from the spec: go-away reason code `INTERNAL_ERR` (=2). -/
def INTERNAL_ERR : Nat := 2

/-- Modelled from the spec: the states of `enum tcp_mux_state` (spec section 3). -/
inductive tcp_mux_state where
  | INIT
  | SYN_SEND
  | SYN_RECEIVED
  | ESTABLISHED
  | LOCAL_CLOSE
  | REMOTE_CLOSE
  | CLOSED
  | RESET
  deriving DecidableEq, Repr

/-- Modelled from the spec: the record `struct tcp_mux_header` of `tcpmux.h`,
with the fields of the 12 byte frame header of spec section 3 in wire order.
Each field holds the value as the C code sees it in the struct, i.e. the
multi-byte fields are in network byte order. -/
structure tcp_mux_header where
  version : Nat
  type : Nat
  flags : Nat
  stream_id : Nat
  length : Nat
  deriving DecidableEq, Repr

/-- The record `struct tmux_stream`, with the fields `tcpmux.c` uses. -/
structure tmux_stream where
  id : Nat
  state : tcp_mux_state
  recv_window : Nat
  send_window : Nat
  tx_ring : ring_buffer
  rx_ring : ring_buffer

/-- The part of `struct proxy_client` (`client.h`) that `tcpmux.c` reads:
`local_proxy_bev`, which may be `NULL`. -/
structure proxy_client where
  local_proxy_bev : Option Nat
  deriving DecidableEq, Repr

/-- The static `proto_version`, initialised to 0 and never assigned. -/
def proto_version : Nat := 0

/-- The state outside the function arguments: the file-level variables of
`tcpmux.c`, the collaborators it reads, and a record of what it does to them. -/
structure World where
  /-- `get_common_config()->tcp_mux`. -/
  tcp_mux : Nat
  /-- The static `remote_go_away`. -/
  remote_go_away : Nat
  /-- The static `local_go_away`. -/
  local_go_away : Nat
  /-- The static `g_session_id`. -/
  g_session_id : Nat
  /-- The hash table `all_stream`, in insertion order. -/
  all_stream : List tmux_stream
  /-- The table behind `get_proxy_client(sid)`. -/
  proxy_clients : List (Nat × proxy_client)
  /-- The handle `get_main_control()->connect_bev`. -/
  connect_bev : Nat
  /-- Every byte given to `bufferevent_write`, with the bufferevent it went to. -/
  wire : List (Nat × Nat)
  /-- The bufferevents given to `bufferevent_enable(bev, EV_READ)`. -/
  enabled : List (Option Nat)
  /-- The stream ids given to `del_proxy_client_by_stream_id`. -/
  deleted : List Nat
  /-- The buffers given to the data handler `fn(data, length, pc)`. -/
  delivered : List (List Nat)

/-- The fault a call ended in, if it did not return. -/
def fault_of {α : Type} (r : Except Fault α) : Option Fault :=
  match r with
  | .error e => some e
  | .ok _ => none

/-- The bytes written so far to the bufferevent `bev`, in order. -/
def written_to (w : World) (bev : Nat) : List Nat :=
  (w.wire.filter (fun e => e.1 = bev)).map Prod.snd

/-- The call `bufferevent_write(bev, bytes, n)` once the `n` bytes are known. -/
def bufferevent_write (w : World) (bev : Nat) (bytes : List Nat) : World :=
  { w with wire := w.wire ++ bytes.map (fun b => (bev, b)) }

/-- The call `bufferevent_write(bev, data, n)` on a caller supplied buffer. -/
def bufferevent_write_buf (w : World) (bev : Nat) (data : List Nat) (n : Nat) :
    Except Fault World :=
  if n ≤ data.length then .ok (bufferevent_write w bev (data.take n))
  else .error .out_of_bounds

/-- The call `bufferevent_enable(bev, EV_READ)`. -/
def bufferevent_enable (w : World) (bev : Option Nat) : World :=
  { w with enabled := w.enabled ++ [bev] }

/-- Modelled from the spec: the function `del_proxy_client_by_stream_id(sid)` of
`client.c`, which is not among the sources. Spec section 4.3: entering CLOSED or
RESET "triggers deletion from the registry and teardown of the associated peer
socket". The stream with the id `sid` leaves the registry `all_stream` and the
proxy client of `sid` leaves the table of proxy clients; the call is recorded in
`deleted`. -/
def del_proxy_client_by_stream_id (w : World) (sid : Nat) : World :=
  { w with deleted := w.deleted ++ [sid]
           all_stream := w.all_stream.filter (fun s => s.id ≠ sid)
           proxy_clients := w.proxy_clients.filter (fun e => e.1 ≠ sid) }

/-- The call `get_proxy_client(sid)` of `client.c`, as a lookup in the table of
proxy clients; `none` is `NULL`. -/
def get_proxy_client (w : World) (sid : Nat) : Option proxy_client :=
  (w.proxy_clients.find? (fun e => e.1 = sid)).map Prod.snd

/-! ## Byte order -/

section Codec

-- `little_endian` tells whether the host stores the low byte first.
variable (little_endian : Bool)

/-- Byte swap of the low 16 bits of a value. -/
def bswap16 (x : Nat) : Nat := x % 256 * 256 + x / 256 % 256

/-- Byte swap of the low 32 bits of a value. -/
def bswap32 (x : Nat) : Nat :=
  x % 256 * 16777216 + x / 256 % 256 * 65536 + x / 65536 % 256 * 256 + x / 16777216 % 256

/-- The libc `htons` on a `uint16_t` argument. -/
def htons (x : Nat) : Nat := if little_endian then bswap16 x else x % 65536

/-- The libc `htonl` on a `uint32_t` argument. -/
def htonl (x : Nat) : Nat := if little_endian then bswap32 x else x % 4294967296

/-- The libc `ntohs`. -/
def ntohs (x : Nat) : Nat := htons little_endian x

/-- The libc `ntohl`. -/
def ntohl (x : Nat) : Nat := htonl little_endian x

/-- The two bytes a `uint16_t` occupies in memory, lowest address first. -/
def mem16 (x : Nat) : List Nat :=
  if little_endian then [x % 256, x / 256 % 256] else [x / 256 % 256, x % 256]

/-- The four bytes a `uint32_t` occupies in memory, lowest address first. -/
def mem32 (x : Nat) : List Nat :=
  if little_endian then [x % 256, x / 256 % 256, x / 65536 % 256, x / 16777216 % 256]
  else [x / 16777216 % 256, x / 65536 % 256, x / 256 % 256, x % 256]

/-- The `uint16_t` stored in two bytes of memory. -/
def load16 (b0 b1 : Nat) : Nat :=
  if little_endian then b0 + 256 * b1 else 256 * b0 + b1

/-- The `uint32_t` stored in four bytes of memory. -/
def load32 (b0 b1 b2 b3 : Nat) : Nat :=
  if little_endian then b0 + 256 * b1 + 65536 * b2 + 16777216 * b3
  else 16777216 * b0 + 65536 * b1 + 256 * b2 + b3

/-- Modelled from the spec: the 12 bytes `(uint8_t *)&tmux_hdr`, the memory
image of a `struct tcp_mux_header` (layout of spec section 3: version, type,
flags, stream_id, length, without padding). -/
def header_bytes (h : tcp_mux_header) : List Nat :=
  [h.version % 256, h.type % 256] ++ mem16 little_endian h.flags ++
    mem32 little_endian h.stream_id ++ mem32 little_endian h.length

/-- Modelled from the spec: the cast `(struct tcp_mux_header *)data` of a byte
buffer, same layout as `header_bytes`; `none` when fewer than 12 bytes exist. -/
def header_of_bytes (data : List Nat) : Option tcp_mux_header :=
  match data with
  | v :: t :: f0 :: f1 :: s0 :: s1 :: s2 :: s3 :: l0 :: l1 :: l2 :: l3 :: _ =>
    some { version := v, type := t, flags := load16 little_endian f0 f1,
           stream_id := load32 little_endian s0 s1 s2 s3,
           length := load32 little_endian l0 l1 l2 l3 }
  | _ => none

/-! ## Frame codec -/

/-- The function `valid_tcp_mux_flag`: membership in the table `flag_desc`. -/
def valid_tcp_mux_flag (flag : Nat) : Nat :=
  if [ZERO, SYN, ACK, FIN, RST].any (fun f => flag = f) then 1 else 0

/-- The function `valid_tcp_mux_type`. -/
def valid_tcp_mux_type (type : Nat) : Nat :=
  if type ≥ DATA ∧ type ≤ GO_AWAY then 1 else 0

/-- The function `valid_tcp_mux_sid`. -/
def valid_tcp_mux_sid (w : World) (sid : Nat) : Nat :=
  if sid = 1 then 1 else if (get_proxy_client w sid).isSome then 1 else 0

/-- The function `validate_tcp_mux_protocol`. -/
def validate_tcp_mux_protocol (tmux_hdr : tcp_mux_header) : Nat :=
  if tmux_hdr.version ≠ proto_version then 0
  else if tmux_hdr.type > GO_AWAY then 0
  else 1

/-- The function `tcp_mux_encode`: the header it fills in. The arguments are
converted to the field types (`uint8_t`, `uint16_t`, `uint32_t`). -/
def tcp_mux_encode (type flags stream_id length : Nat) : tcp_mux_header :=
  { version := proto_version
    type := type % 256
    flags := htons little_endian flags
    stream_id := htonl little_endian stream_id
    length := if length % 4294967296 ≠ 0 then htonl little_endian length else 0 }

/-- The function `tcp_mux_flag`. -/
def tcp_mux_flag (w : World) : Nat := w.tcp_mux

/-- The function `parse_tcp_mux_proto(data, len, &flag, &type, &stream_id, &dlen)`:
the return value and, when they are assigned, the values stored through the
four pointers `(flag, type, stream_id, dlen)`. The `int len` is compared with
`sizeof(struct tcp_mux_header)` as an unsigned number. -/
def parse_tcp_mux_proto (w : World) (data : List Nat) (len : Int) :
    Except Fault (Nat × Option (Nat × Nat × Nat × Nat)) :=
  if w.tcp_mux = 0 then .ok (0, none)
  else if 0 ≤ len ∧ len < 12 then .ok (0, none)
  else
    match header_of_bytes little_endian data with
    | none => .error .out_of_bounds
    | some hdr =>
      if hdr.version = proto_version ∧ valid_tcp_mux_type hdr.type ≠ 0 ∧
          valid_tcp_mux_flag (htons little_endian hdr.flags) ≠ 0 then
        if hdr.type = DATA ∧ valid_tcp_mux_sid w (htonl little_endian hdr.stream_id) = 0 then
          .error .exited
        else
          .ok (1, some (htons little_endian hdr.flags, hdr.type,
            htonl little_endian hdr.stream_id, htonl little_endian hdr.length))
      else .ok (0, none)

/-- The function `reset_session_id`. -/
def reset_session_id (w : World) : World := { w with g_session_id := 1 }

/-- The function `get_next_session_id`: the new state and the id returned. -/
def get_next_session_id (w : World) : World × Nat :=
  ({ w with g_session_id := u32 (w.g_session_id + 2) }, w.g_session_id)

/-- The function `tcp_mux_send_win_update`. -/
def tcp_mux_send_win_update (w : World) (bout flags stream_id delta : Nat) : World :=
  bufferevent_write w bout
    (header_bytes little_endian (tcp_mux_encode little_endian WINDOW_UPDATE flags stream_id delta))

/-- The function `tcp_mux_send_win_update_rst`. -/
def tcp_mux_send_win_update_rst (w : World) (bout stream_id : Nat) : World :=
  if tcp_mux_flag w = 0 then w
  else tcp_mux_send_win_update little_endian w bout RST stream_id 0

/-- The function `tcp_mux_send_data`. -/
def tcp_mux_send_data (w : World) (bout flags stream_id length : Nat) : World :=
  if tcp_mux_flag w = 0 then w
  else bufferevent_write w bout
    (header_bytes little_endian (tcp_mux_encode little_endian DATA flags stream_id length))

/-- The function `tcp_mux_handle_ping`. -/
def tcp_mux_handle_ping (w : World) (bout ping_id : Nat) : World :=
  if tcp_mux_flag w = 0 then w
  else bufferevent_write w bout
    (header_bytes little_endian (tcp_mux_encode little_endian PING ACK 0 ping_id))

/-- The function `tcp_mux_send_go_away`. -/
def tcp_mux_send_go_away (w : World) (bout reason : Nat) : World :=
  if tcp_mux_flag w = 0 then w
  else bufferevent_write w bout
    (header_bytes little_endian (tcp_mux_encode little_endian GO_AWAY 0 0 reason))

end Codec

/-! ## Stream registry -/

/-- The function `get_stream_by_id`. -/
def get_stream_by_id (w : World) (id : Nat) : Option tmux_stream :=
  w.all_stream.find? (fun s => s.id = id)

/-- The function `add_stream` (`HASH_ADD_INT`). -/
def add_stream (w : World) (stream : tmux_stream) : World :=
  { w with all_stream := w.all_stream ++ [stream] }

/-- The function `del_stream`: `assert(all_stream != NULL)`, then the stream
found under `id`, if any, is unlinked. -/
def del_stream (w : World) (id : Nat) : Except Fault World :=
  if w.all_stream.isEmpty then .error .assert_failed
  else .ok { w with all_stream := w.all_stream.eraseP (fun s => s.id = id) }

/-- A write through the pointer returned by `get_stream_by_id`: the registered
record with the id of `stream` becomes `stream`. -/
def put_stream (w : World) (stream : tmux_stream) : World :=
  { w with all_stream :=
      match w.all_stream.findIdx? (fun s => s.id = stream.id) with
      | some k => w.all_stream.set k stream
      | none => w.all_stream }

/-! ## Stream state machine -/

/-- The function `process_flags(flags, stream)`: the stream afterwards and the
return value; `close_stream` leads to `del_proxy_client_by_stream_id`. -/
def process_flags (w : World) (flags : Nat) (stream : tmux_stream) :
    Except Fault (World × tmux_stream × Nat) :=
  let r : Except Fault (tmux_stream × Nat) :=
    if flags &&& ACK = ACK then
      if stream.state = .SYN_SEND then .ok ({ stream with state := .ESTABLISHED }, 0)
      else .ok (stream, 0)
    else if flags &&& FIN = FIN then
      match stream.state with
      | .SYN_SEND => .ok ({ stream with state := .REMOTE_CLOSE }, 0)
      | .SYN_RECEIVED => .ok ({ stream with state := .REMOTE_CLOSE }, 0)
      | .ESTABLISHED => .ok ({ stream with state := .REMOTE_CLOSE }, 0)
      | .LOCAL_CLOSE => .ok ({ stream with state := .CLOSED }, 1)
      | _ => .error .assert_failed
    else if flags &&& RST = RST then .ok ({ stream with state := .RESET }, 1)
    else .ok (stream, 0)
  match r with
  | .error e => .error e
  | .ok (stream, close_stream) =>
    if close_stream ≠ 0 then .ok (del_proxy_client_by_stream_id w stream.id, stream, 1)
    else .ok (w, stream, 1)

/-- The function `get_send_flags`: the stream afterwards and the flags. -/
def get_send_flags (stream : tmux_stream) : tmux_stream × Nat :=
  match stream.state with
  | .INIT => ({ stream with state := .SYN_SEND }, 0 ||| SYN)
  | .SYN_RECEIVED => ({ stream with state := .ESTABLISHED }, 0 ||| ACK)
  | _ => (stream, 0)

section Flow

variable (little_endian : Bool) (RBUF_SIZE MAX_STREAM_WINDOW_SIZE : Nat)

/-- The function `init_tmux_stream`: the record it fills in is registered. -/
def init_tmux_stream (w : World) (id : Nat) (state : tcp_mux_state) : World × tmux_stream :=
  let stream : tmux_stream :=
    { id := id, state := state
      recv_window := u32 MAX_STREAM_WINDOW_SIZE
      send_window := u32 MAX_STREAM_WINDOW_SIZE
      tx_ring := ring_buffer_zero, rx_ring := ring_buffer_zero }
  (add_stream w stream, stream)

/-- The function `send_window_update(bout, stream, length)`. -/
def send_window_update (w : World) (bout : Nat) (stream : tmux_stream) (length : Nat) :
    World × tmux_stream :=
  let max := u32 MAX_STREAM_WINDOW_SIZE
  let delta := u32_sub (u32_sub max length) stream.recv_window
  let sf := get_send_flags stream
  let stream := sf.1
  let flags := sf.2
  if delta < max / 2 ∧ flags = 0 then (w, stream)
  else
    let stream := { stream with recv_window := u32 (stream.recv_window + delta) }
    (tcp_mux_send_win_update little_endian w bout flags stream.id delta, stream)

/-- The function `process_data(stream, length, flags, fn, param)`; `pc` is
`param`. `calloc` is taken to succeed. The return value is the `int` made from
`length`. -/
def process_data (w : World) (stream : tmux_stream) (length flags : Nat)
    (pc : Option proxy_client) : Except Fault (World × tmux_stream × Int) :=
  match process_flags w flags stream with
  | .error e => .error e
  | .ok (w, stream, ok) =>
    if ok = 0 then .ok (w, stream, 0)
    else if length > stream.recv_window then .ok (w, stream, 0)
    else
      let stream := { stream with recv_window := u32_sub stream.recv_window length }
      let moved : Except Fault (World × tmux_stream) :=
        match pc.bind (fun c => c.local_proxy_bev) with
        | none =>
          match ring_buffer_pop RBUF_SIZE stream.rx_ring length with
          | .error e => .error e
          | .ok (ring, data, _) =>
            .ok ({ w with delivered := w.delivered ++ [data] }, { stream with rx_ring := ring })
        | some bev =>
          match ring_buffer_write RBUF_SIZE stream.rx_ring length with
          | .error e => .error e
          | .ok (ring, out, _) => .ok (bufferevent_write w bev out, { stream with rx_ring := ring })
      match moved with
      | .error e => .error e
      | .ok (w, stream) =>
        let bout := w.connect_bev
        let r := send_window_update little_endian MAX_STREAM_WINDOW_SIZE w bout stream length
        .ok (r.1, r.2, to_int32 length)

/-- The function `incr_send_window(bev, tmux_hdr, flags, stream)`. -/
def incr_send_window (w : World) (bev : Option Nat) (tmux_hdr : tcp_mux_header) (flags : Nat)
    (stream : tmux_stream) : Except Fault (World × tmux_stream × Nat) :=
  match process_flags w flags stream with
  | .error e => .error e
  | .ok (w, stream, ok) =>
    if ok = 0 then .ok (w, stream, 0)
    else
      let length := ntohl little_endian tmux_hdr.length
      let w := if stream.send_window = 0 then bufferevent_enable w bev else w
      .ok (w, { stream with send_window := u32 (stream.send_window + length) }, 1)

/-- The function `incoming_stream`. -/
def incoming_stream (w : World) (stream_id : Nat) : World × Nat :=
  if w.local_go_away ≠ 0 then
    (tcp_mux_send_win_update_rst little_endian w w.connect_bev stream_id, 0)
  else (w, 1)

/-- The function `handle_tcp_mux_ping`. -/
def handle_tcp_mux_ping (w : World) (tmux_hdr : tcp_mux_header) : World :=
  let flags := ntohs little_endian tmux_hdr.flags
  let ping_id := ntohl little_endian tmux_hdr.length
  if flags &&& SYN = SYN then tcp_mux_handle_ping little_endian w w.connect_bev ping_id
  else w

/-- The function `handle_tcp_mux_go_away`. -/
def handle_tcp_mux_go_away (w : World) (tmux_hdr : tcp_mux_header) : World :=
  let code := ntohl little_endian tmux_hdr.length
  if code = NORMAL then { w with remote_go_away := 1 } else w

/-- The function `tmux_read(bev, stream, len)`; `input` is the input buffer of
`bev`. Result: the stream, the input left and the return value. -/
def tmux_read (input : List Nat) (stream : tmux_stream) (len : Nat) :
    tmux_stream × List Nat × Nat :=
  let r := ring_buffer_read RBUF_SIZE input stream.rx_ring len
  ({ stream with rx_ring := r.1 }, r.2.1, r.2.2)

/-- The function `handle_tcp_mux_stream(tmux_hdr, fn)`: the state afterwards and
the `int` returned. The stream is changed in place in the registry. -/
def handle_tcp_mux_stream (w : World) (tmux_hdr : tcp_mux_header) : Except Fault (World × Int) :=
  let stream_id := ntohl little_endian tmux_hdr.stream_id
  let flags := ntohs little_endian tmux_hdr.flags
  let inc : World × Nat :=
    if flags &&& SYN = SYN then incoming_stream little_endian w stream_id else (w, 1)
  if inc.2 = 0 then .ok (inc.1, 0)
  else
    let w := inc.1
    let pc := get_proxy_client w stream_id
    match get_stream_by_id w stream_id with
    | none => .error .assert_failed
    | some stream =>
      if tmux_hdr.type = WINDOW_UPDATE then
        let bev : Option Nat :=
          match pc with
          | some c => c.local_proxy_bev
          | none => some w.connect_bev
        match incr_send_window little_endian w bev tmux_hdr flags stream with
        | .error e => .error e
        | .ok (w, stream, ok) =>
          let w := put_stream w stream
          if ok = 0 then
            .ok (tcp_mux_send_go_away little_endian w w.connect_bev PROTO_ERR, 0)
          else .ok (w, 0)
      else
        let length := ntohl little_endian tmux_hdr.length
        match process_data little_endian RBUF_SIZE MAX_STREAM_WINDOW_SIZE w stream length flags pc with
        | .error e => .error e
        | .ok (w, stream, ok) =>
          let w := put_stream w stream
          if ok = 0 then
            .ok (tcp_mux_send_go_away little_endian w w.connect_bev PROTO_ERR, 0)
          else .ok (w, to_int32 length)

/-- The function `tmux_write(bev, data, length, stream)`: the state and the
stream afterwards and the value returned. -/
def tmux_write (w : World) (bev : Nat) (data : List Nat) (length : Nat) (stream : tmux_stream) :
    Except Fault (World × tmux_stream × Nat) :=
  if stream.state = .LOCAL_CLOSE ∨ stream.state = .CLOSED ∨ stream.state = .RESET then
    .ok (w, stream, 0)
  else
    let left := u32_sub RBUF_SIZE stream.tx_ring.sz
    if stream.send_window = 0 then
      if left < length then .ok (w, stream, 0)
      else
        match ring_buffer_append RBUF_SIZE stream.tx_ring data length with
        | .error e => .error e
        | .ok (ring, i) => .ok (w, { stream with tx_ring := ring }, u32 i)
    else
      let sf := get_send_flags stream
      let stream := sf.1
      let flags := sf.2
      let bout := w.connect_bev
      if stream.send_window < stream.tx_ring.sz then
        let max := stream.send_window
        let w := tcp_mux_send_data little_endian w bout flags stream.id max
        match ring_buffer_write RBUF_SIZE stream.tx_ring max with
        | .error e => .error e
        | .ok (ring, out, _) =>
          let w := bufferevent_write w bev out
          match ring_buffer_append RBUF_SIZE ring data length with
          | .error e => .error e
          | .ok (ring, _) =>
            .ok (w, { stream with tx_ring := ring
                                  send_window := u32_sub stream.send_window max }, max)
      else if stream.send_window < u32 (stream.tx_ring.sz + length) then
        let max := stream.send_window
        let w := tcp_mux_send_data little_endian w bout flags stream.id max
        let drained : Except Fault (World × ring_buffer) :=
          if stream.tx_ring.sz > 0 then
            match ring_buffer_write RBUF_SIZE stream.tx_ring stream.tx_ring.sz with
            | .error e => .error e
            | .ok (ring, out, _) => .ok (bufferevent_write w bev out, ring)
          else .ok (w, stream.tx_ring)
        match drained with
        | .error e => .error e
        | .ok (w, ring) =>
          match bufferevent_write_buf w bev data (u32_sub max ring.sz) with
          | .error e => .error e
          | .ok w =>
            match ring_buffer_append RBUF_SIZE ring (data.drop (max - ring.sz))
                (u32_sub (u32 (length + ring.sz)) max) with
            | .error e => .error e
            | .ok (ring, _) =>
              .ok (w, { stream with tx_ring := ring
                                    send_window := u32_sub stream.send_window max }, max)
      else
        let max := u32 (stream.tx_ring.sz + length)
        let w := tcp_mux_send_data little_endian w bout flags stream.id max
        let drained : Except Fault (World × ring_buffer) :=
          if stream.tx_ring.sz > 0 then
            match ring_buffer_write RBUF_SIZE stream.tx_ring stream.tx_ring.sz with
            | .error e => .error e
            | .ok (ring, out, _) => .ok (bufferevent_write w bev out, ring)
          else .ok (w, stream.tx_ring)
        match drained with
        | .error e => .error e
        | .ok (w, ring) =>
          match bufferevent_write_buf w bev data length with
          | .error e => .error e
          | .ok w =>
            .ok (w, { stream with tx_ring := ring
                                  send_window := u32_sub stream.send_window max }, max)

end Flow

/-! ## Sequences of ring operations -/

/-- One step of a client of the ring buffer: `ring_buffer_append(ring, data, len)`
or `ring_buffer_pop(ring, out, len)`. -/
inductive ring_op where
  | append (data : List Nat) (len : Nat)
  | pop (len : Nat)

section RingOps

variable (RBUF_SIZE : Nat)

/-- Runs a sequence of operations on a ring; the result is the final ring and
all popped bytes, in the order they were popped. -/
def run_ring_ops : List ring_op → ring_buffer → Except Fault (ring_buffer × List Nat)
  | [], ring => .ok (ring, [])
  | .append data len :: ops, ring =>
    match ring_buffer_append RBUF_SIZE ring data len with
    | .error e => .error e
    | .ok (ring, _) => run_ring_ops ops ring
  | .pop len :: ops, ring =>
    match ring_buffer_pop RBUF_SIZE ring len with
    | .error e => .error e
    | .ok (ring, out, _) =>
      match run_ring_ops ops ring with
      | .error e => .error e
      | .ok (ring, popped) => .ok (ring, out ++ popped)

/-- The size preconditions of a sequence of operations, for a ring that holds
`held` bytes: an append of `len` bytes needs `len <= RBUF_SIZE - held` (and a
source of at least `len` bytes), a pop of `len` bytes needs `len <= held`. -/
def ring_ops_ok : List ring_op → Nat → Prop
  | [], _ => True
  | .append data len :: ops, held =>
    len ≤ RBUF_SIZE - held ∧ len ≤ data.length ∧ ring_ops_ok ops (held + len)
  | .pop len :: ops, held => len ≤ held ∧ ring_ops_ok ops (held - len)

/-- All bytes a sequence of operations appends, in order. -/
def appended_bytes : List ring_op → List Nat
  | [] => []
  | .append data len :: ops => data.take len ++ appended_bytes ops
  | .pop _ :: ops => appended_bytes ops

/-- The number of bytes a sequence of operations pops. -/
def popped_count : List ring_op → Nat
  | [] => 0
  | .append _ _ :: ops => popped_count ops
  | .pop len :: ops => len + popped_count ops

end RingOps

/-- A FIN that `process_flags` does not expect: the ACK bit is clear, the FIN
bit is set and the stream is in none of SYN_SEND, SYN_RECEIVED, ESTABLISHED,
LOCAL_CLOSE. This is the `default:` branch with `assert(0)`. -/
def unexpected_fin (flags : Nat) (state : tcp_mux_state) : Prop :=
  flags &&& ACK ≠ ACK ∧ flags &&& FIN = FIN ∧
    (state = .INIT ∨ state = .REMOTE_CLOSE ∨ state = .CLOSED ∨ state = .RESET)

instance (flags : Nat) (state : tcp_mux_state) : Decidable (unexpected_fin flags state) := by
  unfold unexpected_fin; infer_instance

/-- The twelve bytes of a GO_AWAY frame with reason PROTO_ERR. -/
def go_away_proto_err_frame : List Nat := [0, 3, 0, 0, 0, 0, 0, 0, 0, 0, 0, 1]

/-- What a call of `tmux_write` leaves behind when it returns: the bytes written
so far to the bufferevent `bev`, the bytes held by `tx_ring`, `send_window` and
the value returned; `none` when the call did not return. -/
def tmux_write_view (RBUF_SIZE bev : Nat) (r : Except Fault (World × tmux_stream × Nat)) :
    Option (List Nat × List Nat × Nat × Nat) :=
  match r with
  | .ok (w, s, n) => some (written_to w bev, ring_contents RBUF_SIZE s.tx_ring, s.send_window, n)
  | .error _ => none

/-! ## Concrete inputs used by the examples -/

/-- A connection with multiplexing enabled, no stream, no proxy client and
nothing written yet; the control connection is bufferevent 0. -/
def idle_world : World :=
  { tcp_mux := 1, remote_go_away := 0, local_go_away := 0, g_session_id := 1,
    all_stream := [], proxy_clients := [], connect_bev := 0, wire := [],
    enabled := [], deleted := [], delivered := [] }

/-- A ring whose first `bytes.length` slots hold `bytes`, read position 0. -/
def ring_of_bytes (bytes : List Nat) : ring_buffer :=
  { cur := 0, end_ := bytes.length, sz := bytes.length, data := fun i => bytes.getD i 0 }

/-- A stream with the given id, state, windows and pending transmit bytes; the
receive ring is empty. -/
def stream_with (id : Nat) (state : tcp_mux_state) (recv_window send_window : Nat)
    (tx : List Nat) : tmux_stream :=
  { id := id, state := state, recv_window := recv_window, send_window := send_window,
    tx_ring := ring_of_bytes tx, rx_ring := ring_buffer_zero }

/-- A ring that holds `sz` bytes from read position `cur` on; slot `i` holds the
byte `i % 256`. -/
def ring_with_size (RBUF_SIZE cur sz : Nat) : ring_buffer :=
  { cur := cur, end_ := (cur + sz) % RBUF_SIZE, sz := sz, data := fun i => i % 256 }

/-- The value `delta` of `send_window_update`: `(max - length) - recv_window` in
`uint32_t` arithmetic, with `max = MAX_STREAM_WINDOW_SIZE`. -/
def window_delta (MAX_STREAM_WINDOW_SIZE length recv_window : Nat) : Nat :=
  u32_sub (u32_sub (u32 MAX_STREAM_WINDOW_SIZE) length) recv_window

/-- What `process_data` does with the payload bytes it takes out of `rx_ring`:
without a proxy client, or without its `local_proxy_bev`, they are handed to the
handler `fn`; otherwise they are written to `local_proxy_bev`. -/
def deliver_payload (w : World) (pc : Option proxy_client) (bytes : List Nat) : World :=
  match pc.bind (fun c => c.local_proxy_bev) with
  | none => { w with delivered := w.delivered ++ [bytes] }
  | some bev => bufferevent_write w bev bytes

/-- The twelve bytes of a WINDOW_UPDATE frame without flags for stream
`stream_id` that carries `delta`. -/
def window_update_frame (stream_id delta : Nat) : List Nat :=
  [0, 1, 0, 0,
   stream_id / 16777216, stream_id / 65536 % 256, stream_id / 256 % 256, stream_id % 256,
   delta / 16777216, delta / 65536 % 256, delta / 256 % 256, delta % 256]

/-- A stream like `stream_with`, with an empty transmit ring and a receive ring
that holds `rx`. -/
def stream_with_rx (id : Nat) (state : tcp_mux_state) (recv_window send_window : Nat)
    (rx : List Nat) : tmux_stream :=
  { id := id, state := state, recv_window := recv_window, send_window := send_window,
    tx_ring := ring_buffer_zero, rx_ring := ring_of_bytes rx }

/-- The frames on which `process_flags` sets the state to CLOSED or RESET: the
ACK bit is clear and either the FIN bit is set and the stream is in LOCAL_CLOSE,
or the FIN bit is clear and the RST bit is set. -/
def closing_frame (flags : Nat) (state : tcp_mux_state) : Prop :=
  flags &&& ACK ≠ ACK ∧
    ((flags &&& FIN = FIN ∧ state = .LOCAL_CLOSE) ∨ (flags &&& FIN ≠ FIN ∧ flags &&& RST = RST))

instance (flags : Nat) (state : tcp_mux_state) : Decidable (closing_frame flags state) := by
  unfold closing_frame; infer_instance

/-! ## Sequences of DATA frames -/

section Frames

variable (little_endian : Bool) (RBUF_SIZE MAX_STREAM_WINDOW_SIZE : Nat)

/-- The reception of DATA frames with flags ZERO on one stream, one payload per
frame: `tmux_read` takes the payload from the connection into `rx_ring`, then
`process_data` handles the frame. -/
def receive_data_frames (pc : Option proxy_client) :
    List (List Nat) → World → tmux_stream → Except Fault (World × tmux_stream)
  | [], w, s => .ok (w, s)
  | payload :: rest, w, s =>
    match process_data little_endian RBUF_SIZE MAX_STREAM_WINDOW_SIZE w
        (tmux_read RBUF_SIZE payload s payload.length).1 payload.length ZERO pc with
    | .error e => .error e
    | .ok (w1, s1, _) => receive_data_frames pc rest w1 s1

end Frames

/-- The number of payload bytes of a sequence of frames. -/
def payload_bytes (frames : List (List Nat)) : Nat :=
  (frames.map List.length).sum

/-- A stream ready for the next DATA frame of a sequence: it is in ESTABLISHED,
its id is a `uint32_t`, and `rx_ring` is well-formed and empty. -/
def frame_ready (RBUF_SIZE : Nat) (s : tmux_stream) : Prop :=
  s.state = .ESTABLISHED ∧ s.id < 4294967296 ∧ ring_wf RBUF_SIZE s.rx_ring ∧ s.rx_ring.sz = 0

/-- The twelve bytes of a PING frame with flag ACK that carries the token `t`. -/
def ping_ack_frame (t : Nat) : List Nat :=
  [0, 2, 0, 2, 0, 0, 0, 0, t / 16777216, t / 65536 % 256, t / 256 % 256, t % 256]

/-- The state after `k` consecutive calls of `get_next_session_id`. -/
def session_calls : Nat → World → World
  | 0, w => w
  | k + 1, w => (get_next_session_id (session_calls k w)).1

/-- The id returned by call number `k` (counted from 0) of a run of consecutive
calls of `get_next_session_id` that starts in `w`. -/
def nth_session_id (k : Nat) (w : World) : Nat :=
  (get_next_session_id (session_calls k w)).2

/-! # Theorems -/

section RingLemmas

variable {RBUF_SIZE : Nat}

theorem u32_of_lt {n : Nat} (h : n < 4294967296) : u32 n = n := by
  unfold u32; omega

theorem u32_sub_of_le {a b : Nat} (hb : b ≤ a) (ha : a < 4294967296) : u32_sub a b = a - b := by
  unfold u32_sub; split <;> omega

theorem add_mod_wrap {a k R : Nat} (ha : a < R) (hk : k ≤ R) :
    (a + k) % R = if a + k < R then a + k else a + k - R := by
  split
  · next h => exact Nat.mod_eq_of_lt h
  · next h =>
    rw [Nat.mod_eq_sub_mod (by omega)]
    exact Nat.mod_eq_of_lt (by omega)

theorem wrap_succ {a R : Nat} (ha : a < R) (hR : R < 4294967296) :
    (if u32 (a + 1) = R then 0 else u32 (a + 1)) = (a + 1) % R := by
  rw [u32_of_lt (by omega), add_mod_wrap ha (by omega)]
  split <;> split <;> omega

theorem ring_index_ne {c k n R : Nat} (hc : c < R) (hk : k < n) (hn : n ≤ R) (hn2 : n < R) :
    (c + k) % R ≠ (c + n) % R := by
  rw [add_mod_wrap hc (by omega), add_mod_wrap hc hn]
  split <;> split <;> omega

theorem ring_push_spec {ring : ring_buffer} (b : Nat) (hwf : ring_wf RBUF_SIZE ring)
    (hsz : ring.sz < RBUF_SIZE) (hR : RBUF_SIZE < 4294967296) :
    ring_wf RBUF_SIZE (ring_push RBUF_SIZE ring b) ∧
    (ring_push RBUF_SIZE ring b).sz = ring.sz + 1 ∧
    (ring_push RBUF_SIZE ring b).cur = ring.cur ∧
    ring_contents RBUF_SIZE (ring_push RBUF_SIZE ring b) = ring_contents RBUF_SIZE ring ++ [b] ∧
    ((ring_push RBUF_SIZE ring b).cur = (ring_push RBUF_SIZE ring b).end_ ↔
      ring.sz + 1 = RBUF_SIZE) := by
  obtain ⟨hc, he, hs, heq⟩ := hwf
  have hend : (ring_push RBUF_SIZE ring b).end_ = (ring.cur + (ring.sz + 1)) % RBUF_SIZE := by
    show (if u32 (ring.end_ + 1) = RBUF_SIZE then 0 else u32 (ring.end_ + 1)) = _
    rw [wrap_succ he hR, heq, Nat.mod_add_mod]; rfl
  have hsz1 : (ring_push RBUF_SIZE ring b).sz = ring.sz + 1 := by
    show u32 (ring.sz + 1) = _
    exact u32_of_lt (by omega)
  have hcur : (ring_push RBUF_SIZE ring b).cur = ring.cur := rfl
  refine ⟨⟨hc, ?_, ?_, ?_⟩, hsz1, hcur, ?_, ?_⟩
  · rw [hend]; exact Nat.mod_lt _ (by omega)
  · rw [hsz1]; omega
  · rw [hend, hsz1, hcur]
  · unfold ring_contents
    rw [hsz1, List.range_succ, List.map_append, hcur]
    congr 1
    · apply List.map_congr_left
      intro k hk
      have hk2 : k < ring.sz := List.mem_range.mp hk
      show store ring.data ring.end_ b _ = _
      unfold store
      rw [if_neg]
      rw [heq]
      exact ring_index_ne hc hk2 hs hsz
    · show [store ring.data ring.end_ b _] = _
      unfold store
      rw [if_pos heq.symm]
  · rw [hend, hcur, add_mod_wrap hc (by omega)]
    split <;> constructor <;> intro h <;> omega

theorem ring_skip_spec {ring : ring_buffer} (hwf : ring_wf RBUF_SIZE ring)
    (hsz : 0 < ring.sz) (hR : RBUF_SIZE < 4294967296) :
    ring_wf RBUF_SIZE (ring_skip RBUF_SIZE ring) ∧
    (ring_skip RBUF_SIZE ring).sz = ring.sz - 1 ∧
    (ring_skip RBUF_SIZE ring).end_ = ring.end_ ∧
    ring_contents RBUF_SIZE ring =
      ring.data ring.cur :: ring_contents RBUF_SIZE (ring_skip RBUF_SIZE ring) ∧
    ((ring_skip RBUF_SIZE ring).cur = (ring_skip RBUF_SIZE ring).end_ ↔ ring.sz = 1) := by
  obtain ⟨hc, he, hs, heq⟩ := hwf
  have hcur : (ring_skip RBUF_SIZE ring).cur = (ring.cur + 1) % RBUF_SIZE := by
    show (if u32 (ring.cur + 1) = RBUF_SIZE then 0 else u32 (ring.cur + 1)) = _
    exact wrap_succ hc hR
  have hsz1 : (ring_skip RBUF_SIZE ring).sz = ring.sz - 1 := by
    show u32_sub ring.sz 1 = _
    exact u32_sub_of_le (by omega) (by omega)
  have hend : (ring_skip RBUF_SIZE ring).end_ = ring.end_ := rfl
  have hdata : (ring_skip RBUF_SIZE ring).data = ring.data := rfl
  have hlt : (ring.cur + 1) % RBUF_SIZE < RBUF_SIZE := Nat.mod_lt _ (by omega)
  have hend2 : ring.end_ = ((ring.cur + 1) % RBUF_SIZE + (ring.sz - 1)) % RBUF_SIZE := by
    have h1 : ring.cur + 1 + (ring.sz - 1) = ring.cur + ring.sz := by omega
    rw [Nat.mod_add_mod, heq, h1]
  refine ⟨⟨?_, ?_, ?_, ?_⟩, hsz1, hend, ?_, ?_⟩
  · rw [hcur]; exact hlt
  · rw [hend]; exact he
  · rw [hsz1]; omega
  · rw [hend, hcur, hsz1]; exact hend2
  · unfold ring_contents
    rw [hsz1, hcur, hdata]
    obtain ⟨m, hm⟩ : ∃ m, ring.sz = m + 1 := ⟨ring.sz - 1, by omega⟩
    rw [hm, List.range_succ_eq_map, List.map_cons, List.map_map]
    simp only [Nat.add_zero, Nat.add_sub_cancel]
    rw [Nat.mod_eq_of_lt hc]
    refine congrArg (List.cons (ring.data ring.cur)) ?_
    apply List.map_congr_left
    intro k _
    simp only [Function.comp, Nat.succ_eq_add_one]
    have h1 : ring.cur + 1 + k = ring.cur + (k + 1) := by omega
    rw [Nat.mod_add_mod, h1]
  · rw [hend, hcur]
    constructor
    · intro h
      by_contra hne
      have h1 : (ring.cur + 1) % RBUF_SIZE = (ring.cur + ring.sz) % RBUF_SIZE := by rw [h, heq]
      rw [add_mod_wrap hc (by omega), add_mod_wrap hc hs] at h1
      split at h1 <;> split at h1 <;> omega
    · intro h; rw [heq, h]

theorem append_loop_spec (hR : RBUF_SIZE < 4294967296) :
    ∀ (n i : Nat) (data : List Nat) (ring : ring_buffer),
      ring_wf RBUF_SIZE ring → ring.sz + n ≤ RBUF_SIZE → n ≤ data.length →
      ∃ ring1, ring_buffer_append_loop RBUF_SIZE n i data ring =
          .ok (ring1, if 0 < n ∧ ring.sz + n = RBUF_SIZE then i + n - 1 else i + n) ∧
        ring_wf RBUF_SIZE ring1 ∧ ring1.sz = ring.sz + n ∧ ring1.cur = ring.cur ∧
        ring_contents RBUF_SIZE ring1 = ring_contents RBUF_SIZE ring ++ data.take n := by
  intro n
  induction n with
  | zero =>
    intro i data ring hwf _ _
    exact ⟨ring, by simp [ring_buffer_append_loop], hwf, rfl, rfl, by simp⟩
  | succ n ih =>
    intro i data ring hwf hsz hlen
    cases data with
    | nil => simp at hlen
    | cons b rest =>
      obtain ⟨hwf1, hsz1, hcur1, hcont1, hfull⟩ := ring_push_spec b hwf (by omega) hR
      have hstep : ring_buffer_append_loop RBUF_SIZE (n + 1) i (b :: rest) ring =
          if (ring_push RBUF_SIZE ring b).cur = (ring_push RBUF_SIZE ring b).end_ then
            .ok (ring_push RBUF_SIZE ring b, i)
          else ring_buffer_append_loop RBUF_SIZE n (i + 1) rest (ring_push RBUF_SIZE ring b) := by
        simp only [ring_buffer_append_loop, ring_push]
      rw [hstep]
      by_cases hfull2 : ring.sz + 1 = RBUF_SIZE
      · rw [if_pos (hfull.mpr hfull2)]
        have hn : n = 0 := by omega
        subst hn
        refine ⟨_, ?_, hwf1, hsz1, hcur1, ?_⟩
        · rw [if_pos ⟨by omega, hfull2⟩]; rfl
        · simp [hcont1]
      · rw [if_neg (fun h => hfull2 (hfull.mp h))]
        have hlen1 : n ≤ rest.length := by simpa using hlen
        obtain ⟨r1, he, hw, hs, hc, hcont⟩ := ih (i + 1) rest _ hwf1 (by omega) hlen1
        refine ⟨r1, ?_, hw, by omega, by rw [hc, hcur1], ?_⟩
        · rw [he, hsz1]
          congr 2
          split <;> split <;> omega
        · rw [hcont, hcont1]; simp

theorem pop_loop_spec (hR : RBUF_SIZE < 4294967296) :
    ∀ (n : Nat) (ring : ring_buffer) (out : List Nat),
      ring_wf RBUF_SIZE ring → n ≤ ring.sz →
      ∃ ring1, ring_buffer_pop_loop RBUF_SIZE n ring out =
          (ring1, out ++ (ring_contents RBUF_SIZE ring).take n) ∧
        ring_wf RBUF_SIZE ring1 ∧ ring1.sz = ring.sz - n ∧ ring1.end_ = ring.end_ ∧
        ring_contents RBUF_SIZE ring1 = (ring_contents RBUF_SIZE ring).drop n := by
  intro n
  induction n with
  | zero =>
    intro ring out hwf _
    exact ⟨ring, by simp [ring_buffer_pop_loop], hwf, rfl, rfl, by simp⟩
  | succ n ih =>
    intro ring out hwf hsz
    obtain ⟨hwf1, hsz1, hend1, hcont1, _⟩ := ring_skip_spec hwf (by omega) hR
    have hstep : ring_buffer_pop_loop RBUF_SIZE (n + 1) ring out =
        ring_buffer_pop_loop RBUF_SIZE n (ring_skip RBUF_SIZE ring) (out ++ [ring.data ring.cur]) := by
      simp only [ring_buffer_pop_loop, ring_skip]
    obtain ⟨r1, he, hw, hs, hen, hcont⟩ := ih (ring_skip RBUF_SIZE ring) (out ++ [ring.data ring.cur])
      hwf1 (by omega)
    refine ⟨r1, ?_, hw, by omega, by rw [hen, hend1], ?_⟩
    · rw [hstep, he, hcont1]; simp
    · rw [hcont, hcont1]; simp

theorem write_loop_spec (hR : RBUF_SIZE < 4294967296) :
    ∀ (n : Nat) (ring : ring_buffer) (out : List Nat),
      ring_wf RBUF_SIZE ring → n ≤ ring.sz →
      ∃ ring1, ring_buffer_write_loop RBUF_SIZE n ring out =
          .ok (ring1, out ++ (ring_contents RBUF_SIZE ring).take n, 0) ∧
        ring_wf RBUF_SIZE ring1 ∧ ring1.sz = ring.sz - n ∧ ring1.end_ = ring.end_ ∧
        ring_contents RBUF_SIZE ring1 = (ring_contents RBUF_SIZE ring).drop n := by
  intro n
  induction n with
  | zero =>
    intro ring out hwf _
    exact ⟨ring, by simp [ring_buffer_write_loop], hwf, rfl, rfl, by simp⟩
  | succ n ih =>
    intro ring out hwf hsz
    obtain ⟨hwf1, hsz1, hend1, hcont1, hempty⟩ := ring_skip_spec hwf (by omega) hR
    have hstep : ring_buffer_write_loop RBUF_SIZE (n + 1) ring out =
        if (ring_skip RBUF_SIZE ring).cur = (ring_skip RBUF_SIZE ring).end_ then
          if (ring_skip RBUF_SIZE ring).sz = 0 then
            .ok (ring_skip RBUF_SIZE ring, out ++ [ring.data ring.cur], n)
          else .error .assert_failed
        else ring_buffer_write_loop RBUF_SIZE n (ring_skip RBUF_SIZE ring)
          (out ++ [ring.data ring.cur]) := by
      simp only [ring_buffer_write_loop, ring_skip]
    rw [hstep]
    by_cases h1 : ring.sz = 1
    · rw [if_pos (hempty.mpr h1), if_pos (by omega)]
      have hn : n = 0 := by omega
      subst hn
      refine ⟨_, ?_, hwf1, by omega, hend1, ?_⟩
      · rw [hcont1]; simp
      · rw [hcont1]; simp
    · rw [if_neg (fun h => h1 (hempty.mp h))]
      obtain ⟨r1, he, hw, hs, hen, hcont⟩ := ih (ring_skip RBUF_SIZE ring)
        (out ++ [ring.data ring.cur]) hwf1 (by omega)
      refine ⟨r1, ?_, hw, by omega, by rw [hen, hend1], ?_⟩
      · rw [he, hcont1]; simp
      · rw [hcont, hcont1]; simp

theorem read_loop_spec (hR : RBUF_SIZE < 4294967296) :
    ∀ (n : Nat) (ring : ring_buffer) (input : List Nat),
      ring_wf RBUF_SIZE ring → ring.sz + n ≤ RBUF_SIZE →
      ring_wf RBUF_SIZE (ring_buffer_read_loop RBUF_SIZE n ring input).1 ∧
      (ring_buffer_read_loop RBUF_SIZE n ring input).1.sz = ring.sz + n := by
  intro n
  induction n with
  | zero =>
    intro ring input hwf _
    exact ⟨hwf, rfl⟩
  | succ n ih =>
    intro ring input hwf hsz
    obtain ⟨hwf1, hsz1, hcur1, _, hfull⟩ := ring_push_spec 0 hwf (by omega) hR
    obtain ⟨d, hstep⟩ : ∃ d : Nat → Nat,
        ring_buffer_read_loop RBUF_SIZE (n + 1) ring input =
        if (ring_push RBUF_SIZE ring 0).cur = (ring_push RBUF_SIZE ring 0).end_ then
          ({ ring_push RBUF_SIZE ring 0 with data := d }, input.tail)
        else ring_buffer_read_loop RBUF_SIZE n { ring_push RBUF_SIZE ring 0 with data := d }
          input.tail := by
      cases input with
      | nil => exact ⟨ring.data, rfl⟩
      | cons b rest => exact ⟨store ring.data ring.end_ b, rfl⟩
    rw [hstep]
    have hwfd : ring_wf RBUF_SIZE { ring_push RBUF_SIZE ring 0 with data := d } := hwf1
    by_cases hfull2 : ring.sz + 1 = RBUF_SIZE
    · rw [if_pos (hfull.mpr hfull2)]
      exact ⟨hwfd, by show (ring_push RBUF_SIZE ring 0).sz = _; omega⟩
    · rw [if_neg (fun h => hfull2 (hfull.mp h))]
      obtain ⟨hw, hs⟩ := ih { ring_push RBUF_SIZE ring 0 with data := d } input.tail hwfd
        (by show (ring_push RBUF_SIZE ring 0).sz + n ≤ _; omega)
      refine ⟨hw, ?_⟩
      rw [hs]; show (ring_push RBUF_SIZE ring 0).sz + n = _; omega

theorem ring_contents_length (ring : ring_buffer) :
    (ring_contents RBUF_SIZE ring).length = ring.sz := by
  simp [ring_contents]

theorem ring_wf_zero (hR0 : 0 < RBUF_SIZE) : ring_wf RBUF_SIZE ring_buffer_zero := by
  refine ⟨hR0, hR0, Nat.zero_le _, ?_⟩
  show 0 = (0 + 0) % RBUF_SIZE
  simp

theorem ring_buffer_append_spec (hR : RBUF_SIZE < 4294967296) (ring : ring_buffer)
    (data : List Nat) (len : Nat) (hwf : ring_wf RBUF_SIZE ring)
    (hlen : len ≤ RBUF_SIZE - ring.sz) (hdata : len ≤ data.length) :
    ∃ ring1, ring_buffer_append RBUF_SIZE ring data len =
        .ok (ring1, if 0 < len ∧ ring.sz + len = RBUF_SIZE then len - 1 else len) ∧
      ring_wf RBUF_SIZE ring1 ∧ ring1.sz = ring.sz + len ∧
      ring_contents RBUF_SIZE ring1 = ring_contents RBUF_SIZE ring ++ data.take len := by
  have hs : ring.sz ≤ RBUF_SIZE := hwf.2.2.1
  obtain ⟨r1, he, hw, hsz, _, hc⟩ := append_loop_spec hR len 0 data ring hwf (by omega) hdata
  refine ⟨r1, ?_, hw, hsz, hc⟩
  unfold ring_buffer_append
  rw [u32_sub_of_le hs hR]
  simp only [ge_iff_le, hlen, if_true]
  rw [he]
  simp

theorem ring_buffer_pop_spec (hR : RBUF_SIZE < 4294967296) (ring : ring_buffer) (len : Nat)
    (hwf : ring_wf RBUF_SIZE ring) (hlen : len ≤ ring.sz) :
    ∃ ring1, ring_buffer_pop RBUF_SIZE ring len =
        .ok (ring1, (ring_contents RBUF_SIZE ring).take len, len) ∧
      ring_wf RBUF_SIZE ring1 ∧ ring1.sz = ring.sz - len ∧
      ring_contents RBUF_SIZE ring1 = (ring_contents RBUF_SIZE ring).drop len := by
  obtain ⟨r1, he, hw, hsz, _, hc⟩ := pop_loop_spec hR len ring [] hwf hlen
  refine ⟨r1, ?_, hw, hsz, hc⟩
  unfold ring_buffer_pop
  simp only [ge_iff_le, hlen, if_true]
  rw [he]
  simp

theorem ring_buffer_write_spec (hR : RBUF_SIZE < 4294967296) (ring : ring_buffer) (len : Nat)
    (hwf : ring_wf RBUF_SIZE ring) :
    ∃ ring1, ring_buffer_write RBUF_SIZE ring len =
        .ok (ring1, (ring_contents RBUF_SIZE ring).take len, 0) ∧
      ring_wf RBUF_SIZE ring1 ∧ ring1.sz = ring.sz - len ∧
      ring_contents RBUF_SIZE ring1 = (ring_contents RBUF_SIZE ring).drop len := by
  unfold ring_buffer_write
  by_cases h0 : ring.sz = 0
  · rw [if_pos h0]
    have hnil : ring_contents RBUF_SIZE ring = [] := by
      apply List.eq_nil_of_length_eq_zero
      rw [ring_contents_length, h0]
    exact ⟨ring, by simp [hnil], hwf, by omega, by simp [hnil]⟩
  · rw [if_neg h0]
    by_cases hgt : len > ring.sz
    · obtain ⟨r1, he, hw, hsz, _, hc⟩ := write_loop_spec hR ring.sz ring [] hwf (Nat.le_refl _)
      have htake : (ring_contents RBUF_SIZE ring).take len =
          (ring_contents RBUF_SIZE ring).take ring.sz := by
        have hl : (ring_contents RBUF_SIZE ring).length = ring.sz := ring_contents_length ring
        rw [List.take_of_length_le (by omega), List.take_of_length_le (by omega)]
      have hdrop : (ring_contents RBUF_SIZE ring).drop len =
          (ring_contents RBUF_SIZE ring).drop ring.sz := by
        have hl : (ring_contents RBUF_SIZE ring).length = ring.sz := ring_contents_length ring
        rw [List.drop_of_length_le (by omega), List.drop_of_length_le (by omega)]
      refine ⟨r1, ?_, hw, by omega, by rw [hc, hdrop]⟩
      simp only [hgt, if_true]
      rw [he, htake]; simp
    · obtain ⟨r1, he, hw, hsz, _, hc⟩ := write_loop_spec hR len ring [] hwf (by omega)
      refine ⟨r1, ?_, hw, hsz, hc⟩
      simp only [hgt, if_false]
      rw [he]; simp

theorem ring_buffer_read_spec (hR : RBUF_SIZE < 4294967296) (ring : ring_buffer)
    (input : List Nat) (len : Nat) (hwf : ring_wf RBUF_SIZE ring) :
    ring_wf RBUF_SIZE (ring_buffer_read RBUF_SIZE input ring len).1 ∧
    (ring_buffer_read RBUF_SIZE input ring len).1.sz =
      ring.sz + min len (RBUF_SIZE - ring.sz) := by
  have hs : ring.sz ≤ RBUF_SIZE := hwf.2.2.1
  unfold ring_buffer_read
  by_cases hfull : ring.sz = RBUF_SIZE
  · rw [if_pos hfull]
    exact ⟨hwf, by show ring.sz = _; omega⟩
  · rw [if_neg hfull, u32_sub_of_le hs hR]
    by_cases hgt : len > RBUF_SIZE - ring.sz
    · simp only [hgt, if_true]
      obtain ⟨hw, hsz⟩ := read_loop_spec hR (RBUF_SIZE - ring.sz) ring input hwf (by omega)
      exact ⟨hw, by rw [hsz]; omega⟩
    · simp only [hgt, if_false]
      obtain ⟨hw, hsz⟩ := read_loop_spec hR len ring input hwf (by omega)
      exact ⟨hw, by rw [hsz]; omega⟩

theorem run_ring_ops_spec (hR : RBUF_SIZE < 4294967296) :
    ∀ (ops : List ring_op) (ring : ring_buffer),
      ring_wf RBUF_SIZE ring → ring_ops_ok RBUF_SIZE ops ring.sz →
      ∃ ring1 popped, run_ring_ops RBUF_SIZE ops ring = .ok (ring1, popped) ∧
        ring_wf RBUF_SIZE ring1 ∧ popped.length = popped_count ops ∧
        popped ++ ring_contents RBUF_SIZE ring1 =
          ring_contents RBUF_SIZE ring ++ appended_bytes ops := by
  intro ops
  induction ops with
  | nil =>
    intro ring hwf _
    exact ⟨ring, [], rfl, hwf, rfl, by simp [appended_bytes]⟩
  | cons op ops ih =>
    intro ring hwf hok
    cases op with
    | append data len =>
      obtain ⟨h1, h2, h3⟩ := hok
      obtain ⟨r1, he, hw, hsz, hc⟩ := ring_buffer_append_spec hR ring data len hwf h1 h2
      obtain ⟨r2, popped, he2, hw2, hl2, hc2⟩ := ih r1 hw (by rw [hsz]; exact h3)
      refine ⟨r2, popped, ?_, hw2, hl2, ?_⟩
      · simp only [run_ring_ops, he, he2]
      · rw [hc2, hc]; simp [appended_bytes]
    | pop len =>
      obtain ⟨h1, h2⟩ := hok
      obtain ⟨r1, he, hw, hsz, hc⟩ := ring_buffer_pop_spec hR ring len hwf h1
      obtain ⟨r2, popped, he2, hw2, hl2, hc2⟩ := ih r1 hw (by rw [hsz]; exact h2)
      refine ⟨r2, (ring_contents RBUF_SIZE ring).take len ++ popped, ?_, hw2, ?_, ?_⟩
      · simp only [run_ring_ops, he, he2]
      · rw [List.length_append, List.length_take, ring_contents_length, hl2]
        simp [popped_count]; omega
      · rw [List.append_assoc, hc2, hc, ← List.append_assoc, List.take_append_drop]
        simp [appended_bytes]

theorem ring_cur_eq_end_iff (ring : ring_buffer) (hwf : ring_wf RBUF_SIZE ring) :
    ring.cur = ring.end_ ↔ (ring.sz = 0 ∨ ring.sz = RBUF_SIZE) := by
  obtain ⟨hc, _, hs, heq⟩ := hwf
  rw [heq, add_mod_wrap hc hs]
  split <;> constructor <;> intro h <;> omega

end RingLemmas

/-! ## Ring buffer: claims -/

/-- Claim C3 (ring buffer FIFO). Starting from a zero-initialised ring, every
interleaved sequence of `ring_buffer_append` and `ring_buffer_pop` calls that
respects the size preconditions runs without a failed assertion, and the
concatenation of the popped bytes is the prefix, of the same length, of the
concatenation of the appended bytes; what is still held is the rest. -/
theorem ring_buffer_fifo (RBUF_SIZE : Nat) (hR0 : 0 < RBUF_SIZE)
    (hR : RBUF_SIZE < 4294967296) (ops : List ring_op)
    (hok : ring_ops_ok RBUF_SIZE ops 0) :
    ∃ ring popped, run_ring_ops RBUF_SIZE ops ring_buffer_zero = .ok (ring, popped) ∧
      popped.length = popped_count ops ∧
      popped = (appended_bytes ops).take popped.length ∧
      popped ++ ring_contents RBUF_SIZE ring = appended_bytes ops := by
  obtain ⟨r1, popped, he, _, hl, hc⟩ :=
    run_ring_ops_spec hR ops ring_buffer_zero (ring_wf_zero hR0) hok
  have hz : ring_contents RBUF_SIZE ring_buffer_zero = [] := rfl
  rw [hz, List.nil_append] at hc
  refine ⟨r1, popped, he, hl, ?_, hc⟩
  rw [← hc, List.take_left]

/-- A run of `ring_buffer_fifo` on a ring of four bytes whose second append
wraps around and fills the ring exactly. -/
theorem ring_buffer_fifo_witness :
    ring_ops_ok 4 [.append [1, 2, 3] 3, .pop 2, .append [4, 5, 6] 3, .pop 4] 0 ∧
    ∃ ring popped,
      run_ring_ops 4 [.append [1, 2, 3] 3, .pop 2, .append [4, 5, 6] 3, .pop 4]
        ring_buffer_zero = .ok (ring, popped) ∧
      popped.length = popped_count [.append [1, 2, 3] 3, .pop 2, .append [4, 5, 6] 3, .pop 4] ∧
      popped = (appended_bytes
        [.append [1, 2, 3] 3, .pop 2, .append [4, 5, 6] 3, .pop 4]).take popped.length ∧
      popped ++ ring_contents 4 ring =
        appended_bytes [.append [1, 2, 3] 3, .pop 2, .append [4, 5, 6] 3, .pop 4] :=
  ⟨by simp [ring_ops_ok],
   ring_buffer_fifo 4 (by decide) (by decide) _ (by simp [ring_ops_ok])⟩

/-- Claim C4 (wrap invariant). The invariant `cur < RBUF_SIZE`, `end < RBUF_SIZE`,
`sz <= RBUF_SIZE`, `end = (cur + sz) mod RBUF_SIZE` holds for a zero-initialised
ring and is kept by `ring_buffer_append` (for `len` up to the free space),
`ring_buffer_pop` (for `len` up to `sz`), `ring_buffer_read` and
`ring_buffer_write` (for every `len`); each of them returns, so in particular
the assertion `sz == 0` of `ring_buffer_write` does not fail. Under the
invariant `cur == end` holds exactly when `sz` is `0` or `RBUF_SIZE`, the ring
holds no byte iff `sz == 0` and `RBUF_SIZE` bytes iff `sz == RBUF_SIZE`. -/
theorem ring_buffer_wrap_invariant (RBUF_SIZE : Nat) (hR0 : 0 < RBUF_SIZE)
    (hR : RBUF_SIZE < 4294967296) :
    ring_wf RBUF_SIZE ring_buffer_zero ∧
    (∀ (ring : ring_buffer) (data : List Nat) (len : Nat), ring_wf RBUF_SIZE ring →
      len ≤ RBUF_SIZE - ring.sz → len ≤ data.length →
      ∃ ring1 n, ring_buffer_append RBUF_SIZE ring data len = .ok (ring1, n) ∧
        ring_wf RBUF_SIZE ring1) ∧
    (∀ (ring : ring_buffer) (len : Nat), ring_wf RBUF_SIZE ring → len ≤ ring.sz →
      ∃ ring1 out n, ring_buffer_pop RBUF_SIZE ring len = .ok (ring1, out, n) ∧
        ring_wf RBUF_SIZE ring1) ∧
    (∀ (ring : ring_buffer) (input : List Nat) (len : Nat), ring_wf RBUF_SIZE ring →
      ring_wf RBUF_SIZE (ring_buffer_read RBUF_SIZE input ring len).1) ∧
    (∀ (ring : ring_buffer) (len : Nat), ring_wf RBUF_SIZE ring →
      ∃ ring1 out n, ring_buffer_write RBUF_SIZE ring len = .ok (ring1, out, n) ∧
        ring_wf RBUF_SIZE ring1) ∧
    (∀ ring : ring_buffer, ring_wf RBUF_SIZE ring →
      (ring.cur = ring.end_ ↔ (ring.sz = 0 ∨ ring.sz = RBUF_SIZE)) ∧
      (ring_contents RBUF_SIZE ring = [] ↔ ring.sz = 0) ∧
      ((ring_contents RBUF_SIZE ring).length = RBUF_SIZE ↔ ring.sz = RBUF_SIZE)) := by
  refine ⟨ring_wf_zero hR0, ?_, ?_, ?_, ?_, ?_⟩
  · intro ring data len hwf hlen hdata
    obtain ⟨r1, he, hw, _⟩ := ring_buffer_append_spec hR ring data len hwf hlen hdata
    exact ⟨r1, _, he, hw⟩
  · intro ring len hwf hlen
    obtain ⟨r1, he, hw, _⟩ := ring_buffer_pop_spec hR ring len hwf hlen
    exact ⟨r1, _, _, he, hw⟩
  · intro ring input len hwf
    exact (ring_buffer_read_spec hR ring input len hwf).1
  · intro ring len hwf
    obtain ⟨r1, he, hw, _⟩ := ring_buffer_write_spec hR ring len hwf
    exact ⟨r1, _, _, he, hw⟩
  · intro ring hwf
    refine ⟨ring_cur_eq_end_iff ring hwf, ?_, ?_⟩
    · rw [← List.length_eq_zero, ring_contents_length]
    · rw [ring_contents_length]

/-- The invariant of `ring_buffer_wrap_invariant` at `RBUF_SIZE = 131072`, for a
full ring whose read position is 5: a write of 131072 bytes returns and leaves
a well-formed ring. -/
theorem ring_buffer_wrap_invariant_witness :
    ring_wf 131072 { cur := 5, end_ := 5, sz := 131072, data := fun i => i % 256 } ∧
    ∃ ring1 out n,
      ring_buffer_write 131072
        { cur := 5, end_ := 5, sz := 131072, data := fun i => i % 256 } 131072 =
          .ok (ring1, out, n) ∧ ring_wf 131072 ring1 :=
  ⟨by decide,
   (ring_buffer_wrap_invariant 131072 (by decide) (by decide)).2.2.2.2.1 _ 131072 (by decide)⟩

/-! ## Frame codec -/

section CodecLemmas

theorem u16_bytes (x : Nat) : x % 65536 = x / 256 % 256 * 256 + x % 256 := by
  have h1 := @Nat.mod_mul 256 256 x
  norm_num at h1
  omega

theorem u32_bytes (x : Nat) :
    x % 4294967296 =
      x / 16777216 % 256 * 16777216 + x / 65536 % 256 * 65536 + x / 256 % 256 * 256 +
        x % 256 := by
  have h1 := @Nat.mod_mul 256 16777216 x
  have h2 := @Nat.mod_mul 256 65536 (x / 256)
  have h3 := @Nat.mod_mul 256 256 (x / 256 / 256)
  have h4 : x / 256 / 256 = x / 65536 := Nat.div_div_eq_div_mul ..
  have h5 : x / 65536 / 256 = x / 16777216 := Nat.div_div_eq_div_mul ..
  rw [h4] at h3
  rw [h4] at h2
  rw [h5] at h3
  norm_num at h1 h2 h3
  omega

theorem bytes16 (h l : Nat) (hh : h < 256) (hl : l < 256) :
    (h * 256 + l) % 256 = l ∧ (h * 256 + l) / 256 % 256 = h := by
  constructor <;> omega

theorem bytes32 (a b c d : Nat) (ha : a < 256) (hb : b < 256) (hc : c < 256) (hd : d < 256) :
    (a * 16777216 + b * 65536 + c * 256 + d) % 256 = d ∧
    (a * 16777216 + b * 65536 + c * 256 + d) / 256 % 256 = c ∧
    (a * 16777216 + b * 65536 + c * 256 + d) / 65536 % 256 = b ∧
    (a * 16777216 + b * 65536 + c * 256 + d) / 16777216 % 256 = a := by
  refine ⟨?_, ?_, ?_, ?_⟩ <;> omega

theorem bswap16_bytes (x : Nat) :
    bswap16 x % 256 = x / 256 % 256 ∧ bswap16 x / 256 % 256 = x % 256 ∧ bswap16 x < 65536 := by
  have hb := bytes16 (x % 256) (x / 256 % 256) (Nat.mod_lt _ (by omega)) (Nat.mod_lt _ (by omega))
  unfold bswap16
  exact ⟨hb.1, hb.2, by omega⟩

theorem bswap32_bytes (x : Nat) :
    bswap32 x % 256 = x / 16777216 % 256 ∧ bswap32 x / 256 % 256 = x / 65536 % 256 ∧
    bswap32 x / 65536 % 256 = x / 256 % 256 ∧ bswap32 x / 16777216 % 256 = x % 256 ∧
    bswap32 x < 4294967296 := by
  have hb := bytes32 (x % 256) (x / 256 % 256) (x / 65536 % 256) (x / 16777216 % 256)
    (Nat.mod_lt _ (by omega)) (Nat.mod_lt _ (by omega)) (Nat.mod_lt _ (by omega))
    (Nat.mod_lt _ (by omega))
  unfold bswap32
  exact ⟨hb.1, hb.2.1, hb.2.2.1, hb.2.2.2, by omega⟩

theorem u16_mod_bytes (x : Nat) :
    x % 65536 % 256 = x % 256 ∧ x % 65536 / 256 % 256 = x / 256 % 256 := by
  have hb := bytes16 (x / 256 % 256) (x % 256) (Nat.mod_lt _ (by omega)) (Nat.mod_lt _ (by omega))
  rw [u16_bytes x]
  exact hb

theorem u32_mod_bytes (x : Nat) :
    x % 4294967296 % 256 = x % 256 ∧ x % 4294967296 / 256 % 256 = x / 256 % 256 ∧
    x % 4294967296 / 65536 % 256 = x / 65536 % 256 ∧
    x % 4294967296 / 16777216 % 256 = x / 16777216 % 256 := by
  have hb := bytes32 (x / 16777216 % 256) (x / 65536 % 256) (x / 256 % 256) (x % 256)
    (Nat.mod_lt _ (by omega)) (Nat.mod_lt _ (by omega)) (Nat.mod_lt _ (by omega))
    (Nat.mod_lt _ (by omega))
  rw [u32_bytes x]
  exact hb

theorem htons_lt (le : Bool) (x : Nat) : htons le x < 65536 := by
  cases le
  · simp only [htons, if_false, Bool.false_eq_true]; omega
  · simp only [htons, if_true]; exact (bswap16_bytes x).2.2

theorem htonl_lt (le : Bool) (x : Nat) : htonl le x < 4294967296 := by
  cases le
  · simp only [htonl, if_false, Bool.false_eq_true]; omega
  · simp only [htonl, if_true]; exact (bswap32_bytes x).2.2.2.2

theorem htons_htons (le : Bool) (x : Nat) : htons le (htons le x) = x % 65536 := by
  cases le
  · simp only [htons, if_false, Bool.false_eq_true]; omega
  · simp only [htons, if_true]
    obtain ⟨h1, h2, _⟩ := bswap16_bytes x
    rw [u16_bytes x]
    show bswap16 x % 256 * 256 + bswap16 x / 256 % 256 = _
    rw [h1, h2]

theorem htonl_htonl (le : Bool) (x : Nat) : htonl le (htonl le x) = x % 4294967296 := by
  cases le
  · simp only [htonl, if_false, Bool.false_eq_true]; omega
  · simp only [htonl, if_true]
    obtain ⟨h1, h2, h3, h4, _⟩ := bswap32_bytes x
    rw [u32_bytes x]
    show bswap32 x % 256 * 16777216 + bswap32 x / 256 % 256 * 65536 +
      bswap32 x / 65536 % 256 * 256 + bswap32 x / 16777216 % 256 = _
    rw [h1, h2, h3, h4]

theorem mem16_htons (le : Bool) (x : Nat) :
    mem16 le (htons le x) = [x / 256 % 256, x % 256] := by
  cases le
  · simp only [mem16, htons, if_false, Bool.false_eq_true]
    rw [(u16_mod_bytes x).1, (u16_mod_bytes x).2]
  · simp only [mem16, htons, if_true]
    rw [(bswap16_bytes x).1, (bswap16_bytes x).2.1]

theorem mem32_htonl (le : Bool) (x : Nat) :
    mem32 le (htonl le x) =
      [x / 16777216 % 256, x / 65536 % 256, x / 256 % 256, x % 256] := by
  cases le
  · simp only [mem32, htonl, if_false, Bool.false_eq_true]
    obtain ⟨h1, h2, h3, h4⟩ := u32_mod_bytes x
    rw [h1, h2, h3, h4]
  · simp only [mem32, htonl, if_true]
    obtain ⟨h1, h2, h3, h4, _⟩ := bswap32_bytes x
    rw [h1, h2, h3, h4]

theorem load16_mem16 (le : Bool) (x : Nat) :
    ∃ b0 b1, mem16 le x = [b0, b1] ∧ load16 le b0 b1 = x % 65536 := by
  have hx := u16_bytes x
  cases le
  · exact ⟨_, _, rfl, by simp only [load16, if_false, Bool.false_eq_true]; omega⟩
  · exact ⟨_, _, rfl, by simp only [load16, if_true]; omega⟩

theorem load32_mem32 (le : Bool) (x : Nat) :
    ∃ b0 b1 b2 b3, mem32 le x = [b0, b1, b2, b3] ∧ load32 le b0 b1 b2 b3 = x % 4294967296 := by
  have hx := u32_bytes x
  cases le
  · exact ⟨_, _, _, _, rfl, by simp only [load32, if_false, Bool.false_eq_true]; omega⟩
  · exact ⟨_, _, _, _, rfl, by simp only [load32, if_true]; omega⟩

theorem header_of_bytes_header_bytes (le : Bool) (h : tcp_mux_header) :
    header_of_bytes le (header_bytes le h) =
      some { version := h.version % 256, type := h.type % 256, flags := h.flags % 65536,
             stream_id := h.stream_id % 4294967296, length := h.length % 4294967296 } := by
  obtain ⟨f0, f1, hf, hf2⟩ := load16_mem16 le h.flags
  obtain ⟨s0, s1, s2, s3, hs, hs2⟩ := load32_mem32 le h.stream_id
  obtain ⟨l0, l1, l2, l3, hl, hl2⟩ := load32_mem32 le h.length
  simp only [header_bytes, hf, hs, hl, List.cons_append, List.nil_append, header_of_bytes,
    hf2, hs2, hl2]

end CodecLemmas

/-- Claim C6 (header layout). For every type, flags, stream id and length (in
the range of their field), `tcp_mux_encode` fills a header whose 12 bytes in
memory are `00`, the type, the flags high byte first, the stream id and the
length as four big-endian bytes each, whatever the byte order of the host; the
header of DATA with SYN for stream 3 and length 0 is
`00 00 00 01 00 00 00 03 00 00 00 00`. -/
theorem tcp_mux_encode_layout (little_endian : Bool) (type flags stream_id length : Nat)
    (ht : type < 256) (hf : flags < 65536) (hs : stream_id < 4294967296)
    (hl : length < 4294967296) :
    header_bytes little_endian (tcp_mux_encode little_endian type flags stream_id length) =
      [0, type, flags / 256, flags % 256,
       stream_id / 16777216, stream_id / 65536 % 256, stream_id / 256 % 256, stream_id % 256,
       length / 16777216, length / 65536 % 256, length / 256 % 256, length % 256] ∧
    header_bytes little_endian (tcp_mux_encode little_endian DATA SYN 3 0) =
      [0, 0, 0, 1, 0, 0, 0, 3, 0, 0, 0, 0] := by
  constructor
  · have hlen : mem32 little_endian
        (if length % 4294967296 ≠ 0 then htonl little_endian length else 0) =
        [length / 16777216 % 256, length / 65536 % 256, length / 256 % 256, length % 256] := by
      by_cases h0 : length = 0
      · subst h0; cases little_endian <;> rfl
      · rw [if_pos (by omega), mem32_htonl]
    simp only [header_bytes, tcp_mux_encode, proto_version, mem16_htons, mem32_htonl, hlen,
      List.cons_append, List.nil_append, List.cons.injEq, and_true, true_and]
    refine ⟨?_, ?_, ?_, ?_⟩ <;> omega
  · cases little_endian <;> decide

/-- The layout of `tcp_mux_encode_layout` for a WINDOW_UPDATE with ACK on a
little-endian host. -/
theorem tcp_mux_encode_layout_witness :
    header_bytes true (tcp_mux_encode true WINDOW_UPDATE ACK 16909060 168496141) =
      [0, 1, 0, 2, 1, 2, 3, 4, 10, 11, 12, 13] :=
  (tcp_mux_encode_layout true WINDOW_UPDATE ACK 16909060 168496141
    (by decide) (by decide) (by decide) (by decide)).1

/-- Claim C5 (codec round trip). With multiplexing enabled, for every type in
DATA, WINDOW_UPDATE, PING, GO_AWAY, every flag in ZERO, SYN, ACK, FIN, RST,
every 32 bit stream id and length, where for DATA the stream id is 1 or that of
a known proxy client, `parse_tcp_mux_proto` on the 12 bytes of the header made
by `tcp_mux_encode` returns 1 and stores exactly the flag, type, stream id and
length that were encoded. -/
theorem codec_round_trip (little_endian : Bool) (w : World)
    (type flags stream_id length : Nat) (hmux : w.tcp_mux ≠ 0)
    (ht : type = DATA ∨ type = WINDOW_UPDATE ∨ type = PING ∨ type = GO_AWAY)
    (hf : flags = ZERO ∨ flags = SYN ∨ flags = ACK ∨ flags = FIN ∨ flags = RST)
    (hs : stream_id < 4294967296) (hl : length < 4294967296)
    (hsid : type = DATA → stream_id = 1 ∨ (get_proxy_client w stream_id).isSome) :
    parse_tcp_mux_proto little_endian w
        (header_bytes little_endian (tcp_mux_encode little_endian type flags stream_id length))
        12 = .ok (1, some (flags, type, stream_id, length)) := by
  have ht2 : type ≤ 3 := by
    simp only [DATA, WINDOW_UPDATE, PING, GO_AWAY] at ht; omega
  have hf2 : flags < 65536 := by
    simp only [ZERO, SYN, ACK, FIN, RST] at hf; omega
  have hlen : htonl little_endian
      (if length % 4294967296 ≠ 0 then htonl little_endian length else 0) = length := by
    by_cases h0 : length = 0
    · subst h0; cases little_endian <;> rfl
    · rw [if_pos (by omega), htonl_htonl]; omega
  have hvt : valid_tcp_mux_type type ≠ 0 := by
    simp only [valid_tcp_mux_type, DATA, GO_AWAY]
    rw [if_pos ⟨by omega, ht2⟩]; omega
  have hvf : valid_tcp_mux_flag flags ≠ 0 := by
    rcases hf with h | h | h | h | h <;> subst h <;> decide
  have hvs : ¬ (type = DATA ∧ valid_tcp_mux_sid w stream_id = 0) := by
    rintro ⟨h1, h2⟩
    unfold valid_tcp_mux_sid at h2
    rcases hsid h1 with h | h
    · rw [if_pos h] at h2; omega
    · rw [h] at h2; simp at h2
  unfold parse_tcp_mux_proto
  rw [if_neg hmux, if_neg (by omega), header_of_bytes_header_bytes]
  have hlt : (if length % 4294967296 ≠ 0 then htonl little_endian length else 0) % 4294967296 =
      (if length % 4294967296 ≠ 0 then htonl little_endian length else 0) := by
    split
    · exact Nat.mod_eq_of_lt (htonl_lt _ _)
    · rfl
  simp only [tcp_mux_encode, proto_version, Nat.zero_mod, Nat.mod_eq_of_lt (htons_lt _ _),
    Nat.mod_eq_of_lt (htonl_lt _ _), htons_htons, htonl_htonl, hlt, hlen, Nat.mod_mod,
    Nat.mod_eq_of_lt (show type < 256 by omega), Nat.mod_eq_of_lt hf2, Nat.mod_eq_of_lt hs]
  rw [if_pos ⟨trivial, hvt, hvf⟩, if_neg hvs]

/-- The round trip of `codec_round_trip` for a DATA frame with FIN on the
control stream, on a little-endian host. -/
theorem codec_round_trip_witness :
    parse_tcp_mux_proto true idle_world
        (header_bytes true (tcp_mux_encode true DATA FIN 1 305419896)) 12 =
      .ok (1, some (FIN, DATA, 1, 305419896)) :=
  codec_round_trip true idle_world DATA FIN 1 305419896 (by decide) (Or.inl rfl)
    (Or.inr (Or.inr (Or.inr (Or.inl rfl)))) (by decide) (by decide) (fun _ => Or.inl rfl)

/-- Claim C7, counterexample. A header with version 0, type DATA and all
sixteen flag bits set, so with bits outside SYN, ACK, FIN, RST under either byte
order, is accepted by `validate_tcp_mux_protocol`. -/
theorem validate_tcp_mux_protocol_ignores_flags :
    validate_tcp_mux_protocol
      { version := 0, type := 0, flags := 65535, stream_id := 0, length := 0 } = 1 ∧
    ntohs true 65535 &&& (SYN ||| ACK ||| FIN ||| RST) ≠ ntohs true 65535 ∧
    ntohs false 65535 &&& (SYN ||| ACK ||| FIN ||| RST) ≠ ntohs false 65535 := by
  decide

/-- Claim C7, amended (header validation). `validate_tcp_mux_protocol` returns 0
for every header whose version is not 0 or whose type is not one of DATA,
WINDOW_UPDATE, PING, GO_AWAY; it does not read the flags.
`parse_tcp_mux_proto` returns 0, and stores nothing, for every header whose
version is not 0, or whose type is not one of the four, or whose flags are not
exactly one of ZERO, SYN, ACK, FIN, RST, which includes every flags value with a
bit outside SYN, ACK, FIN, RST. -/
theorem header_validation (little_endian : Bool) (w : World) (data : List Nat) (len : Int)
    (hdr : tcp_mux_header) (hcast : header_of_bytes little_endian data = some hdr) :
    ((hdr.version ≠ 0 ∨
        (hdr.type ≠ DATA ∧ hdr.type ≠ WINDOW_UPDATE ∧ hdr.type ≠ PING ∧ hdr.type ≠ GO_AWAY)) →
      validate_tcp_mux_protocol hdr = 0) ∧
    ((hdr.version ≠ 0 ∨
        (hdr.type ≠ DATA ∧ hdr.type ≠ WINDOW_UPDATE ∧ hdr.type ≠ PING ∧ hdr.type ≠ GO_AWAY) ∨
        (ntohs little_endian hdr.flags ≠ ZERO ∧ ntohs little_endian hdr.flags ≠ SYN ∧
          ntohs little_endian hdr.flags ≠ ACK ∧ ntohs little_endian hdr.flags ≠ FIN ∧
          ntohs little_endian hdr.flags ≠ RST) ∨
        ntohs little_endian hdr.flags &&& (SYN ||| ACK ||| FIN ||| RST) ≠
          ntohs little_endian hdr.flags) →
      parse_tcp_mux_proto little_endian w data len = .ok (0, none)) := by
  constructor
  · intro h
    unfold validate_tcp_mux_protocol
    simp only [proto_version, DATA, WINDOW_UPDATE, PING, GO_AWAY] at h ⊢
    by_cases hv : hdr.version = 0
    · rw [if_neg (by omega), if_pos (by omega)]
    · rw [if_pos hv]
  · intro h
    unfold parse_tcp_mux_proto
    by_cases hmux : w.tcp_mux = 0
    · rw [if_pos hmux]
    rw [if_neg hmux]
    by_cases hlen : 0 ≤ len ∧ len < 12
    · rw [if_pos hlen]
    rw [if_neg hlen, hcast]
    show (if hdr.version = proto_version ∧ valid_tcp_mux_type hdr.type ≠ 0 ∧
        valid_tcp_mux_flag (htons little_endian hdr.flags) ≠ 0 then _ else _) = _
    rw [if_neg]
    rintro ⟨h1, h2, h3⟩
    have hty : hdr.type ≤ 3 := by
      unfold valid_tcp_mux_type at h2
      by_contra hc
      rw [if_neg (by simp only [GO_AWAY]; omega)] at h2
      exact h2 rfl
    have hfl : htons little_endian hdr.flags = ZERO ∨ htons little_endian hdr.flags = SYN ∨
        htons little_endian hdr.flags = ACK ∨ htons little_endian hdr.flags = FIN ∨
        htons little_endian hdr.flags = RST := by
      unfold valid_tcp_mux_flag at h3
      by_contra hc
      simp only [not_or] at hc
      apply h3
      simp [hc]
    rcases h with h | h | h | h
    · exact h h1
    · simp only [DATA, WINDOW_UPDATE, PING, GO_AWAY] at h; omega
    · simp only [ntohs] at h
      rcases hfl with e | e | e | e | e
      · exact h.1 e
      · exact h.2.1 e
      · exact h.2.2.1 e
      · exact h.2.2.2.1 e
      · exact h.2.2.2.2 e
    · simp only [ntohs] at h
      rcases hfl with e | e | e | e | e <;> rw [e] at h <;> exact h (by decide)

/-- The rejection of `header_validation` for the twelve bytes
`00 00 00 10 00 00 00 01 00 00 00 00` (flags 0x0010) on a little-endian host. -/
theorem header_validation_witness :
    header_of_bytes true [0, 0, 0, 16, 0, 0, 0, 1, 0, 0, 0, 0] =
      some { version := 0, type := 0, flags := 4096, stream_id := 16777216, length := 0 } ∧
    ntohs true 4096 &&& (SYN ||| ACK ||| FIN ||| RST) ≠ ntohs true 4096 ∧
    parse_tcp_mux_proto true idle_world [0, 0, 0, 16, 0, 0, 0, 1, 0, 0, 0, 0] 12 =
      .ok (0, none) :=
  ⟨by decide, by decide,
   (header_validation true idle_world [0, 0, 0, 16, 0, 0, 0, 1, 0, 0, 0, 0] 12
      { version := 0, type := 0, flags := 4096, stream_id := 16777216, length := 0 }
      (by decide)).2 (Or.inr (Or.inr (Or.inr (by decide))))⟩

/-! ## Stream state machine -/

/-- Claim C9, counterexample. `process_flags` with ACK on a stream in
SYN_RECEIVED returns 1 and leaves the stream in SYN_RECEIVED. -/
theorem process_flags_ack_syn_received :
    (process_flags idle_world ACK
        (stream_with 3 .SYN_RECEIVED 262144 262144 [])).toOption.map
      (fun r => (r.2.1.state, r.2.2)) = some (.SYN_RECEIVED, 1) := by
  decide

/-- Claim C9, amended (received ACK). For every stream and every flags value
with the ACK bit, `process_flags` returns 1, moves the state SYN_SEND to
ESTABLISHED, leaves every other state, among them SYN_RECEIVED, ESTABLISHED,
LOCAL_CLOSE and REMOTE_CLOSE, unchanged, and does not tear down the proxy
client. -/
theorem process_flags_ack (w : World) (flags : Nat) (stream : tmux_stream)
    (hack : flags &&& ACK = ACK) :
    process_flags w flags stream =
      .ok (w, { stream with
                state := if stream.state = .SYN_SEND then .ESTABLISHED else stream.state }, 1) := by
  unfold process_flags
  simp only [hack, if_true]
  by_cases h : stream.state = .SYN_SEND
  · simp [h]
  · simp [h]

/-- The transition of `process_flags_ack` for a WINDOW_UPDATE reply with ACK to
a stream in SYN_SEND. -/
theorem process_flags_ack_witness :
    process_flags idle_world ACK (stream_with 3 .SYN_SEND 262144 262144 []) =
      .ok (idle_world, { stream_with 3 .SYN_SEND 262144 262144 [] with
        state := if (stream_with 3 .SYN_SEND 262144 262144 []).state = .SYN_SEND
          then .ESTABLISHED else (stream_with 3 .SYN_SEND 262144 262144 []).state }, 1) :=
  process_flags_ack idle_world ACK (stream_with 3 .SYN_SEND 262144 262144 []) (by decide)

/-- Claim C10 (received FIN and RST). For every stream, `process_flags` with
flags FIN moves SYN_SEND, SYN_RECEIVED and ESTABLISHED to REMOTE_CLOSE and
LOCAL_CLOSE to CLOSED; with flags RST it moves every state to RESET; it returns
1 in these cases, and `del_proxy_client_by_stream_id` is called, once and with
the id of the stream, exactly when the state it leaves is CLOSED or RESET. -/
theorem process_flags_fin_rst (w : World) (stream : tmux_stream) :
    ((stream.state = .SYN_SEND ∨ stream.state = .SYN_RECEIVED ∨ stream.state = .ESTABLISHED) →
      process_flags w FIN stream = .ok (w, { stream with state := .REMOTE_CLOSE }, 1)) ∧
    (stream.state = .LOCAL_CLOSE →
      process_flags w FIN stream =
        .ok (del_proxy_client_by_stream_id w stream.id, { stream with state := .CLOSED }, 1)) ∧
    process_flags w RST stream =
      .ok (del_proxy_client_by_stream_id w stream.id, { stream with state := .RESET }, 1) ∧
    (∀ (flags : Nat) (w1 : World) (s1 : tmux_stream) (r : Nat), flags = FIN ∨ flags = RST →
      process_flags w flags stream = .ok (w1, s1, r) →
      (w1.deleted = w.deleted ++ [stream.id] ∧ (s1.state = .CLOSED ∨ s1.state = .RESET)) ∨
      (w1.deleted = w.deleted ∧ s1.state ≠ .CLOSED ∧ s1.state ≠ .RESET)) := by
  have hfin1 : FIN &&& ACK ≠ ACK := by decide
  have hfin2 : FIN &&& FIN = FIN := by decide
  have hrst1 : RST &&& ACK ≠ ACK := by decide
  have hrst2 : RST &&& FIN ≠ FIN := by decide
  have hrst3 : RST &&& RST = RST := by decide
  refine ⟨?_, ?_, ?_, ?_⟩
  · intro h
    unfold process_flags
    simp only [hfin1, hfin2, if_true, if_false]
    rcases h with h | h | h <;> simp [h]
  · intro h
    unfold process_flags
    simp only [hfin1, hfin2, if_true, if_false]
    simp [h]
  · unfold process_flags
    simp only [hrst1, hrst2, hrst3, if_true, if_false]
    simp
  · intro flags w1 s1 r hflags hres
    rcases hflags with hf | hf
    · subst hf
      unfold process_flags at hres
      simp only [hfin1, hfin2, if_true, if_false] at hres
      cases hst : stream.state <;> simp [hst, del_proxy_client_by_stream_id] at hres <;>
        obtain ⟨h1, h2, _⟩ := hres <;> subst h1 <;> subst h2 <;> simp
    · subst hf
      unfold process_flags at hres
      simp only [hrst1, hrst2, hrst3, if_true, if_false] at hres
      simp [del_proxy_client_by_stream_id] at hres
      obtain ⟨h1, h2, _⟩ := hres
      subst h1; subst h2; simp

/-- The transitions of `process_flags_fin_rst` for a peer FIN on stream 3 in
LOCAL_CLOSE: the stream becomes CLOSED and its proxy client is torn down. -/
theorem process_flags_fin_rst_witness :
    (stream_with 3 .LOCAL_CLOSE 262144 262144 []).state = .LOCAL_CLOSE ∧
    process_flags idle_world FIN (stream_with 3 .LOCAL_CLOSE 262144 262144 []) =
      .ok (del_proxy_client_by_stream_id idle_world
            (stream_with 3 .LOCAL_CLOSE 262144 262144 []).id,
          { stream_with 3 .LOCAL_CLOSE 262144 262144 [] with state := .CLOSED }, 1) :=
  ⟨rfl, (process_flags_fin_rst idle_world (stream_with 3 .LOCAL_CLOSE 262144 262144 [])).2.1 rfl⟩

/-! ## Frame router -/

section RouterLemmas

theorem written_to_bufferevent_write (w : World) (bev : Nat) (bytes : List Nat) :
    written_to (bufferevent_write w bev bytes) bev = written_to w bev ++ bytes := by
  unfold written_to bufferevent_write
  simp only [List.filter_append, List.map_append]
  congr 1
  induction bytes with
  | nil => rfl
  | cons b rest ih => simp [List.filter_cons, ih]

theorem go_away_frame_bytes (le : Bool) :
    header_bytes le (tcp_mux_encode le GO_AWAY 0 0 PROTO_ERR) = go_away_proto_err_frame := by
  cases le <;> decide

theorem process_flags_fault (w : World) (flags : Nat) (stream : tmux_stream)
    (h : unexpected_fin flags stream.state) :
    process_flags w flags stream = .error .assert_failed := by
  obtain ⟨h1, h2, h3⟩ := h
  unfold process_flags
  simp only [h1, h2, if_true, if_false]
  rcases h3 with h | h | h | h <;> simp [h]

theorem process_flags_ok (w : World) (flags : Nat) (stream : tmux_stream)
    (h : ¬ unexpected_fin flags stream.state) :
    ∃ w1 s1, process_flags w flags stream = .ok (w1, s1, 1) ∧
      w1.wire = w.wire ∧ w1.tcp_mux = w.tcp_mux ∧ w1.connect_bev = w.connect_bev ∧
      s1.id = stream.id ∧ s1.recv_window = stream.recv_window ∧
      s1.send_window = stream.send_window ∧ s1.rx_ring = stream.rx_ring ∧
      s1.tx_ring = stream.tx_ring := by
  unfold unexpected_fin at h
  by_cases hack : flags &&& ACK = ACK
  · by_cases hs : stream.state = .SYN_SEND
    · exact ⟨w, { stream with state := .ESTABLISHED }, by simp [process_flags, hack, hs],
        rfl, rfl, rfl, rfl, rfl, rfl, rfl, rfl⟩
    · exact ⟨w, stream, by simp [process_flags, hack, hs], rfl, rfl, rfl, rfl, rfl, rfl, rfl, rfl⟩
  · by_cases hfin : flags &&& FIN = FIN
    · have hst : stream.state = .SYN_SEND ∨ stream.state = .SYN_RECEIVED ∨
          stream.state = .ESTABLISHED ∨ stream.state = .LOCAL_CLOSE := by
        cases hs : stream.state <;> simp [hs, hack, hfin] at h ⊢
      rcases hst with hs | hs | hs | hs
      · exact ⟨w, { stream with state := .REMOTE_CLOSE }, by simp [process_flags, hack, hfin, hs],
          rfl, rfl, rfl, rfl, rfl, rfl, rfl, rfl⟩
      · exact ⟨w, { stream with state := .REMOTE_CLOSE }, by simp [process_flags, hack, hfin, hs],
          rfl, rfl, rfl, rfl, rfl, rfl, rfl, rfl⟩
      · exact ⟨w, { stream with state := .REMOTE_CLOSE }, by simp [process_flags, hack, hfin, hs],
          rfl, rfl, rfl, rfl, rfl, rfl, rfl, rfl⟩
      · exact ⟨del_proxy_client_by_stream_id w stream.id, { stream with state := .CLOSED },
          by simp [process_flags, hack, hfin, hs], rfl, rfl, rfl, rfl, rfl, rfl, rfl, rfl⟩
    · by_cases hrst : flags &&& RST = RST
      · exact ⟨del_proxy_client_by_stream_id w stream.id, { stream with state := .RESET },
          by simp [process_flags, hack, hfin, hrst], rfl, rfl, rfl, rfl, rfl, rfl, rfl, rfl⟩
      · exact ⟨w, stream, by simp [process_flags, hack, hfin, hrst],
          rfl, rfl, rfl, rfl, rfl, rfl, rfl, rfl⟩

theorem put_stream_fields (w : World) (stream : tmux_stream) :
    (put_stream w stream).wire = w.wire ∧ (put_stream w stream).tcp_mux = w.tcp_mux ∧
    (put_stream w stream).connect_bev = w.connect_bev :=
  ⟨rfl, rfl, rfl⟩

end RouterLemmas

/-- Claim C8, counterexample. With stream 3 alone in the registry, a DATA frame
for stream 99 stops `handle_tcp_mux_stream` at `assert(stream != NULL)`; with
stream 3 in REMOTE_CLOSE, a DATA frame with FIN for it stops at the `assert(0)`
of `process_flags`. -/
theorem handle_tcp_mux_stream_aborts :
    fault_of (handle_tcp_mux_stream true 131072 262144
      { idle_world with all_stream := [stream_with 3 .ESTABLISHED 262144 262144 []] }
      { version := 0, type := DATA, flags := htons true ZERO, stream_id := htonl true 99,
        length := htonl true 5 }) = some .assert_failed ∧
    fault_of (handle_tcp_mux_stream true 131072 262144
      { idle_world with all_stream := [stream_with 3 .REMOTE_CLOSE 262144 262144 []] }
      { version := 0, type := DATA, flags := htons true FIN, stream_id := htonl true 3,
        length := htonl true 0 }) = some .assert_failed := by
  decide

/-- Claim C8, amended (outcome of an inbound DATA or WINDOW_UPDATE frame). Let
the frame not be a SYN refused because of `local_go_away`. If its stream id is
not in the registry, `handle_tcp_mux_stream` stops at `assert(stream != NULL)`;
if the stream is registered and the frame carries a FIN that its state does not
expect, it stops at the `assert(0)` of `process_flags`. Otherwise it returns: a WINDOW_UPDATE returns 0 and writes nothing; a
DATA frame longer than `recv_window` returns 0 and, with multiplexing enabled,
writes the GO_AWAY frame with reason PROTO_ERR, `00 03 00 00 00 00 00 00 00 00 00 01`,
to the control connection; a DATA frame within `recv_window` whose payload is
held in a well-formed `rx_ring` returns as well. -/
theorem handle_tcp_mux_stream_outcomes (little_endian : Bool)
    (RBUF_SIZE MAX_STREAM_WINDOW_SIZE : Nat) (hR : RBUF_SIZE < 4294967296)
    (w : World) (hdr : tcp_mux_header)
    (hgo : ¬ (ntohs little_endian hdr.flags &&& SYN = SYN ∧ w.local_go_away ≠ 0)) :
    (get_stream_by_id w (ntohl little_endian hdr.stream_id) = none →
      handle_tcp_mux_stream little_endian RBUF_SIZE MAX_STREAM_WINDOW_SIZE w hdr =
        .error .assert_failed) ∧
    (∀ s, get_stream_by_id w (ntohl little_endian hdr.stream_id) = some s →
      unexpected_fin (ntohs little_endian hdr.flags) s.state →
      handle_tcp_mux_stream little_endian RBUF_SIZE MAX_STREAM_WINDOW_SIZE w hdr =
        .error .assert_failed) ∧
    (∀ s, get_stream_by_id w (ntohl little_endian hdr.stream_id) = some s →
      ¬ unexpected_fin (ntohs little_endian hdr.flags) s.state →
      hdr.type = WINDOW_UPDATE →
      ∃ w1, handle_tcp_mux_stream little_endian RBUF_SIZE MAX_STREAM_WINDOW_SIZE w hdr =
          .ok (w1, 0) ∧ w1.wire = w.wire) ∧
    (∀ s, get_stream_by_id w (ntohl little_endian hdr.stream_id) = some s →
      ¬ unexpected_fin (ntohs little_endian hdr.flags) s.state →
      hdr.type = DATA → ntohl little_endian hdr.length > s.recv_window → w.tcp_mux ≠ 0 →
      ∃ w1, handle_tcp_mux_stream little_endian RBUF_SIZE MAX_STREAM_WINDOW_SIZE w hdr =
          .ok (w1, 0) ∧
        written_to w1 w.connect_bev = written_to w w.connect_bev ++ go_away_proto_err_frame) ∧
    (∀ s, get_stream_by_id w (ntohl little_endian hdr.stream_id) = some s →
      ¬ unexpected_fin (ntohs little_endian hdr.flags) s.state →
      hdr.type = DATA → ntohl little_endian hdr.length ≤ s.recv_window →
      ring_wf RBUF_SIZE s.rx_ring → ntohl little_endian hdr.length ≤ s.rx_ring.sz →
      ∃ w1 n, handle_tcp_mux_stream little_endian RBUF_SIZE MAX_STREAM_WINDOW_SIZE w hdr =
          .ok (w1, n)) := by
  have hinc : (if ntohs little_endian hdr.flags &&& SYN = SYN then
      incoming_stream little_endian w (ntohl little_endian hdr.stream_id) else (w, 1)) = (w, 1) := by
    by_cases hsyn : ntohs little_endian hdr.flags &&& SYN = SYN
    · have hl : w.local_go_away = 0 := by
        by_contra hc; exact hgo ⟨hsyn, hc⟩
      simp [hsyn, incoming_stream, hl]
    · simp [hsyn]
  have hdw : DATA ≠ WINDOW_UPDATE := by decide
  refine ⟨?_, ?_, ?_, ?_, ?_⟩
  · intro hnone
    unfold handle_tcp_mux_stream
    simp only [hinc, hnone]
    simp
  · intro s hs hfin
    unfold handle_tcp_mux_stream
    simp only [hinc, hs]
    by_cases hty : hdr.type = WINDOW_UPDATE
    · simp [hty, incr_send_window, process_flags_fault w _ s hfin]
    · simp [hty, process_data, process_flags_fault w _ s hfin]
  · intro s hs hfin hty
    obtain ⟨w1, s1, he, hw, _⟩ := process_flags_ok w (ntohs little_endian hdr.flags) s hfin
    unfold handle_tcp_mux_stream
    simp only [hinc, hs]
    simp only [hty, incr_send_window, he]
    simp only [one_ne_zero, if_true, if_false]
    refine ⟨_, rfl, ?_⟩
    show (if s1.send_window = 0 then bufferevent_enable w1 _ else w1).wire = w.wire
    split <;> exact hw
  · intro s hs hfin hty hlen hmux
    obtain ⟨w1, s1, he, hw, hm, hc, _, hrw, _⟩ :=
      process_flags_ok w (ntohs little_endian hdr.flags) s hfin
    unfold handle_tcp_mux_stream
    simp only [hinc, hs]
    simp only [hty, hdw, process_data, he]
    have hlen1 : ntohl little_endian hdr.length > s1.recv_window := by rw [hrw]; exact hlen
    simp only [one_ne_zero, if_true, if_false, hlen1]
    refine ⟨_, rfl, ?_⟩
    have hm2 : tcp_mux_flag (put_stream w1 s1) ≠ 0 := by
      show w1.tcp_mux ≠ 0
      rw [hm]; exact hmux
    have hc2 : (put_stream w1 s1).connect_bev = w.connect_bev := hc
    unfold tcp_mux_send_go_away
    rw [if_neg hm2, hc2, written_to_bufferevent_write, go_away_frame_bytes]
    congr 1
    unfold written_to
    rw [(put_stream_fields w1 s1).1, hw]
  · intro s hs hfin hty hlen hwf hsz
    obtain ⟨w1, s1, he, hw, hm, hc, _, hrw, _, hrx, _⟩ :=
      process_flags_ok w (ntohs little_endian hdr.flags) s hfin
    unfold handle_tcp_mux_stream
    simp only [hinc, hs]
    simp only [hty, hdw, process_data, he]
    have hlen1 : ¬ ntohl little_endian hdr.length > s1.recv_window := by rw [hrw]; omega
    simp only [one_ne_zero, if_true, if_false, hlen1]
    cases hbev : (get_proxy_client w (ntohl little_endian hdr.stream_id)).bind
        (fun c => c.local_proxy_bev) with
    | none =>
      obtain ⟨r1, hpop, _⟩ := ring_buffer_pop_spec hR s1.rx_ring (ntohl little_endian hdr.length)
        (by rw [hrx]; exact hwf) (by rw [hrx]; exact hsz)
      simp only [hpop]
      split <;> exact ⟨_, _, rfl⟩
    | some bev =>
      obtain ⟨r1, hwr, _⟩ := ring_buffer_write_spec hR s1.rx_ring
        (ntohl little_endian hdr.length) (by rw [hrx]; exact hwf)
      simp only [hwr]
      split <;> exact ⟨_, _, rfl⟩

/-- The outcome of `handle_tcp_mux_stream_outcomes` for a DATA frame of 5 bytes
on stream 3 whose receive window is 4: the call returns 0 and the GO_AWAY
frame with reason PROTO_ERR is written to the control connection. -/
theorem handle_tcp_mux_stream_outcomes_witness :
    ∃ w1, handle_tcp_mux_stream true 131072 262144
        { idle_world with all_stream := [stream_with 3 .ESTABLISHED 4 262144 []] }
        { version := 0, type := DATA, flags := htons true ZERO, stream_id := htonl true 3,
          length := htonl true 5 } = .ok (w1, 0) ∧
      written_to w1 0 = [] ++ go_away_proto_err_frame :=
  (handle_tcp_mux_stream_outcomes true 131072 262144 (by decide)
    { idle_world with all_stream := [stream_with 3 .ESTABLISHED 4 262144 []] }
    { version := 0, type := DATA, flags := htons true ZERO, stream_id := htonl true 3,
      length := htonl true 5 } (by decide)).2.2.2.1
    (stream_with 3 .ESTABLISHED 4 262144 []) (by rfl) (by decide) (by decide) (by decide)
    (by decide)

/-! ## Stream writer -/

/-- Claim C1, the code at a failing input. `tx_ring` holds the byte 10, the
caller writes the two bytes 20, 21 and `send_window` is 2, so the budget is 2
and the first two bytes of ring and data are 10, 20. `tmux_write` emits the
DATA header of stream 3 with length 2 and then the three payload bytes
10, 20, 21, and leaves `tx_ring` empty instead of holding 21: after the ring is
drained, `max - tx_ring->sz` is evaluated with the new `sz`, which is 0. -/
theorem tmux_write_payload_exceeds_budget :
    ring_wf 131072 (stream_with 3 .ESTABLISHED 262144 2 [10]).tx_ring ∧
    tmux_write_view 131072 0
      (tmux_write true 131072 idle_world 0 [20, 21] 2
        (stream_with 3 .ESTABLISHED 262144 2 [10])) =
      some ([0, 0, 0, 0, 0, 0, 0, 3, 0, 0, 0, 2, 10, 20, 21], [], 0, 2) ∧
    (ring_contents 131072 (ring_of_bytes [10]) ++ [20, 21]).take (min 2 (1 + 2)) = [10, 20] ∧
    (ring_contents 131072 (ring_of_bytes [10]) ++ [20, 21]).drop (min 2 (1 + 2)) = [21] := by
  decide

/-- Claim C2, the code at a failing input. `tx_ring` holds the bytes 10, 11, the
caller writes the single byte 20 and `send_window` is 2, so the budget is 2.
`tmux_write` does not return: after the ring is drained it asks
`bufferevent_write` for `max - tx_ring->sz = 2` bytes of the one byte buffer,
and the `ring_buffer_append` that follows is called with the length
`length + tx_ring->sz - max = 4294967295`, above the free space of the ring,
which its `assert(left >= len)` rejects. -/
theorem tmux_write_stale_size_aborts :
    ring_wf 131072 (stream_with 3 .ESTABLISHED 262144 2 [10, 11]).tx_ring ∧
    fault_of (tmux_write true 131072 idle_world 0 [20] 1
      (stream_with 3 .ESTABLISHED 262144 2 [10, 11])) = some .out_of_bounds ∧
    min 2 (2 + 1) = 2 ∧
    u32_sub (u32 (1 + 0)) 2 = 4294967295 ∧
    fault_of (ring_buffer_append 131072 ring_buffer_zero [] 4294967295) =
      some .assert_failed := by
  decide

/-! ## Send flags -/

/-- Claim C11 (send-flag derivation). `get_send_flags` returns SYN and moves the
stream to SYN_SEND when it is in INIT, returns ACK and moves it to ESTABLISHED
when it is in SYN_RECEIVED, and in every other state returns 0 and leaves the
stream as it is; a second call right after the first always returns 0. -/
theorem get_send_flags_spec (stream : tmux_stream) :
    (stream.state = .INIT →
      get_send_flags stream = ({ stream with state := .SYN_SEND }, SYN)) ∧
    (stream.state = .SYN_RECEIVED →
      get_send_flags stream = ({ stream with state := .ESTABLISHED }, ACK)) ∧
    (stream.state ≠ .INIT → stream.state ≠ .SYN_RECEIVED →
      get_send_flags stream = (stream, 0)) ∧
    (get_send_flags (get_send_flags stream).1).2 = 0 := by
  refine ⟨?_, ?_, ?_, ?_⟩
  · intro h
    unfold get_send_flags
    rw [h]; rfl
  · intro h
    unfold get_send_flags
    rw [h]; rfl
  · intro h1 h2
    unfold get_send_flags
    cases hs : stream.state <;> simp [hs] at h1 h2 ⊢
  · unfold get_send_flags
    cases hs : stream.state <;> simp [hs]

/-- The derivation of `get_send_flags_spec` for a stream in INIT: SYN on the
first call, nothing on the second. -/
theorem get_send_flags_spec_witness :
    (stream_with 3 .INIT 262144 262144 []).state = .INIT ∧
    get_send_flags (stream_with 3 .INIT 262144 262144 []) =
      ({ stream_with 3 .INIT 262144 262144 [] with state := .SYN_SEND }, SYN) ∧
    (get_send_flags (get_send_flags (stream_with 3 .INIT 262144 262144 [])).1).2 = 0 :=
  ⟨rfl, (get_send_flags_spec (stream_with 3 .INIT 262144 262144 [])).1 rfl,
   (get_send_flags_spec (stream_with 3 .INIT 262144 262144 [])).2.2.2⟩

/-! ## Send window -/

/-- Claim C17, counterexample. With `send_window` at `2^32 - 1`, a WINDOW_UPDATE
of length 1 leaves `send_window` at 0, not at `min(2^32 - 1 + 1, 2^32 - 1)`. -/
theorem incr_send_window_wraps_to_zero :
    (incr_send_window true idle_world (some 0)
        { version := 0, type := WINDOW_UPDATE, flags := htons true ZERO,
          stream_id := htonl true 3, length := htonl true 1 } ZERO
        (stream_with 3 .ESTABLISHED 262144 4294967295 [])).toOption.map
      (fun r => (r.2.1.send_window, r.2.2)) = some (0, 1) ∧
    min (4294967295 + 1) (4294967296 - 1) = 4294967295 := by
  decide

/-- Claim C17, amended (send-window credit). For every stream and every inbound
WINDOW_UPDATE with flags ZERO or ACK and length `L`, `incr_send_window` returns
1 and leaves `send_window` at `(w + L) mod 2^32`, where `w` is the old value:
the 32 bit addition wraps around; it equals `w + L` whenever `w + L < 2^32`. -/
theorem incr_send_window_credit (little_endian : Bool) (w : World) (bev : Option Nat)
    (tmux_hdr : tcp_mux_header) (flags : Nat) (stream : tmux_stream)
    (hflags : flags = ZERO ∨ flags = ACK) :
    ∃ w1 s1, incr_send_window little_endian w bev tmux_hdr flags stream = .ok (w1, s1, 1) ∧
      s1.send_window =
        (stream.send_window + ntohl little_endian tmux_hdr.length) % 4294967296 ∧
      (stream.send_window + ntohl little_endian tmux_hdr.length < 4294967296 →
        s1.send_window = stream.send_window + ntohl little_endian tmux_hdr.length) := by
  have hfin : ¬ unexpected_fin flags stream.state := by
    unfold unexpected_fin
    rcases hflags with h | h
    · subst h
      rintro ⟨_, h2, _⟩
      exact absurd h2 (by decide)
    · subst h
      rintro ⟨h1, _, _⟩
      exact h1 (by decide)
  obtain ⟨w1, s1, he, _, _, _, _, _, hsw, _⟩ := process_flags_ok w flags stream hfin
  refine ⟨if s1.send_window = 0 then bufferevent_enable w1 bev else w1,
    { s1 with send_window := u32 (s1.send_window + ntohl little_endian tmux_hdr.length) },
    ?_, ?_, ?_⟩
  · unfold incr_send_window
    simp only [he, one_ne_zero, if_false]
  · show u32 (s1.send_window + _) = _
    rw [hsw]; rfl
  · intro hlt
    show u32 (s1.send_window + _) = _
    rw [hsw]
    exact u32_of_lt hlt

/-- The credit of `incr_send_window_credit` for a WINDOW_UPDATE of 100 bytes on
a stream whose send window is 0. -/
theorem incr_send_window_credit_witness :
    ∃ w1 s1, incr_send_window true idle_world (some 0)
        { version := 0, type := WINDOW_UPDATE, flags := htons true ZERO,
          stream_id := htonl true 3, length := htonl true 100 } ZERO
        (stream_with 3 .ESTABLISHED 262144 0 []) = .ok (w1, s1, 1) ∧
      s1.send_window = (0 + ntohl true (htonl true 100)) % 4294967296 ∧
      (0 + ntohl true (htonl true 100) < 4294967296 →
        s1.send_window = 0 + ntohl true (htonl true 100)) :=
  incr_send_window_credit true idle_world (some 0)
    { version := 0, type := WINDOW_UPDATE, flags := htons true ZERO,
      stream_id := htonl true 3, length := htonl true 100 } ZERO
    (stream_with 3 .ESTABLISHED 262144 0 []) (Or.inl rfl)

/-! ## Appending to a ring -/

/-- Claim C19, counterexample. A well-formed ring of 131072 bytes holds 131071
bytes. An append of 2 bytes does not copy `min(2, 1) = 1` byte: the function
stops at `assert(left >= len)`. (An append of the single byte that fits stores
it, `sz` becomes 131072, and the value returned is 0.) -/
theorem ring_buffer_append_beyond_free_space :
    ring_wf 131072 (ring_with_size 131072 5 131071) ∧
    fault_of (ring_buffer_append 131072 (ring_with_size 131072 5 131071) [7, 8] 2) =
      some .assert_failed ∧
    min 2 (131072 - 131071) = 1 ∧
    (ring_buffer_append 131072 (ring_with_size 131072 5 131071) [7] 1).toOption.map
      (fun r => (r.1.sz, r.2)) = some (131072, 0) := by
  decide

/-- Claim C19, amended (`ring_buffer_append`). For every well-formed ring and
every `n` up to the free space `RBUF_SIZE - sz`, which is what the function
asserts, `ring_buffer_append(ring, data, n)` returns, has copied the first `n`
bytes of `data` behind the bytes held, and `sz` has grown by exactly `n`; when
the append leaves the ring not full, or `n` is 0, the value returned is `n`. -/
theorem ring_buffer_append_result (RBUF_SIZE : Nat) (hR : RBUF_SIZE < 4294967296)
    (ring : ring_buffer) (data : List Nat) (n : Nat) (hwf : ring_wf RBUF_SIZE ring)
    (hn : n ≤ RBUF_SIZE - ring.sz) (hdata : n ≤ data.length) :
    ∃ ring1 r, ring_buffer_append RBUF_SIZE ring data n = .ok (ring1, r) ∧
      ring_contents RBUF_SIZE ring1 = ring_contents RBUF_SIZE ring ++ data.take n ∧
      ring1.sz = ring.sz + n ∧
      (n < RBUF_SIZE - ring.sz ∨ n = 0 → r = n) := by
  obtain ⟨r1, he, _, hsz, hc⟩ := ring_buffer_append_spec hR ring data n hwf hn hdata
  refine ⟨r1, _, he, hc, hsz, ?_⟩
  intro h
  rw [if_neg]
  rintro ⟨h1, h2⟩
  omega

/-- The append of `ring_buffer_append_result` for three bytes into a ring of
131072 bytes that holds 131068 bytes. -/
theorem ring_buffer_append_result_witness :
    ring_wf 131072 (ring_with_size 131072 5 131068) ∧
    ∃ ring1 r, ring_buffer_append 131072 (ring_with_size 131072 5 131068) [7, 8, 9] 3 =
        .ok (ring1, r) ∧
      ring_contents 131072 ring1 =
        ring_contents 131072 (ring_with_size 131072 5 131068) ++ [7, 8, 9].take 3 ∧
      ring1.sz = (ring_with_size 131072 5 131068).sz + 3 ∧
      (3 < 131072 - (ring_with_size 131072 5 131068).sz ∨ 3 = 0 → r = 3) :=
  ⟨by decide,
   ring_buffer_append_result 131072 (by decide) (ring_with_size 131072 5 131068) [7, 8, 9] 3
     (by decide) (by decide) (by decide)⟩

/-- Claim C18, counterexample. `send_window` is 0 and `tx_ring`, of 131072
bytes, holds 131071 bytes. A write of 2 bytes does not append `min(2, 1) = 1`
byte and return 1: `tmux_write` returns 0 and `tx_ring` still holds 131071
bytes. -/
theorem tmux_write_zero_window_no_room :
    ring_wf 131072 (ring_with_size 131072 5 131071) ∧
    (tmux_write true 131072 idle_world 0 [7, 8] 2
        { stream_with 3 .ESTABLISHED 262144 0 [] with
          tx_ring := ring_with_size 131072 5 131071 }).toOption.map
      (fun r => (r.2.1.tx_ring.sz, r.2.2)) = some (131071, 0) ∧
    min 2 (131072 - 131071) = 1 := by
  decide

/-- Claim C18, amended (`tmux_write` with a zero send window). For every stream
whose state is none of LOCAL_CLOSE, CLOSED, RESET and whose `send_window` is 0,
with a well-formed `tx_ring`: if `length` is at most the free space
`RBUF_SIZE - tx_ring.sz`, `tmux_write` appends all `length` bytes of `data` to
`tx_ring`, and returns `length` when this leaves the ring not full or `length`
is 0; if `length` is above the free space it appends nothing and returns 0. In
both cases nothing is written to a bufferevent and `send_window` and the state
of the stream stay as they are. -/
theorem tmux_write_zero_window (little_endian : Bool) (RBUF_SIZE : Nat)
    (hR : RBUF_SIZE < 4294967296) (w : World) (bev : Nat) (data : List Nat) (length : Nat)
    (stream : tmux_stream)
    (hst : stream.state ≠ .LOCAL_CLOSE ∧ stream.state ≠ .CLOSED ∧ stream.state ≠ .RESET)
    (hsw : stream.send_window = 0) (hwf : ring_wf RBUF_SIZE stream.tx_ring) :
    (length ≤ RBUF_SIZE - stream.tx_ring.sz → length ≤ data.length →
      ∃ ring1 n, tmux_write little_endian RBUF_SIZE w bev data length stream =
          .ok (w, { stream with tx_ring := ring1 }, n) ∧
        ring_contents RBUF_SIZE ring1 =
          ring_contents RBUF_SIZE stream.tx_ring ++ data.take length ∧
        (length < RBUF_SIZE - stream.tx_ring.sz ∨ length = 0 → n = length)) ∧
    (RBUF_SIZE - stream.tx_ring.sz < length →
      tmux_write little_endian RBUF_SIZE w bev data length stream = .ok (w, stream, 0)) := by
  have hs : stream.tx_ring.sz ≤ RBUF_SIZE := hwf.2.2.1
  have hclosed : ¬ (stream.state = .LOCAL_CLOSE ∨ stream.state = .CLOSED ∨
      stream.state = .RESET) := by
    rintro (h | h | h)
    · exact hst.1 h
    · exact hst.2.1 h
    · exact hst.2.2 h
  constructor
  · intro hlen hdata
    obtain ⟨r1, he, _, hsz, hc⟩ :=
      ring_buffer_append_spec hR stream.tx_ring data length hwf hlen hdata
    refine ⟨r1, u32 (if 0 < length ∧ stream.tx_ring.sz + length = RBUF_SIZE then length - 1
      else length), ?_, hc, ?_⟩
    · unfold tmux_write
      rw [if_neg hclosed]
      simp only [hsw, if_true, u32_sub_of_le hs hR]
      rw [if_neg (by omega), he]
    · intro h
      rw [if_neg (by omega)]
      exact u32_of_lt (by omega)
  · intro hlen
    unfold tmux_write
    rw [if_neg hclosed]
    simp only [hsw, if_true, u32_sub_of_le hs hR]
    rw [if_pos hlen]

/-- The write of `tmux_write_zero_window` for 2 bytes on a stream with a zero
send window whose `tx_ring` holds the byte 10. -/
theorem tmux_write_zero_window_witness :
    ∃ ring1 n, tmux_write true 131072 idle_world 0 [20, 21] 2
        (stream_with 3 .ESTABLISHED 262144 0 [10]) =
          .ok (idle_world, { stream_with 3 .ESTABLISHED 262144 0 [10] with tx_ring := ring1 }, n) ∧
      ring_contents 131072 ring1 =
        ring_contents 131072 (stream_with 3 .ESTABLISHED 262144 0 [10]).tx_ring ++
          [20, 21].take 2 ∧
      (2 < 131072 - (stream_with 3 .ESTABLISHED 262144 0 [10]).tx_ring.sz ∨ 2 = 0 → n = 2) :=
  (tmux_write_zero_window true 131072 (by decide) idle_world 0 [20, 21] 2
    (stream_with 3 .ESTABLISHED 262144 0 [10]) (by decide) rfl (by decide)).1
    (by decide) (by decide)

/-! ## Receive window -/

section WindowLemmas

theorem u32_sub_lt (a b : Nat) : u32_sub a b < 4294967296 := by
  unfold u32_sub; split <;> omega

theorem header_bytes_encode (le : Bool) (type flags stream_id length : Nat)
    (ht : type < 256) (hf : flags < 256) (hs : stream_id < 4294967296)
    (hl : length < 4294967296) :
    header_bytes le (tcp_mux_encode le type flags stream_id length) =
      [0, type, 0, flags,
       stream_id / 16777216, stream_id / 65536 % 256, stream_id / 256 % 256, stream_id % 256,
       length / 16777216, length / 65536 % 256, length / 256 % 256, length % 256] := by
  have hlen : mem32 le (if length % 4294967296 ≠ 0 then htonl le length else 0) =
      [length / 16777216 % 256, length / 65536 % 256, length / 256 % 256, length % 256] := by
    by_cases h0 : length = 0
    · subst h0; cases le <;> rfl
    · rw [if_pos (by omega), mem32_htonl]
  simp only [header_bytes, tcp_mux_encode, proto_version, mem16_htons, mem32_htonl, hlen,
    List.cons_append, List.nil_append, List.cons.injEq, and_true, true_and]
  refine ⟨?_, ?_, ?_, ?_, ?_⟩ <;> omega

theorem get_send_flags_fields (stream : tmux_stream) :
    (get_send_flags stream).1.id = stream.id ∧
    (get_send_flags stream).1.recv_window = stream.recv_window ∧
    (get_send_flags stream).1.send_window = stream.send_window ∧
    (get_send_flags stream).1.tx_ring = stream.tx_ring ∧
    (get_send_flags stream).1.rx_ring = stream.rx_ring ∧
    (get_send_flags stream).2 ≤ 2 := by
  unfold get_send_flags
  cases stream.state <;> simp [SYN, ACK]

theorem get_send_flags_zero (stream : tmux_stream) (h : (get_send_flags stream).2 = 0) :
    (get_send_flags stream).1 = stream := by
  unfold get_send_flags at h ⊢
  cases hs : stream.state <;> simp [hs, SYN, ACK] at h ⊢

theorem get_send_flags_quiet (stream : tmux_stream)
    (h : stream.state ≠ .INIT ∧ stream.state ≠ .SYN_RECEIVED) :
    get_send_flags stream = (stream, 0) := by
  unfold get_send_flags
  cases hs : stream.state <;> simp [hs] at h ⊢

theorem send_window_update_eq (le : Bool) (MAX : Nat) (w : World) (bout : Nat)
    (stream : tmux_stream) (length : Nat) :
    send_window_update le MAX w bout stream length =
      if window_delta MAX length stream.recv_window < u32 MAX / 2 ∧
          (get_send_flags stream).2 = 0 then (w, (get_send_flags stream).1)
      else
        (bufferevent_write w bout
            (header_bytes le (tcp_mux_encode le WINDOW_UPDATE (get_send_flags stream).2
              stream.id (window_delta MAX length stream.recv_window))),
          { (get_send_flags stream).1 with
            recv_window :=
              u32 (stream.recv_window + window_delta MAX length stream.recv_window) }) := by
  obtain ⟨hid, hrw, _⟩ := get_send_flags_fields stream
  unfold send_window_update window_delta tcp_mux_send_win_update
  simp only [hid, hrw]

theorem window_delta_exact {MAX length rw : Nat} (hMAX : MAX < 4294967296)
    (h : length + rw ≤ MAX) : window_delta MAX length rw = MAX - length - rw := by
  unfold window_delta
  rw [u32_of_lt hMAX, u32_sub_of_le (by omega) hMAX, u32_sub_of_le (by omega) (by omega)]

theorem process_flags_result {w w1 : World} {flags r : Nat} {s s1 : tmux_stream}
    (h : process_flags w flags s = .ok (w1, s1, r)) :
    r = 1 ∧ s1.recv_window = s.recv_window ∧ s1.rx_ring = s.rx_ring ∧ s1.id = s.id ∧
    w1.wire = w.wire ∧ w1.connect_bev = w.connect_bev := by
  by_cases hf : unexpected_fin flags s.state
  · rw [process_flags_fault w flags s hf] at h
    exact absurd h (by simp)
  · obtain ⟨w2, s2, he, hw, _, hc, hid, hrw, _, hrx, _⟩ := process_flags_ok w flags s hf
    rw [he] at h
    simp only [Except.ok.injEq, Prod.mk.injEq] at h
    obtain ⟨h1, h2, h3⟩ := h
    subst h1; subst h2
    exact ⟨h3.symm, hrw, hrx, hid, hw, hc⟩

theorem process_flags_zero (w : World) (s : tmux_stream) :
    process_flags w ZERO s = .ok (w, s, 1) := by
  have h1 : ZERO &&& ACK ≠ ACK := by decide
  have h2 : ZERO &&& FIN ≠ FIN := by decide
  have h3 : ZERO &&& RST ≠ RST := by decide
  unfold process_flags
  simp only [h1, h2, h3, if_false]
  simp

theorem send_window_update_accept (le : Bool) (MAX : Nat) (w : World) (bout : Nat)
    (t : tmux_stream) (length rw : Nat) (hMAX : MAX < 4294967296) (hrw : rw ≤ MAX)
    (hlen : length ≤ rw) (ht : t.recv_window = rw - length) :
    window_delta MAX length t.recv_window = MAX - rw ∧
    (send_window_update le MAX w bout t length).2.recv_window =
      if MAX - rw < MAX / 2 ∧ (get_send_flags t).2 = 0 then rw - length else MAX - length := by
  have hd : window_delta MAX length t.recv_window = MAX - rw := by
    rw [ht, window_delta_exact hMAX (by omega)]; omega
  refine ⟨hd, ?_⟩
  rw [send_window_update_eq, hd, u32_of_lt hMAX]
  obtain ⟨_, hrw2, _⟩ := get_send_flags_fields t
  split
  · show (get_send_flags t).1.recv_window = _
    rw [hrw2, ht]
  · show u32 (t.recv_window + (MAX - rw)) = _
    rw [ht, u32_of_lt (by omega)]; omega

theorem process_data_accept (le : Bool) (R MAX : Nat) (hR : R < 4294967296)
    (hMAX : MAX < 4294967296) (w : World) (s : tmux_stream) (n : Nat)
    (pc : Option proxy_client) (hrw : s.recv_window ≤ MAX) (hn : n ≤ s.recv_window)
    (hwf : ring_wf R s.rx_ring) (hsz : n ≤ s.rx_ring.sz) :
    ∃ ring1, ring_wf R ring1 ∧ ring1.sz = s.rx_ring.sz - n ∧
      ring_contents R ring1 = (ring_contents R s.rx_ring).drop n ∧
      process_data le R MAX w s n ZERO pc =
        .ok ((send_window_update le MAX
              (deliver_payload w pc ((ring_contents R s.rx_ring).take n)) w.connect_bev
              { s with recv_window := s.recv_window - n, rx_ring := ring1 } n).1,
            (send_window_update le MAX
              (deliver_payload w pc ((ring_contents R s.rx_ring).take n)) w.connect_bev
              { s with recv_window := s.recv_window - n, rx_ring := ring1 } n).2,
            to_int32 n) := by
  have hsub : u32_sub s.recv_window n = s.recv_window - n :=
    u32_sub_of_le hn (by omega)
  unfold process_data
  rw [process_flags_zero]
  simp only [one_ne_zero, if_false, hsub]
  rw [if_neg (by omega)]
  cases hb : pc.bind (fun c => c.local_proxy_bev) with
  | none =>
    obtain ⟨r1, hpop, hw1, hs1, hc1⟩ := ring_buffer_pop_spec hR s.rx_ring n hwf hsz
    refine ⟨r1, hw1, hs1, hc1, ?_⟩
    simp only [hpop, deliver_payload, hb]
  | some bev =>
    obtain ⟨r1, hwr, hw1, hs1, hc1⟩ := ring_buffer_write_spec hR s.rx_ring n hwf
    refine ⟨r1, hw1, hs1, hc1, ?_⟩
    simp only [hwr, deliver_payload, hb]
    rfl

theorem deliver_payload_connect_bev (w : World) (pc : Option proxy_client) (bytes : List Nat) :
    (deliver_payload w pc bytes).connect_bev = w.connect_bev := by
  unfold deliver_payload
  split <;> rfl

theorem window_update_frame_bytes (le : Bool) (stream_id delta : Nat)
    (hs : stream_id < 4294967296) (hd : delta < 4294967296) :
    header_bytes le (tcp_mux_encode le WINDOW_UPDATE 0 stream_id delta) =
      window_update_frame stream_id delta :=
  header_bytes_encode le WINDOW_UPDATE 0 stream_id delta (by decide) (by decide) hs hd

theorem process_data_accept_quiet (le : Bool) (R MAX : Nat) (hR : R < 4294967296)
    (hMAX : MAX < 4294967296) (w : World) (s : tmux_stream) (n : Nat)
    (pc : Option proxy_client) (hrw : s.recv_window ≤ MAX) (hn : n ≤ s.recv_window)
    (hwf : ring_wf R s.rx_ring) (hsz : n ≤ s.rx_ring.sz)
    (hst : s.state ≠ .INIT ∧ s.state ≠ .SYN_RECEIVED) (hid : s.id < 4294967296) :
    ∃ ring1, ring_wf R ring1 ∧ ring1.sz = s.rx_ring.sz - n ∧
      ring_contents R ring1 = (ring_contents R s.rx_ring).drop n ∧
      process_data le R MAX w s n ZERO pc =
        if MAX - s.recv_window < MAX / 2 then
          .ok (deliver_payload w pc ((ring_contents R s.rx_ring).take n),
            { s with recv_window := s.recv_window - n, rx_ring := ring1 }, to_int32 n)
        else
          .ok (bufferevent_write (deliver_payload w pc ((ring_contents R s.rx_ring).take n))
              w.connect_bev (window_update_frame s.id (MAX - s.recv_window)),
            { s with recv_window := MAX - n, rx_ring := ring1 }, to_int32 n) := by
  obtain ⟨r1, hw1, hs1, hc1, he⟩ := process_data_accept le R MAX hR hMAX w s n pc hrw hn hwf hsz
  refine ⟨r1, hw1, hs1, hc1, ?_⟩
  rw [he, send_window_update_eq]
  have hq : get_send_flags { s with recv_window := s.recv_window - n, rx_ring := r1 } =
      ({ s with recv_window := s.recv_window - n, rx_ring := r1 }, 0) :=
    get_send_flags_quiet _ hst
  have hd : window_delta MAX n (s.recv_window - n) = MAX - s.recv_window := by
    rw [window_delta_exact hMAX (by omega)]; omega
  simp only [hq, hd, u32_of_lt hMAX, and_true]
  by_cases hlt : MAX - s.recv_window < MAX / 2
  · rw [if_pos hlt, if_pos hlt]
  · rw [if_neg hlt, if_neg hlt, window_update_frame_bytes le _ _ hid (by omega)]
    have h2 : u32 (s.recv_window - n + (MAX - s.recv_window)) = MAX - n := by
      rw [u32_of_lt (by omega)]; omega
    rw [h2]

end WindowLemmas

/-- Claim C15, counterexample. With `MAX_STREAM_WINDOW_SIZE = 262144`, a stream
in ESTABLISHED with `recv_window = 131067` and `length = 5` gives
`delta = 131072`, which does not exceed `MAX_STREAM_WINDOW_SIZE / 2`, and the
send flags are 0; `send_window_update` writes the WINDOW_UPDATE frame
`00 01 00 00 00 00 00 03 00 02 00 00` all the same. -/
theorem send_window_update_at_half_window :
    window_delta 262144 5 131067 = 131072 ∧ ¬ (131072 > 262144 / 2) ∧
    (get_send_flags (stream_with 3 .ESTABLISHED 131067 262144 [])).2 = 0 ∧
    written_to (send_window_update true 262144 idle_world 0
      (stream_with 3 .ESTABLISHED 131067 262144 []) 5).1 0 =
        [0, 1, 0, 0, 0, 0, 0, 3, 0, 2, 0, 0] ∧
    (send_window_update true 262144 idle_world 0
      (stream_with 3 .ESTABLISHED 131067 262144 []) 5).2.recv_window = 262139 := by
  decide

/-- Claim C15, amended (window-update emission policy). For every stream and
length, with `delta = (MAX_STREAM_WINDOW_SIZE - length) - recv_window` computed
in 32 bit unsigned arithmetic, `send_window_update` writes a WINDOW_UPDATE frame
if and only if `delta` is at least `MAX_STREAM_WINDOW_SIZE / 2` or the send
flags derived from the state are non-zero. When it writes one, the frame is
`00 01`, the flags, the stream id and `delta` in big-endian, and `recv_window`
becomes `(recv_window + delta) mod 2^32`; when it does not, nothing is written
and the stream is left as it is. When `length + recv_window` is at most
`MAX_STREAM_WINDOW_SIZE` nothing wraps: `delta` is
`MAX_STREAM_WINDOW_SIZE - length - recv_window` and the new `recv_window` is
`recv_window + delta`. -/
theorem send_window_update_policy (little_endian : Bool) (MAX_STREAM_WINDOW_SIZE : Nat)
    (w : World) (bout : Nat) (stream : tmux_stream) (length : Nat)
    (hMAX : MAX_STREAM_WINDOW_SIZE < 4294967296) (hid : stream.id < 4294967296) :
    ((MAX_STREAM_WINDOW_SIZE / 2 ≤
          window_delta MAX_STREAM_WINDOW_SIZE length stream.recv_window ∨
        (get_send_flags stream).2 ≠ 0) →
      (send_window_update little_endian MAX_STREAM_WINDOW_SIZE w bout stream length).1 =
        bufferevent_write w bout
          [0, 1, 0, (get_send_flags stream).2,
           stream.id / 16777216, stream.id / 65536 % 256, stream.id / 256 % 256,
           stream.id % 256,
           window_delta MAX_STREAM_WINDOW_SIZE length stream.recv_window / 16777216,
           window_delta MAX_STREAM_WINDOW_SIZE length stream.recv_window / 65536 % 256,
           window_delta MAX_STREAM_WINDOW_SIZE length stream.recv_window / 256 % 256,
           window_delta MAX_STREAM_WINDOW_SIZE length stream.recv_window % 256] ∧
      (send_window_update little_endian MAX_STREAM_WINDOW_SIZE w bout stream length).2.recv_window =
        (stream.recv_window +
          window_delta MAX_STREAM_WINDOW_SIZE length stream.recv_window) % 4294967296) ∧
    (¬ (MAX_STREAM_WINDOW_SIZE / 2 ≤
          window_delta MAX_STREAM_WINDOW_SIZE length stream.recv_window ∨
        (get_send_flags stream).2 ≠ 0) →
      send_window_update little_endian MAX_STREAM_WINDOW_SIZE w bout stream length =
        (w, stream)) ∧
    (length + stream.recv_window ≤ MAX_STREAM_WINDOW_SIZE →
      window_delta MAX_STREAM_WINDOW_SIZE length stream.recv_window =
        MAX_STREAM_WINDOW_SIZE - length - stream.recv_window ∧
      (stream.recv_window +
        window_delta MAX_STREAM_WINDOW_SIZE length stream.recv_window) % 4294967296 =
        stream.recv_window +
          window_delta MAX_STREAM_WINDOW_SIZE length stream.recv_window) := by
  obtain ⟨_, _, _, _, _, hfl⟩ := get_send_flags_fields stream
  have hdl : window_delta MAX_STREAM_WINDOW_SIZE length stream.recv_window < 4294967296 :=
    u32_sub_lt _ _
  refine ⟨?_, ?_, ?_⟩
  · intro h
    rw [send_window_update_eq, u32_of_lt hMAX, if_neg (by omega)]
    refine ⟨?_, rfl⟩
    show bufferevent_write w bout _ = _
    rw [header_bytes_encode little_endian WINDOW_UPDATE _ _ _ (by decide) (by omega) hid hdl]
    rfl
  · intro h
    rw [send_window_update_eq, u32_of_lt hMAX, if_pos (by omega)]
    have hf0 : (get_send_flags stream).2 = 0 := by omega
    rw [get_send_flags_zero stream hf0]
  · intro h
    have hd := window_delta_exact hMAX h
    refine ⟨hd, ?_⟩
    rw [hd]
    exact Nat.mod_eq_of_lt (by omega)

/-- The policy of `send_window_update_policy` for a stream in SYN_RECEIVED: the
ACK it has to send makes it write a WINDOW_UPDATE although `delta` is 0. -/
theorem send_window_update_policy_witness :
    (send_window_update true 262144 idle_world 0
        (stream_with 3 .SYN_RECEIVED 262144 262144 []) 0).1 =
      bufferevent_write idle_world 0
        [0, 1, 0, (get_send_flags (stream_with 3 .SYN_RECEIVED 262144 262144 [])).2,
         3 / 16777216, 3 / 65536 % 256, 3 / 256 % 256, 3 % 256,
         window_delta 262144 0 262144 / 16777216, window_delta 262144 0 262144 / 65536 % 256,
         window_delta 262144 0 262144 / 256 % 256, window_delta 262144 0 262144 % 256] ∧
    (send_window_update true 262144 idle_world 0
        (stream_with 3 .SYN_RECEIVED 262144 262144 []) 0).2.recv_window =
      (262144 + window_delta 262144 0 262144) % 4294967296 :=
  (send_window_update_policy true 262144 idle_world 0
    (stream_with 3 .SYN_RECEIVED 262144 262144 []) 0 (by decide) (by decide)).1
    (Or.inr (by decide))

/-- Claim C14 (receive-window bound). `init_tmux_stream` sets `recv_window` to
`MAX_STREAM_WINDOW_SIZE`. For every stream with
`recv_window <= MAX_STREAM_WINDOW_SIZE`, every length and flags, whenever
`process_data` returns, with success or with failure, `recv_window` is still at
most `MAX_STREAM_WINDOW_SIZE`: it is unchanged, or the frame was within the
window and it is `recv_window - length`, or, after a window update,
`MAX_STREAM_WINDOW_SIZE - length`; none of the 32 bit operations wraps. -/
theorem recv_window_bound (little_endian : Bool) (RBUF_SIZE MAX_STREAM_WINDOW_SIZE : Nat)
    (hMAX : MAX_STREAM_WINDOW_SIZE < 4294967296) :
    (∀ (w : World) (id : Nat) (state : tcp_mux_state),
      (init_tmux_stream MAX_STREAM_WINDOW_SIZE w id state).2.recv_window =
        MAX_STREAM_WINDOW_SIZE) ∧
    (∀ (w w1 : World) (s s1 : tmux_stream) (length flags : Nat) (pc : Option proxy_client)
        (r : Int), s.recv_window ≤ MAX_STREAM_WINDOW_SIZE →
      process_data little_endian RBUF_SIZE MAX_STREAM_WINDOW_SIZE w s length flags pc =
        .ok (w1, s1, r) →
      s1.recv_window ≤ MAX_STREAM_WINDOW_SIZE ∧
      (s1.recv_window = s.recv_window ∨
        (length ≤ s.recv_window ∧
          (s1.recv_window = s.recv_window - length ∨
            s1.recv_window = MAX_STREAM_WINDOW_SIZE - length)))) := by
  constructor
  · intro w id state
    show u32 MAX_STREAM_WINDOW_SIZE = _
    exact u32_of_lt hMAX
  · intro w w1 s s1 length flags pc r hrw h
    unfold process_data at h
    cases hpf : process_flags w flags s with
    | error e => rw [hpf] at h; exact absurd h (by simp)
    | ok res =>
      obtain ⟨w2, s2, k⟩ := res
      obtain ⟨hk, hrw2, _⟩ := process_flags_result hpf
      subst hk
      rw [hpf] at h
      simp only [one_ne_zero, if_false] at h
      by_cases hgt : length > s2.recv_window
      · simp only [hgt, if_true, Except.ok.injEq, Prod.mk.injEq] at h
        obtain ⟨_, h2, _⟩ := h
        subst h2
        exact ⟨by omega, Or.inl hrw2⟩
      · simp only [hgt, if_false] at h
        have hle : length ≤ s.recv_window := by omega
        have key : ∀ (wa : World) (t : tmux_stream), t.recv_window = s.recv_window - length →
            (send_window_update little_endian MAX_STREAM_WINDOW_SIZE wa wa.connect_bev t
              length).2.recv_window ≤ MAX_STREAM_WINDOW_SIZE ∧
            ((send_window_update little_endian MAX_STREAM_WINDOW_SIZE wa wa.connect_bev t
              length).2.recv_window = s.recv_window - length ∨
             (send_window_update little_endian MAX_STREAM_WINDOW_SIZE wa wa.connect_bev t
              length).2.recv_window = MAX_STREAM_WINDOW_SIZE - length) := by
          intro wa t ht
          obtain ⟨_, hres⟩ := send_window_update_accept little_endian MAX_STREAM_WINDOW_SIZE wa
            wa.connect_bev t length s.recv_window hMAX hrw hle ht
          rw [hres]
          split
          · exact ⟨by omega, Or.inl rfl⟩
          · exact ⟨by omega, Or.inr rfl⟩
        have hsub : u32_sub s2.recv_window length = s.recv_window - length := by
          rw [hrw2]; exact u32_sub_of_le hle (by omega)
        cases hb : pc.bind (fun c => c.local_proxy_bev) with
        | none =>
          rw [hb] at h
          simp only at h
          cases hpop : ring_buffer_pop RBUF_SIZE s2.rx_ring length with
          | error e => rw [hpop] at h; exact absurd h (by simp)
          | ok pr =>
            obtain ⟨ring, data, n⟩ := pr
            rw [hpop] at h
            simp only [Except.ok.injEq, Prod.mk.injEq] at h
            obtain ⟨_, h2, _⟩ := h
            subst h2
            obtain ⟨hb1, hb2⟩ := key { w2 with delivered := w2.delivered ++ [data] }
              { s2 with recv_window := u32_sub s2.recv_window length, rx_ring := ring } hsub
            exact ⟨hb1, Or.inr ⟨hle, hb2⟩⟩
        | some bev =>
          rw [hb] at h
          simp only at h
          cases hwr : ring_buffer_write RBUF_SIZE s2.rx_ring length with
          | error e => rw [hwr] at h; exact absurd h (by simp)
          | ok pr =>
            obtain ⟨ring, out, n⟩ := pr
            rw [hwr] at h
            simp only [Except.ok.injEq, Prod.mk.injEq] at h
            obtain ⟨_, h2, _⟩ := h
            subst h2
            obtain ⟨hb1, hb2⟩ := key (bufferevent_write w2 bev out)
              { s2 with recv_window := u32_sub s2.recv_window length, rx_ring := ring } hsub
            exact ⟨hb1, Or.inr ⟨hle, hb2⟩⟩

/-- The bound of `recv_window_bound` for the five bytes of "hello" received on
an ESTABLISHED stream whose receive window is full. -/
theorem recv_window_bound_witness :
    ∃ w1 s1 r, process_data true 131072 262144 idle_world
        (stream_with_rx 3 .ESTABLISHED 262144 262144 [104, 101, 108, 108, 111]) 5 ZERO none =
          .ok (w1, s1, r) ∧
      s1.recv_window ≤ 262144 := by
  obtain ⟨ring1, _, _, _, he⟩ := process_data_accept true 131072 262144 (by decide) (by decide)
    idle_world (stream_with_rx 3 .ESTABLISHED 262144 262144 [104, 101, 108, 108, 111]) 5 none
    (by decide) (by decide) (by decide) (by decide)
  exact ⟨_, _, _, he,
    ((recv_window_bound true 131072 262144 (by decide)).2 _ _ _ _ _ _ _ _ (by decide) he).1⟩

/-! ## Inbound DATA frames -/

section DataLemmas

theorem get_stream_by_id_id {w : World} {id : Nat} {s : tmux_stream}
    (h : get_stream_by_id w id = some s) : s.id = id := by
  unfold get_stream_by_id at h
  have := List.find?_some h
  simpa using this

theorem find_after_put (t : tmux_stream) :
    ∀ (l : List tmux_stream) (s0 : tmux_stream),
      l.find? (fun s : tmux_stream => decide (s.id = t.id)) = some s0 →
      (match l.findIdx? (fun s : tmux_stream => decide (s.id = t.id)) with
        | some k => l.set k t
        | none => l).find? (fun s : tmux_stream => decide (s.id = t.id)) = some t := by
  intro l
  induction l with
  | nil => intro s0 h; simp at h
  | cons a l ih =>
    intro s0 h
    by_cases ha : a.id = t.id
    · simp [List.findIdx?_cons, ha, List.find?_cons]
    · simp only [List.find?_cons, ha, decide_False] at h
      have ih2 := ih s0 h
      simp only [List.findIdx?_cons, ha, decide_False, Bool.false_eq_true, if_false,
        List.findIdx?_succ]
      cases hk : l.findIdx? (fun s : tmux_stream => decide (s.id = t.id)) with
      | none =>
        rw [hk] at ih2
        simp only [Option.map_none'] 
        simpa [List.find?_cons, ha] using ih2
      | some k =>
        rw [hk] at ih2
        simp only [Option.map_some', List.set_cons_succ]
        simpa [List.find?_cons, ha] using ih2

theorem get_put_stream {w : World} {id : Nat} {s0 t : tmux_stream}
    (h : get_stream_by_id w id = some s0) (ht : t.id = id) :
    get_stream_by_id (put_stream w t) id = some t := by
  subst ht
  unfold get_stream_by_id at h ⊢
  exact find_after_put t w.all_stream s0 h

theorem put_stream_absent {w : World} {id : Nat} {t : tmux_stream}
    (h : get_stream_by_id w id = none) (ht : t.id = id) :
    get_stream_by_id (put_stream w t) id = none := by
  subst ht
  unfold get_stream_by_id at h ⊢
  have hidx : w.all_stream.findIdx? (fun s : tmux_stream => decide (s.id = t.id)) = none := by
    rw [List.findIdx?_eq_none_iff]
    intro x hx
    have := (List.find?_eq_none.mp h) x hx
    simpa using this
  show (match w.all_stream.findIdx? (fun s : tmux_stream => decide (s.id = t.id)) with
    | some k => w.all_stream.set k t
    | none => w.all_stream).find? _ = none
  rw [hidx]
  exact h

theorem tcp_mux_send_go_away_fields (le : Bool) (w : World) (bout reason : Nat) :
    (tcp_mux_send_go_away le w bout reason).all_stream = w.all_stream ∧
    (tcp_mux_send_go_away le w bout reason).delivered = w.delivered ∧
    (tcp_mux_send_go_away le w bout reason).deleted = w.deleted := by
  unfold tcp_mux_send_go_away
  split <;> exact ⟨rfl, rfl, rfl⟩

theorem handle_data_zero (le : Bool) (R MAX : Nat) (w : World) (hdr : tcp_mux_header)
    (s : tmux_stream) (hflags : ntohs le hdr.flags = ZERO) (hty : hdr.type = DATA)
    (hs : get_stream_by_id w (ntohl le hdr.stream_id) = some s) :
    handle_tcp_mux_stream le R MAX w hdr =
      match process_data le R MAX w s (ntohl le hdr.length) ZERO
          (get_proxy_client w (ntohl le hdr.stream_id)) with
      | .error e => .error e
      | .ok (w1, s1, ok) =>
        if ok = 0 then
          .ok (tcp_mux_send_go_away le (put_stream w1 s1) (put_stream w1 s1).connect_bev
            PROTO_ERR, 0)
        else .ok (put_stream w1 s1, to_int32 (ntohl le hdr.length)) := by
  have h1 : ZERO &&& SYN ≠ SYN := by decide
  have h2 : DATA ≠ WINDOW_UPDATE := by decide
  unfold handle_tcp_mux_stream
  simp only [hflags, h1, if_false, one_ne_zero, hs, hty, h2]

end DataLemmas

/-- Claim C12, counterexample. With multiplexing disabled, a DATA frame of 5
bytes on stream 3, whose receive window is 4, makes `handle_tcp_mux_stream`
return 0 and nothing is written to the control connection. -/
theorem window_violation_without_mux :
    (handle_tcp_mux_stream true 131072 262144
        { idle_world with tcp_mux := 0
                          all_stream := [stream_with 3 .ESTABLISHED 4 262144 []] }
        { version := 0, type := DATA, flags := htons true ZERO, stream_id := htonl true 3,
          length := htonl true 5 }).toOption.map
      (fun r => (written_to r.1 0, r.2)) = some ([], 0) := by
  decide

/-- Claim C12, amended (receive-window violation). With multiplexing enabled,
for every registered stream and every inbound DATA frame with flags ZERO whose
length is above `recv_window`, `handle_tcp_mux_stream` returns 0, what it writes
is the GO_AWAY frame with reason PROTO_ERR,
`00 03 00 00 00 00 00 00 00 00 00 01`, to the control connection and nothing
else, no payload reaches the handler, and the registered stream, with its
`recv_window` and `rx_ring`, is as before. -/
theorem window_violation_rejected (little_endian : Bool)
    (RBUF_SIZE MAX_STREAM_WINDOW_SIZE : Nat) (w : World) (hdr : tcp_mux_header)
    (s : tmux_stream) (hmux : w.tcp_mux ≠ 0)
    (hs : get_stream_by_id w (ntohl little_endian hdr.stream_id) = some s)
    (hty : hdr.type = DATA) (hflags : ntohs little_endian hdr.flags = ZERO)
    (hlen : ntohl little_endian hdr.length > s.recv_window) :
    ∃ w1, handle_tcp_mux_stream little_endian RBUF_SIZE MAX_STREAM_WINDOW_SIZE w hdr =
        .ok (w1, 0) ∧
      w1.wire = w.wire ++ go_away_proto_err_frame.map (fun b => (w.connect_bev, b)) ∧
      written_to w1 w.connect_bev = written_to w w.connect_bev ++ go_away_proto_err_frame ∧
      w1.delivered = w.delivered ∧
      get_stream_by_id w1 (ntohl little_endian hdr.stream_id) = some s := by
  have hpd : process_data little_endian RBUF_SIZE MAX_STREAM_WINDOW_SIZE w s
      (ntohl little_endian hdr.length) ZERO
      (get_proxy_client w (ntohl little_endian hdr.stream_id)) = .ok (w, s, 0) := by
    unfold process_data
    rw [process_flags_zero]
    simp only [one_ne_zero, if_false, hlen, if_true]
  have hm : tcp_mux_flag (put_stream w s) ≠ 0 := hmux
  have hw1 : tcp_mux_send_go_away little_endian (put_stream w s) (put_stream w s).connect_bev
      PROTO_ERR = bufferevent_write (put_stream w s) w.connect_bev go_away_proto_err_frame := by
    unfold tcp_mux_send_go_away
    rw [if_neg hm, go_away_frame_bytes]
    rfl
  refine ⟨bufferevent_write (put_stream w s) w.connect_bev go_away_proto_err_frame,
    ?_, ?_, ?_, ?_, ?_⟩
  · rw [handle_data_zero little_endian RBUF_SIZE MAX_STREAM_WINDOW_SIZE w hdr s hflags hty hs,
      hpd]
    simp only [if_true, hw1]
  · rfl
  · rw [written_to_bufferevent_write]
    rfl
  · rfl
  · exact get_put_stream hs (get_stream_by_id_id hs)

/-- The rejection of `window_violation_rejected` for a DATA frame of 5 bytes on
stream 3 whose receive window is 4. -/
theorem window_violation_rejected_witness :
    ∃ w1, handle_tcp_mux_stream true 131072 262144
        { idle_world with all_stream := [stream_with 3 .ESTABLISHED 4 262144 []] }
        { version := 0, type := DATA, flags := htons true ZERO, stream_id := htonl true 3,
          length := htonl true 5 } = .ok (w1, 0) ∧
      w1.wire = [] ++ go_away_proto_err_frame.map (fun b => (0, b)) ∧
      written_to w1 0 = [] ++ go_away_proto_err_frame ∧
      w1.delivered = [] ∧
      get_stream_by_id w1 (ntohl true (htonl true 3)) =
        some (stream_with 3 .ESTABLISHED 4 262144 []) :=
  window_violation_rejected true 131072 262144
    { idle_world with all_stream := [stream_with 3 .ESTABLISHED 4 262144 []] }
    { version := 0, type := DATA, flags := htons true ZERO, stream_id := htonl true 3,
      length := htonl true 5 }
    (stream_with 3 .ESTABLISHED 4 262144 []) (by decide) (by rfl) (by decide) (by decide)
    (by decide)

/-- Claim C13, the code at a failing input. Stream 3 is registered, in
ESTABLISHED, with `recv_window = MAX_STREAM_WINDOW_SIZE = 262144`;
multiplexing is enabled. A DATA frame with flags ZERO and length 0 is within the
window, and `process_data` returns its length, 0, which `handle_tcp_mux_stream`
takes for a failure: it writes the GO_AWAY frame with reason PROTO_ERR to the
control connection. (The five bytes of "hello" are accepted: they reach the
handler, nothing is written, `recv_window` becomes 262139 and 5 is returned.) -/
theorem zero_length_data_sends_go_away :
    (handle_tcp_mux_stream true 131072 262144
        { idle_world with all_stream := [stream_with_rx 3 .ESTABLISHED 262144 262144 []] }
        { version := 0, type := DATA, flags := htons true ZERO, stream_id := htonl true 3,
          length := htonl true 0 }).toOption.map
      (fun r => (written_to r.1 0, r.1.delivered, r.2)) =
        some ([0, 3, 0, 0, 0, 0, 0, 0, 0, 0, 0, 1], [[]], 0) ∧
    (handle_tcp_mux_stream true 131072 262144
        { idle_world with
          all_stream := [stream_with_rx 3 .ESTABLISHED 262144 262144 [104, 101, 108, 108, 111]] }
        { version := 0, type := DATA, flags := htons true ZERO, stream_id := htonl true 3,
          length := htonl true 5 }).toOption.map
      (fun r => (written_to r.1 0, r.1.delivered,
        (get_stream_by_id r.1 3).map (fun t => t.recv_window), r.2)) =
        some ([], [[104, 101, 108, 108, 111]], some 262139, 5) := by
  decide

/-! ## Terminal streams -/

section TeardownLemmas

theorem process_flags_closing (w : World) (flags : Nat) (s : tmux_stream)
    (h : closing_frame flags s.state) :
    ∃ st, (st = tcp_mux_state.CLOSED ∨ st = tcp_mux_state.RESET) ∧
      process_flags w flags s =
        .ok (del_proxy_client_by_stream_id w s.id, { s with state := st }, 1) := by
  obtain ⟨hack, h2⟩ := h
  rcases h2 with ⟨hfin, hst⟩ | ⟨hfin, hrst⟩
  · exact ⟨.CLOSED, Or.inl rfl, by simp [process_flags, hack, hfin, hst]⟩
  · exact ⟨.RESET, Or.inr rfl, by simp [process_flags, hack, hfin, hrst]⟩

theorem get_stream_by_id_deleted (w : World) (id : Nat) :
    get_stream_by_id (del_proxy_client_by_stream_id w id) id = none := by
  unfold get_stream_by_id del_proxy_client_by_stream_id
  rw [List.find?_eq_none]
  intro x hx
  have := (List.mem_filter.mp hx).2
  simpa using this

theorem get_stream_by_id_congr {w1 w2 : World} (h : w1.all_stream = w2.all_stream) (id : Nat) :
    get_stream_by_id w1 id = get_stream_by_id w2 id := by
  unfold get_stream_by_id; rw [h]

theorem send_window_update_fields (le : Bool) (MAX : Nat) (w : World) (bout : Nat)
    (t : tmux_stream) (length : Nat) :
    (send_window_update le MAX w bout t length).1.all_stream = w.all_stream ∧
    (send_window_update le MAX w bout t length).2.id = t.id := by
  obtain ⟨hid, _⟩ := get_send_flags_fields t
  rw [send_window_update_eq]
  split
  · exact ⟨rfl, hid⟩
  · exact ⟨rfl, hid⟩

theorem process_data_all_stream {le : Bool} {R MAX : Nat} {w w1 : World} {s s1 : tmux_stream}
    {length flags : Nat} {pc : Option proxy_client} {r : Int}
    (h : process_data le R MAX w s length flags pc = .ok (w1, s1, r)) :
    ∃ w2 s2, process_flags w flags s = .ok (w2, s2, 1) ∧ w1.all_stream = w2.all_stream ∧
      s1.id = s.id := by
  unfold process_data at h
  cases hpf : process_flags w flags s with
  | error e => rw [hpf] at h; exact absurd h (by simp)
  | ok res =>
    obtain ⟨w2, s2, k⟩ := res
    obtain ⟨hk, _, _, hid, _⟩ := process_flags_result hpf
    subst hk
    refine ⟨w2, s2, rfl, ?_⟩
    rw [hpf] at h
    simp only [one_ne_zero, if_false] at h
    by_cases hgt : length > s2.recv_window
    · simp only [hgt, if_true, Except.ok.injEq, Prod.mk.injEq] at h
      obtain ⟨h1, h2, _⟩ := h
      subst h1; subst h2
      exact ⟨rfl, hid⟩
    · simp only [hgt, if_false] at h
      cases hb : pc.bind (fun c => c.local_proxy_bev) with
      | none =>
        rw [hb] at h
        simp only at h
        cases hpop : ring_buffer_pop R s2.rx_ring length with
        | error e => rw [hpop] at h; exact absurd h (by simp)
        | ok pr =>
          obtain ⟨ring, data, n⟩ := pr
          rw [hpop] at h
          simp only [Except.ok.injEq, Prod.mk.injEq] at h
          obtain ⟨h1, h2, _⟩ := h
          subst h1; subst h2
          obtain ⟨hf1, hf2⟩ := send_window_update_fields le MAX
            { w2 with delivered := w2.delivered ++ [data] }
            w2.connect_bev
            { s2 with recv_window := u32_sub s2.recv_window length, rx_ring := ring } length
          exact ⟨hf1, hf2.trans hid⟩
      | some bev =>
        rw [hb] at h
        simp only at h
        cases hwr : ring_buffer_write R s2.rx_ring length with
        | error e => rw [hwr] at h; exact absurd h (by simp)
        | ok pr =>
          obtain ⟨ring, out, n⟩ := pr
          rw [hwr] at h
          simp only [Except.ok.injEq, Prod.mk.injEq] at h
          obtain ⟨h1, h2, _⟩ := h
          subst h1; subst h2
          obtain ⟨hf1, hf2⟩ := send_window_update_fields le MAX
            (bufferevent_write w2 bev out) w2.connect_bev
            { s2 with recv_window := u32_sub s2.recv_window length, rx_ring := ring } length
          exact ⟨hf1, hf2.trans hid⟩

theorem handle_registered (le : Bool) (R MAX : Nat) (w : World) (hdr : tcp_mux_header)
    (s : tmux_stream)
    (hgo : ¬ (ntohs le hdr.flags &&& SYN = SYN ∧ w.local_go_away ≠ 0))
    (hs : get_stream_by_id w (ntohl le hdr.stream_id) = some s) :
    handle_tcp_mux_stream le R MAX w hdr =
      if hdr.type = WINDOW_UPDATE then
        match incr_send_window le w
            (match get_proxy_client w (ntohl le hdr.stream_id) with
              | some c => c.local_proxy_bev
              | none => some w.connect_bev) hdr (ntohs le hdr.flags) s with
        | .error e => .error e
        | .ok (w1, s1, ok) =>
          if ok = 0 then
            .ok (tcp_mux_send_go_away le (put_stream w1 s1) (put_stream w1 s1).connect_bev
              PROTO_ERR, 0)
          else .ok (put_stream w1 s1, 0)
      else
        match process_data le R MAX w s (ntohl le hdr.length) (ntohs le hdr.flags)
            (get_proxy_client w (ntohl le hdr.stream_id)) with
        | .error e => .error e
        | .ok (w1, s1, ok) =>
          if ok = 0 then
            .ok (tcp_mux_send_go_away le (put_stream w1 s1) (put_stream w1 s1).connect_bev
              PROTO_ERR, 0)
          else .ok (put_stream w1 s1, to_int32 (ntohl le hdr.length)) := by
  have hinc : (if ntohs le hdr.flags &&& SYN = SYN then
      incoming_stream le w (ntohl le hdr.stream_id) else (w, 1)) = (w, 1) := by
    by_cases hsyn : ntohs le hdr.flags &&& SYN = SYN
    · have hl : w.local_go_away = 0 := by
        by_contra hc; exact hgo ⟨hsyn, hc⟩
      simp [hsyn, incoming_stream, hl]
    · simp [hsyn]
  unfold handle_tcp_mux_stream
  simp only [hinc, hs, one_ne_zero, if_false]

theorem handle_unregistered (le : Bool) (R MAX : Nat) (w : World) (hdr : tcp_mux_header)
    (hgo : ¬ (ntohs le hdr.flags &&& SYN = SYN ∧ w.local_go_away ≠ 0))
    (hs : get_stream_by_id w (ntohl le hdr.stream_id) = none) :
    handle_tcp_mux_stream le R MAX w hdr = .error .assert_failed := by
  have hinc : (if ntohs le hdr.flags &&& SYN = SYN then
      incoming_stream le w (ntohl le hdr.stream_id) else (w, 1)) = (w, 1) := by
    by_cases hsyn : ntohs le hdr.flags &&& SYN = SYN
    · have hl : w.local_go_away = 0 := by
        by_contra hc; exact hgo ⟨hsyn, hc⟩
      simp [hsyn, incoming_stream, hl]
    · simp [hsyn]
  unfold handle_tcp_mux_stream
  simp only [hinc, hs, one_ne_zero, if_false]

theorem handle_result_registry {le : Bool} {R MAX : Nat} {w w1 : World}
    {hdr : tcp_mux_header} {s : tmux_stream} {r : Int}
    (hgo : ¬ (ntohs le hdr.flags &&& SYN = SYN ∧ w.local_go_away ≠ 0))
    (hs : get_stream_by_id w (ntohl le hdr.stream_id) = some s)
    (h : handle_tcp_mux_stream le R MAX w hdr = .ok (w1, r)) :
    ∃ w2 s2 t, process_flags w (ntohs le hdr.flags) s = .ok (w2, s2, 1) ∧
      t.id = s.id ∧ w1.all_stream = (put_stream w2 t).all_stream := by
  rw [handle_registered le R MAX w hdr s hgo hs] at h
  by_cases hty : hdr.type = WINDOW_UPDATE
  · rw [if_pos hty] at h
    unfold incr_send_window at h
    cases hpf : process_flags w (ntohs le hdr.flags) s with
    | error e => rw [hpf] at h; exact absurd h (by simp)
    | ok res =>
      obtain ⟨w2, s2, k⟩ := res
      obtain ⟨hk, _, _, hid, _⟩ := process_flags_result hpf
      subst hk
      rw [hpf] at h
      simp only [one_ne_zero, if_false, Except.ok.injEq, Prod.mk.injEq] at h
      obtain ⟨h1, _⟩ := h
      subst h1
      refine ⟨w2, s2, { s2 with send_window := u32 (s2.send_window + ntohl le hdr.length) },
        rfl, hid, ?_⟩
      unfold put_stream
      split <;> rfl
  · rw [if_neg hty] at h
    cases hpd : process_data le R MAX w s (ntohl le hdr.length) (ntohs le hdr.flags)
        (get_proxy_client w (ntohl le hdr.stream_id)) with
    | error e => rw [hpd] at h; exact absurd h (by simp)
    | ok res =>
      obtain ⟨w3, s3, k⟩ := res
      obtain ⟨w2, s2, hpf, hall, hid⟩ := process_data_all_stream hpd
      rw [hpd] at h
      refine ⟨w2, s2, s3, hpf, hid, ?_⟩
      have hput : (put_stream w3 s3).all_stream = (put_stream w2 s3).all_stream := by
        unfold put_stream
        simp only [hall]
      by_cases hk : k = 0
      · simp only [hk, if_true, Except.ok.injEq, Prod.mk.injEq] at h
        obtain ⟨h1, _⟩ := h
        subst h1
        rw [(tcp_mux_send_go_away_fields le _ _ _).1, hput]
      · simp only [hk, if_false, Except.ok.injEq, Prod.mk.injEq] at h
        obtain ⟨h1, _⟩ := h
        subst h1
        exact hput

end TeardownLemmas

/-- Claim C20 (terminal streams leave the registry). Let a received frame, not a
SYN refused because of `local_go_away`, address a registered stream and be one
on which `process_flags` sets the state to CLOSED or RESET. Then
`process_flags` returns 1 with that state, a WINDOW_UPDATE frame makes
`handle_tcp_mux_stream` return 0, and whenever `handle_tcp_mux_stream` returns,
`get_stream_by_id` finds no stream under that id afterwards, so that a further
frame for the id is not handled: it stops at `assert(stream != NULL)`. The
effect of `del_proxy_client_by_stream_id` on the registry is taken from the
spec. -/
theorem terminal_stream_leaves_registry (little_endian : Bool)
    (RBUF_SIZE MAX_STREAM_WINDOW_SIZE : Nat) (w : World) (hdr : tcp_mux_header)
    (s : tmux_stream)
    (hgo : ¬ (ntohs little_endian hdr.flags &&& SYN = SYN ∧ w.local_go_away ≠ 0))
    (hs : get_stream_by_id w (ntohl little_endian hdr.stream_id) = some s)
    (hclose : closing_frame (ntohs little_endian hdr.flags) s.state) :
    (∃ w2 s2, process_flags w (ntohs little_endian hdr.flags) s = .ok (w2, s2, 1) ∧
      (s2.state = .CLOSED ∨ s2.state = .RESET)) ∧
    (hdr.type = WINDOW_UPDATE →
      ∃ w1, handle_tcp_mux_stream little_endian RBUF_SIZE MAX_STREAM_WINDOW_SIZE w hdr =
        .ok (w1, 0)) ∧
    (∀ (w1 : World) (r : Int),
      handle_tcp_mux_stream little_endian RBUF_SIZE MAX_STREAM_WINDOW_SIZE w hdr = .ok (w1, r) →
      get_stream_by_id w1 (ntohl little_endian hdr.stream_id) = none ∧
      ∀ hdr2 : tcp_mux_header,
        ntohl little_endian hdr2.stream_id = ntohl little_endian hdr.stream_id →
        ¬ (ntohs little_endian hdr2.flags &&& SYN = SYN ∧ w1.local_go_away ≠ 0) →
        handle_tcp_mux_stream little_endian RBUF_SIZE MAX_STREAM_WINDOW_SIZE w1 hdr2 =
          .error .assert_failed) := by
  obtain ⟨st, hst, hpf⟩ := process_flags_closing w (ntohs little_endian hdr.flags) s hclose
  have hsid : s.id = ntohl little_endian hdr.stream_id := get_stream_by_id_id hs
  refine ⟨⟨_, _, hpf, hst⟩, ?_, ?_⟩
  · intro hty
    rw [handle_registered little_endian RBUF_SIZE MAX_STREAM_WINDOW_SIZE w hdr s hgo hs,
      if_pos hty]
    unfold incr_send_window
    simp only [hpf, one_ne_zero, if_false]
    exact ⟨_, rfl⟩
  · intro w1 r h
    obtain ⟨w2, s2, t, hpf2, htid, hall⟩ := handle_result_registry hgo hs h
    rw [hpf] at hpf2
    simp only [Except.ok.injEq, Prod.mk.injEq] at hpf2
    obtain ⟨hw2, _, _⟩ := hpf2
    have hnone : get_stream_by_id w1 (ntohl little_endian hdr.stream_id) = none := by
      rw [get_stream_by_id_congr hall, ← hsid]
      apply put_stream_absent _ htid
      rw [← hw2]
      exact get_stream_by_id_deleted w s.id
    refine ⟨hnone, ?_⟩
    intro hdr2 hid2 hgo2
    apply handle_unregistered _ _ _ _ _ hgo2
    rw [hid2]
    exact hnone

/-- The teardown of `terminal_stream_leaves_registry` for a WINDOW_UPDATE with
FIN on stream 3 in LOCAL_CLOSE: the call returns 0 and stream 3 is no longer
registered. -/
theorem terminal_stream_leaves_registry_witness :
    ∃ w1, handle_tcp_mux_stream true 131072 262144
        { idle_world with all_stream := [stream_with 3 .LOCAL_CLOSE 262144 262144 []] }
        { version := 0, type := WINDOW_UPDATE, flags := htons true FIN,
          stream_id := htonl true 3, length := htonl true 0 } = .ok (w1, 0) ∧
      get_stream_by_id w1 (ntohl true (htonl true 3)) = none := by
  have hT := terminal_stream_leaves_registry true 131072 262144
    { idle_world with all_stream := [stream_with 3 .LOCAL_CLOSE 262144 262144 []] }
    { version := 0, type := WINDOW_UPDATE, flags := htons true FIN,
      stream_id := htonl true 3, length := htonl true 0 }
    (stream_with 3 .LOCAL_CLOSE 262144 262144 []) (by decide) (by rfl) (by decide)
  obtain ⟨w1, h1⟩ := hT.2.1 (by decide)
  exact ⟨w1, h1, (hT.2.2 w1 0 h1).1⟩

/-! ## Sequences of DATA frames -/

section FrameLemmas

theorem read_loop_contents {R : Nat} (hR : R < 4294967296) :
    ∀ (n : Nat) (ring : ring_buffer) (input : List Nat),
      ring_wf R ring → ring.sz + n ≤ R → n ≤ input.length →
      ∃ ring1, ring_buffer_read_loop R n ring input = (ring1, input.drop n) ∧
        ring_wf R ring1 ∧ ring1.sz = ring.sz + n ∧
        ring_contents R ring1 = ring_contents R ring ++ input.take n := by
  intro n
  induction n with
  | zero =>
    intro ring input hwf _ _
    exact ⟨ring, by simp [ring_buffer_read_loop], hwf, rfl, by simp⟩
  | succ n ih =>
    intro ring input hwf hsz hlen
    cases input with
    | nil => simp at hlen
    | cons b rest =>
      obtain ⟨hwf1, hsz1, _, hcont1, hfull⟩ := ring_push_spec b hwf (by omega) hR
      have hstep : ring_buffer_read_loop R (n + 1) ring (b :: rest) =
          if (ring_push R ring b).cur = (ring_push R ring b).end_ then
            (ring_push R ring b, rest)
          else ring_buffer_read_loop R n (ring_push R ring b) rest := by
        simp only [ring_buffer_read_loop, ring_push, List.tail_cons]
      rw [hstep]
      by_cases hfull2 : ring.sz + 1 = R
      · rw [if_pos (hfull.mpr hfull2)]
        have hn : n = 0 := by omega
        subst hn
        exact ⟨_, by simp, hwf1, hsz1, by simp [hcont1]⟩
      · rw [if_neg (fun h => hfull2 (hfull.mp h))]
        have hlen1 : n ≤ rest.length := by simpa using hlen
        obtain ⟨r1, he, hw, hs, hcont⟩ := ih (ring_push R ring b) rest hwf1 (by omega) hlen1
        refine ⟨r1, ?_, hw, by omega, ?_⟩
        · rw [he]; simp
        · rw [hcont, hcont1]; simp

theorem tmux_read_payload {R : Nat} (hR : R < 4294967296) (s : tmux_stream)
    (payload : List Nat) (hwf : ring_wf R s.rx_ring) (hempty : s.rx_ring.sz = 0)
    (hlen : payload.length ≤ R) :
    ∃ ring1, (tmux_read R payload s payload.length).1 = { s with rx_ring := ring1 } ∧
      ring_wf R ring1 ∧ ring1.sz = payload.length ∧ ring_contents R ring1 = payload := by
  have hR0 : 0 < R := by have := hwf.1; omega
  have hnil : ring_contents R s.rx_ring = [] := by
    apply List.eq_nil_of_length_eq_zero
    rw [ring_contents_length, hempty]
  obtain ⟨r1, he, hw, hs, hc⟩ := read_loop_contents hR payload.length s.rx_ring payload hwf
    (by omega) (Nat.le_refl _)
  refine ⟨r1, ?_, hw, by omega, by rw [hc, hnil]; simp⟩
  unfold tmux_read ring_buffer_read
  rw [if_neg (by omega), hempty, u32_sub_of_le (Nat.zero_le _) hR]
  simp only [Nat.sub_zero, gt_iff_lt, Nat.not_lt.mpr hlen, if_false, he]

theorem written_to_bufferevent_write_ne (w : World) (bev b : Nat) (bytes : List Nat)
    (h : bev ≠ b) : written_to (bufferevent_write w bev bytes) b = written_to w b := by
  unfold written_to bufferevent_write
  simp only [List.filter_append, List.map_append]
  have hnil : List.filter (fun e : Nat × Nat => decide (e.1 = b))
      (List.map (fun x => (bev, x)) bytes) = [] := by
    rw [List.filter_eq_nil_iff]
    intro e he
    obtain ⟨x, _, hx⟩ := List.mem_map.mp he
    subst hx
    simpa using h
  rw [hnil]; simp

theorem written_to_deliver_payload (w : World) (pc : Option proxy_client) (bytes : List Nat)
    (hpc : ∀ bev, pc.bind (fun c => c.local_proxy_bev) = some bev → bev ≠ w.connect_bev) :
    written_to (deliver_payload w pc bytes) w.connect_bev = written_to w w.connect_bev := by
  unfold deliver_payload
  split
  · rfl
  · next bev hb => exact written_to_bufferevent_write_ne w bev _ bytes (hpc bev hb)

theorem payload_bytes_cons (p : List Nat) (l : List (List Nat)) :
    payload_bytes (p :: l) = p.length + payload_bytes l := by
  simp [payload_bytes]

theorem payload_bytes_append (l1 l2 : List (List Nat)) :
    payload_bytes (l1 ++ l2) = payload_bytes l1 + payload_bytes l2 := by
  simp [payload_bytes]

theorem receive_step (le : Bool) {R MAX : Nat} (hR : R < 4294967296)
    (hMAX : MAX < 4294967296) (pc : Option proxy_client) (w : World) (s : tmux_stream)
    (payload : List Nat) (hI : frame_ready R s) (hrw : s.recv_window ≤ MAX)
    (hfit : payload.length ≤ R) (hlen : payload.length ≤ s.recv_window) :
    ∃ s1 r, frame_ready R s1 ∧ s1.id = s.id ∧
      s1.recv_window = (if MAX - s.recv_window < MAX / 2 then s.recv_window - payload.length
        else MAX - payload.length) ∧
      process_data le R MAX w (tmux_read R payload s payload.length).1 payload.length ZERO pc =
        .ok (if MAX - s.recv_window < MAX / 2 then deliver_payload w pc payload
             else bufferevent_write (deliver_payload w pc payload) w.connect_bev
               (window_update_frame s.id (MAX - s.recv_window)), s1, r) := by
  obtain ⟨hst, hid, hwf, hempty⟩ := hI
  obtain ⟨ring1, ht, hw1, hs1, hc1⟩ := tmux_read_payload hR s payload hwf hempty hfit
  have hstq : ({ s with rx_ring := ring1 } : tmux_stream).state ≠ .INIT ∧
      ({ s with rx_ring := ring1 } : tmux_stream).state ≠ .SYN_RECEIVED := by
    show s.state ≠ .INIT ∧ s.state ≠ .SYN_RECEIVED
    rw [hst]; exact ⟨by decide, by decide⟩
  obtain ⟨ring2, hw2, hs2, _, he⟩ := process_data_accept_quiet le R MAX hR hMAX w
    { s with rx_ring := ring1 } payload.length pc hrw hlen hw1 (by show _ ≤ ring1.sz; omega)
    hstq hid
  have htake : (ring_contents R ring1).take payload.length = payload := by
    rw [hc1, List.take_length]
  rw [ht, he]
  have hz : ring2.sz = 0 := by
    rw [hs2]; show ring1.sz - _ = 0; omega
  by_cases hlt : MAX - s.recv_window < MAX / 2
  · have hlt2 : MAX - ({ s with rx_ring := ring1 } : tmux_stream).recv_window < MAX / 2 := hlt
    rw [if_pos hlt2, if_pos hlt, if_pos hlt]
    exact ⟨{ s with recv_window := s.recv_window - payload.length, rx_ring := ring2 },
      to_int32 payload.length, ⟨hst, hid, hw2, hz⟩, rfl, rfl, by rw [htake]⟩
  · have hlt2 : ¬ MAX - ({ s with rx_ring := ring1 } : tmux_stream).recv_window < MAX / 2 := hlt
    rw [if_neg hlt2, if_neg hlt, if_neg hlt]
    exact ⟨{ s with recv_window := MAX - payload.length, rx_ring := ring2 },
      to_int32 payload.length, ⟨hst, hid, hw2, hz⟩, rfl, rfl, by rw [htake]⟩

theorem receive_append (le : Bool) (R MAX : Nat) (pc : Option proxy_client) :
    ∀ (l1 l2 : List (List Nat)) (w : World) (s : tmux_stream),
      receive_data_frames le R MAX pc (l1 ++ l2) w s =
        match receive_data_frames le R MAX pc l1 w s with
        | .error e => .error e
        | .ok (w1, s1) => receive_data_frames le R MAX pc l2 w1 s1 := by
  intro l1
  induction l1 with
  | nil => intro l2 w s; rfl
  | cons p l ih =>
    intro l2 w s
    simp only [List.cons_append, receive_data_frames]
    cases process_data le R MAX w (tmux_read R p s p.length).1 p.length ZERO pc with
    | error e => rfl
    | ok res =>
      obtain ⟨w1, s1, r⟩ := res
      exact ih l2 w1 s1

theorem receive_quiet (le : Bool) {R MAX : Nat} (hR : R < 4294967296)
    (hMAX : MAX < 4294967296) (pc : Option proxy_client) :
    ∀ (frames : List (List Nat)) (w : World) (s : tmux_stream),
      frame_ready R s → s.recv_window ≤ MAX → (∀ p ∈ frames, p.length ≤ R) →
      payload_bytes frames ≤ s.recv_window →
      (∀ bev, pc.bind (fun c => c.local_proxy_bev) = some bev → bev ≠ w.connect_bev) →
      (∀ pre q post, frames = pre ++ q :: post →
        MAX - s.recv_window + payload_bytes pre < MAX / 2) →
      ∃ w1 s1, receive_data_frames le R MAX pc frames w s = .ok (w1, s1) ∧
        w1.connect_bev = w.connect_bev ∧
        written_to w1 w.connect_bev = written_to w w.connect_bev ∧
        s1.recv_window = s.recv_window - payload_bytes frames ∧
        frame_ready R s1 ∧ s1.id = s.id := by
  intro frames
  induction frames with
  | nil =>
    intro w s hI _ _ _ _ _
    exact ⟨w, s, rfl, rfl, rfl, by simp [payload_bytes], hI, rfl⟩
  | cons p rest ih =>
    intro w s hI hrw hfit hsum hpc hq
    rw [payload_bytes_cons] at hsum
    have hq0 : MAX - s.recv_window < MAX / 2 := by
      have := hq [] p rest rfl
      simpa [payload_bytes] using this
    obtain ⟨s1, r, hI1, hid1, hrw1, he⟩ := receive_step le hR hMAX pc w s p hI hrw
      (hfit p (by simp)) (by omega)
    rw [if_pos hq0] at hrw1 he
    have hcb : (deliver_payload w pc p).connect_bev = w.connect_bev :=
      deliver_payload_connect_bev w pc p
    obtain ⟨w2, s2, he2, hc2, hw2, hrw2, hI2, hid2⟩ := ih (deliver_payload w pc p) s1 hI1
      (by omega) (fun q hq1 => hfit q (by simp [hq1])) (by omega)
      (by rw [hcb]; exact hpc)
      (by
        intro pre q post hsplit
        have := hq (p :: pre) q post (by rw [hsplit]; rfl)
        rw [payload_bytes_cons] at this
        omega)
    refine ⟨w2, s2, ?_, by rw [hc2, hcb], ?_, ?_, hI2, by rw [hid2, hid1]⟩
    · simp only [receive_data_frames, he, he2]
    · rw [← hcb, hw2, hcb, written_to_deliver_payload w pc p hpc]
    · rw [hrw2, hrw1, payload_bytes_cons]; omega

theorem receive_emit (le : Bool) {R MAX : Nat} (hR : R < 4294967296)
    (hMAX : MAX < 4294967296) (pc : Option proxy_client) (pre : List (List Nat))
    (q : List Nat) (post : List (List Nat)) (w : World) (s : tmux_stream)
    (hI : frame_ready R s) (hrw : s.recv_window ≤ MAX)
    (hfit : ∀ p ∈ pre ++ q :: post, p.length ≤ R)
    (hpc : ∀ bev, pc.bind (fun c => c.local_proxy_bev) = some bev → bev ≠ w.connect_bev)
    (hwin : payload_bytes pre + q.length ≤ s.recv_window)
    (hqpre : ∀ pre1 q1 post1, pre = pre1 ++ q1 :: post1 →
      MAX - s.recv_window + payload_bytes pre1 < MAX / 2)
    (hemit : MAX / 2 ≤ MAX - s.recv_window + payload_bytes pre)
    (hqpost : q.length + payload_bytes post < MAX / 2) :
    ∃ w1 s1, receive_data_frames le R MAX pc (pre ++ q :: post) w s = .ok (w1, s1) ∧
      written_to w1 w.connect_bev =
        written_to w w.connect_bev ++
          window_update_frame s.id (MAX - s.recv_window + payload_bytes pre) ∧
      s1.recv_window = MAX - (q.length + payload_bytes post) := by
  obtain ⟨wa, sa, hea, hca, hwa, hrwa, hIa, hida⟩ := receive_quiet le hR hMAX pc pre w s hI hrw
    (fun p hp => hfit p (by simp [hp])) (by omega) hpc hqpre
  obtain ⟨sb, r, hIb, hidb, hrwb, heb⟩ := receive_step le hR hMAX pc wa sa q hIa (by omega)
    (hfit q (by simp)) (by omega)
  have hnq : ¬ MAX - sa.recv_window < MAX / 2 := by omega
  rw [if_neg hnq] at hrwb heb
  have hcb : (bufferevent_write (deliver_payload wa pc q) wa.connect_bev
      (window_update_frame sa.id (MAX - sa.recv_window))).connect_bev = w.connect_bev := by
    show (deliver_payload wa pc q).connect_bev = _
    rw [deliver_payload_connect_bev, hca]
  have hpca : ∀ bev, pc.bind (fun c => c.local_proxy_bev) = some bev → bev ≠ wa.connect_bev := by
    rw [hca]; exact hpc
  obtain ⟨wc, sc, hec, _, hwc, hrwc, _, _⟩ := receive_quiet le hR hMAX pc post
    (bufferevent_write (deliver_payload wa pc q) wa.connect_bev
      (window_update_frame sa.id (MAX - sa.recv_window))) sb hIb (by omega)
    (fun p hp => hfit p (by simp [hp])) (by omega) (by rw [hcb]; exact hpc)
    (by
      intro pre1 q1 post1 hsplit
      have h1 : payload_bytes post = payload_bytes pre1 + payload_bytes (q1 :: post1) := by
        rw [hsplit, payload_bytes_append]
      omega)
  refine ⟨wc, sc, ?_, ?_, by omega⟩
  · rw [receive_append, hea]
    simp only [receive_data_frames, heb, hec]
  · rw [hcb] at hwc
    rw [hwc, ← hca, written_to_bufferevent_write, written_to_deliver_payload wa pc q hpca, hca,
      hwa, hida]
    congr 2
    omega

end FrameLemmas

/-- Claim C16, counterexample. With `MAX_STREAM_WINDOW_SIZE = 262144` and
`RBUF_SIZE = 131072`, an ESTABLISHED stream has `recv_window = 262139`, the
state after scenario S2. One DATA frame of `262144 / 2 = 131072` bytes is
within the window and delivered; no WINDOW_UPDATE is written and `recv_window`
ends at 131067, not at 262144. -/
theorem half_window_in_one_frame :
    payload_bytes [List.replicate 131072 0] = 262144 / 2 ∧
    ∃ w1 s1, receive_data_frames true 131072 262144 none [List.replicate 131072 0] idle_world
        (stream_with 3 .ESTABLISHED 262139 262144 []) = .ok (w1, s1) ∧
      written_to w1 0 = [] ∧ s1.recv_window = 131067 := by
  have key : ∀ p : List Nat, p.length = 131072 →
      payload_bytes [p] = 262144 / 2 ∧
      ∃ w1 s1, receive_data_frames true 131072 262144 none [p] idle_world
          (stream_with 3 .ESTABLISHED 262139 262144 []) = .ok (w1, s1) ∧
        written_to w1 0 = [] ∧ s1.recv_window = 131067 := by
    intro p hp
    have hsum : payload_bytes [p] = 131072 := by
      simp only [payload_bytes, List.map_cons, List.map_nil, List.sum_cons, List.sum_nil, hp,
        Nat.add_zero]
    refine ⟨by rw [hsum], ?_⟩
    obtain ⟨w1, s1, he, _, hw, hrw, _⟩ := @receive_quiet true 131072 262144
      (by decide) (by decide) none [p] idle_world
      (stream_with 3 .ESTABLISHED 262139 262144 [])
      ⟨rfl, by decide, by decide, rfl⟩ (by decide)
      (by
        intro x hx
        rw [List.mem_singleton] at hx
        rw [hx, hp])
      (by rw [hsum]; decide)
      (by intro bev hbev; cases hbev)
      (by
        intro pre q post hsplit
        cases pre with
        | nil => decide
        | cons a l =>
          cases l with
          | nil => cases hsplit
          | cons b l2 => cases hsplit)
    refine ⟨w1, s1, he, ?_, ?_⟩
    · rw [show (0 : Nat) = idle_world.connect_bev from rfl, hw]; rfl
    · rw [hrw, hsum]; rfl
  exact key _ (List.length_replicate _ _)

/-- Claim C16, amended. An ESTABLISHED stream with an empty receive ring has
`recv_window = MAX_STREAM_WINDOW_SIZE - 5`, and DATA frames without flags whose
lengths sum to `MAX_STREAM_WINDOW_SIZE / 2`, each at most `RBUF_SIZE` bytes, are
processed in order. All of them are accepted. If every frame has fewer than
`MAX_STREAM_WINDOW_SIZE / 2 - 5` bytes of the sequence before it, no
WINDOW_UPDATE is written and `recv_window` ends at
`MAX_STREAM_WINDOW_SIZE - 5 - MAX_STREAM_WINDOW_SIZE / 2`. Otherwise the first
frame `q` with at least that many bytes before it is the only one that writes a
WINDOW_UPDATE; its length field is 5 plus the bytes of the frames before `q`,
and `recv_window` ends at `MAX_STREAM_WINDOW_SIZE` minus the bytes of `q` and of
the frames after it. -/
theorem window_update_after_half_window (le : Bool) (R MAX : Nat) (hR : R < 4294967296)
    (hMAX : MAX < 4294967296) (hbig : 12 ≤ MAX) (pc : Option proxy_client)
    (frames : List (List Nat)) (w : World) (s : tmux_stream)
    (hst : s.state = .ESTABLISHED) (hid : s.id < 4294967296) (hwf : ring_wf R s.rx_ring)
    (hempty : s.rx_ring.sz = 0) (hrw : s.recv_window = MAX - 5)
    (hfit : ∀ p ∈ frames, p.length ≤ R) (hsum : payload_bytes frames = MAX / 2)
    (hpc : ∀ bev, pc.bind (fun c => c.local_proxy_bev) = some bev → bev ≠ w.connect_bev) :
    ((∀ pre q post, frames = pre ++ q :: post → 5 + payload_bytes pre < MAX / 2) →
      ∃ w1 s1, receive_data_frames le R MAX pc frames w s = .ok (w1, s1) ∧
        written_to w1 w.connect_bev = written_to w w.connect_bev ∧
        s1.recv_window = MAX - 5 - MAX / 2) ∧
    (∀ pre q post, frames = pre ++ q :: post → MAX / 2 ≤ 5 + payload_bytes pre →
      (∀ pre1 q1 post1, pre = pre1 ++ q1 :: post1 → 5 + payload_bytes pre1 < MAX / 2) →
      ∃ w1 s1, receive_data_frames le R MAX pc frames w s = .ok (w1, s1) ∧
        written_to w1 w.connect_bev =
          written_to w w.connect_bev ++ window_update_frame s.id (5 + payload_bytes pre) ∧
        s1.recv_window = MAX - payload_bytes (q :: post)) := by
  have hI : frame_ready R s := ⟨hst, hid, hwf, hempty⟩
  have h5 : MAX - s.recv_window = 5 := by omega
  constructor
  · intro hquiet
    obtain ⟨w1, s1, he, _, hw, hr, _⟩ := receive_quiet le hR hMAX pc frames w s hI (by omega)
      hfit (by omega) hpc (by rw [h5]; exact hquiet)
    exact ⟨w1, s1, he, hw, by rw [hr, hrw, hsum]⟩
  · intro pre q post hsplit hemit hquiet
    have hparts : payload_bytes frames =
        payload_bytes pre + (q.length + payload_bytes post) := by
      rw [hsplit, payload_bytes_append, payload_bytes_cons]
    obtain ⟨w1, s1, he, hw, hr⟩ := receive_emit le hR hMAX pc pre q post w s hI (by omega)
      (by rw [← hsplit]; exact hfit) hpc (by omega) (by rw [h5]; exact hquiet)
      (by rw [h5]; exact hemit) (by omega)
    refine ⟨w1, s1, by rw [hsplit]; exact he, ?_, ?_⟩
    · rw [hw, h5]
    · rw [hr, payload_bytes_cons]

/-- The amended C16 at the default sizes: after scenario S2 a frame of 131071
bytes and a frame of one byte arrive. The second frame writes the only
WINDOW_UPDATE; it carries 131076 and `recv_window` ends at 262143. -/
theorem window_update_after_half_window_witness :
    ∃ w1 s1, receive_data_frames true 131072 262144 none [List.replicate 131071 0, [0]]
        idle_world (stream_with 3 .ESTABLISHED 262139 262144 []) = .ok (w1, s1) ∧
      written_to w1 0 = window_update_frame 3 131076 ∧ s1.recv_window = 262143 := by
  have key : ∀ p : List Nat, p.length = 131071 →
      ∃ w1 s1, receive_data_frames true 131072 262144 none [p, [0]]
          idle_world (stream_with 3 .ESTABLISHED 262139 262144 []) = .ok (w1, s1) ∧
        written_to w1 0 = window_update_frame 3 131076 ∧ s1.recv_window = 262143 := by
    intro p hp
    have hpre : payload_bytes [p] = 131071 := by
      simp only [payload_bytes, List.map_cons, List.map_nil, List.sum_cons, List.sum_nil, hp,
        Nat.add_zero]
    have hsum : payload_bytes [p, [0]] = 262144 / 2 := by
      rw [payload_bytes_cons, hp]; rfl
    obtain ⟨w1, s1, he, hw, hr⟩ :=
      (window_update_after_half_window true 131072 262144 (by decide) (by decide) (by decide)
        none [p, [0]] idle_world (stream_with 3 .ESTABLISHED 262139 262144 [])
        rfl (by decide) (by decide) rfl rfl
        (by
          intro x hx
          rcases List.mem_cons.mp hx with h | h
          · rw [h, hp]; decide
          · rw [List.mem_singleton.mp h]; decide)
        hsum (by intro bev hbev; cases hbev)).2 [p] [0] [] rfl (by rw [hpre]; decide)
        (by
          intro pre1 q1 post1 hsplit
          cases pre1 with
          | nil => decide
          | cons a l =>
            cases l with
            | nil => cases hsplit
            | cons b l2 => cases hsplit)
    refine ⟨w1, s1, he, ?_, ?_⟩
    · rw [show (0 : Nat) = idle_world.connect_bev from rfl, hw, hpre]; rfl
    · rw [hr]; rfl
  exact key _ (List.length_replicate _ _)

/-! ## PING and session ids -/

section SessionLemmas

theorem ping_ack_frame_bytes (le : Bool) (t : Nat) (ht : t < 4294967296) :
    header_bytes le (tcp_mux_encode le PING ACK 0 t) = ping_ack_frame t :=
  header_bytes_encode le PING ACK 0 t (by decide) (by decide) (by decide) ht

theorem handle_tcp_mux_ping_eq (le : Bool) (w : World) (hdr : tcp_mux_header) (f t : Nat)
    (hf : f < 65536) (ht : t < 4294967296) (hflags : hdr.flags = htons le f)
    (hlen : hdr.length = htonl le t) :
    handle_tcp_mux_ping le w hdr =
      if f &&& SYN = SYN then tcp_mux_handle_ping le w w.connect_bev t else w := by
  have h1 : ntohs le hdr.flags = f := by
    rw [hflags, ntohs, htons_htons]; omega
  have h2 : ntohl le hdr.length = t := by
    rw [hlen, ntohl, htonl_htonl]; omega
  simp only [handle_tcp_mux_ping, h1, h2]

theorem session_calls_state (w : World) (h : w.g_session_id < 4294967296) :
    ∀ k, (session_calls k w).g_session_id = u32 (w.g_session_id + 2 * k) := by
  intro k
  induction k with
  | zero =>
    simp only [session_calls, u32]
    omega
  | succ n ih =>
    simp only [session_calls, get_next_session_id, ih, u32]
    omega

theorem nth_session_id_eq (w : World) (h : w.g_session_id < 4294967296) (k : Nat) :
    nth_session_id k w = (w.g_session_id + 2 * k) % 4294967296 := by
  simp only [nth_session_id, get_next_session_id, session_calls_state w h k, u32]

end SessionLemmas

/-- Claim C21. With multiplexing enabled, `handle_tcp_mux_ping` on a header whose
flags field carries `f` and whose length field carries the token `t`, both in
network byte order: when `f` has the SYN bit (in particular `f = SYN`) it writes
exactly the twelve bytes `00 02 00 02 00 00 00 00` followed by `t` in big-endian
to the control connection and changes nothing else; when `f` lacks the SYN bit
(in particular `f = ACK`) it leaves the state as it was, so nothing is written. -/
theorem handle_tcp_mux_ping_echo (le : Bool) (w : World) (hdr : tcp_mux_header) (f t : Nat)
    (hmux : w.tcp_mux ≠ 0) (hf : f < 65536) (ht : t < 4294967296)
    (hflags : hdr.flags = htons le f) (hlen : hdr.length = htonl le t) :
    (f &&& SYN = SYN →
      handle_tcp_mux_ping le w hdr = bufferevent_write w w.connect_bev (ping_ack_frame t) ∧
      written_to (handle_tcp_mux_ping le w hdr) w.connect_bev =
        written_to w w.connect_bev ++
          [0, 2, 0, 2, 0, 0, 0, 0, t / 16777216, t / 65536 % 256, t / 256 % 256, t % 256]) ∧
    (f &&& SYN ≠ SYN → handle_tcp_mux_ping le w hdr = w) ∧
    SYN &&& SYN = SYN ∧ ACK &&& SYN ≠ SYN := by
  have heq := handle_tcp_mux_ping_eq le w hdr f t hf ht hflags hlen
  refine ⟨?_, ?_, by decide, by decide⟩
  · intro hsyn
    have hw : handle_tcp_mux_ping le w hdr =
        bufferevent_write w w.connect_bev (ping_ack_frame t) := by
      rw [heq, if_pos hsyn]
      simp only [tcp_mux_handle_ping, tcp_mux_flag, if_neg hmux, ping_ack_frame_bytes le t ht]
    refine ⟨hw, ?_⟩
    rw [hw, written_to_bufferevent_write]
    rfl
  · intro hsyn
    rw [heq, if_neg hsyn]

/-- The echo of `handle_tcp_mux_ping_echo` for the frame
`00 02 00 01 00 00 00 00 12 34 56 78` received on an idle connection of a
little-endian host: the bytes `00 02 00 02 00 00 00 00 12 34 56 78` are written
to the control connection. -/
theorem handle_tcp_mux_ping_echo_witness :
    ∃ hdr, header_of_bytes true [0, 2, 0, 1, 0, 0, 0, 0, 18, 52, 86, 120] = some hdr ∧
      written_to (handle_tcp_mux_ping true idle_world hdr) 0 =
        [0, 2, 0, 2, 0, 0, 0, 0, 18, 52, 86, 120] :=
  ⟨{ version := 0, type := 2, flags := htons true SYN, stream_id := 0,
     length := htonl true 305419896 }, by decide,
   ((handle_tcp_mux_ping_echo true idle_world
      { version := 0, type := 2, flags := htons true SYN, stream_id := 0,
        length := htonl true 305419896 } SYN 305419896 (by decide) (by decide) (by decide)
      rfl rfl).1 (by decide)).2⟩

/-- Claim C22, counterexample. After `reset_session_id`, call number
`2147483648 = 2^31` of `get_next_session_id` returns 1: the 32-bit counter has
wrapped. The id is not `2 * 2147483648 + 1` and is not greater than the id of
call number 0. -/
theorem session_id_wraps_after_2_pow_31_calls :
    nth_session_id 2147483648 (reset_session_id idle_world) = 1 ∧
    nth_session_id 2147483648 (reset_session_id idle_world) ≠ 2 * 2147483648 + 1 ∧
    ¬ nth_session_id 0 (reset_session_id idle_world) <
      nth_session_id 2147483648 (reset_session_id idle_world) := by
  have h0 := nth_session_id_eq (reset_session_id idle_world) (by decide) 0
  have hk := nth_session_id_eq (reset_session_id idle_world) (by decide) 2147483648
  have hg : (reset_session_id idle_world).g_session_id = 1 := rfl
  rw [hg] at h0 hk
  rw [h0, hk]
  decide

/-- Claim C22, amended. From a state with `g_session_id = 1` (the initial value
and the value after `reset_session_id`), call number `k` (k = 0, 1, 2, ...) of
consecutive calls of `get_next_session_id` returns `(2 * k + 1) mod 2^32`. For
`k < 2^31` this is `2 * k + 1`, so the first `2^31` ids are strictly increasing.
Every id is odd. After `reset_session_id` the next call returns 1 again. -/
theorem session_id_allocation (w : World) (hstart : w.g_session_id = 1) :
    (∀ k, nth_session_id k w = (2 * k + 1) % 4294967296) ∧
    (∀ k, k < 2147483648 → nth_session_id k w = 2 * k + 1) ∧
    (∀ k, nth_session_id k w % 2 = 1) ∧
    (∀ j k, j < k → k < 2147483648 → nth_session_id j w < nth_session_id k w) ∧
    (∀ k, (reset_session_id (session_calls k w)).g_session_id = 1 ∧
      (get_next_session_id (reset_session_id (session_calls k w))).2 = 1) := by
  have key : ∀ k, nth_session_id k w = (2 * k + 1) % 4294967296 := by
    intro k
    rw [nth_session_id_eq w (by omega) k, hstart, Nat.add_comm]
  refine ⟨key, ?_, ?_, ?_, ?_⟩
  · intro k hk
    rw [key]; omega
  · intro k
    rw [key]; omega
  · intro j k hjk hk
    rw [key, key]; omega
  · intro k
    exact ⟨rfl, rfl⟩

/-- The ids of `session_id_allocation` for the first calls after a reset: the
state has `g_session_id = 1` and the calls number 0, 1, 2, 3 return 1, 3, 5, 7. -/
theorem session_id_allocation_witness :
    (reset_session_id idle_world).g_session_id = 1 ∧
    nth_session_id 0 (reset_session_id idle_world) = 1 ∧
    nth_session_id 1 (reset_session_id idle_world) = 3 ∧
    nth_session_id 2 (reset_session_id idle_world) = 5 ∧
    nth_session_id 3 (reset_session_id idle_world) = 7 :=
  ⟨rfl,
   (session_id_allocation (reset_session_id idle_world) rfl).2.1 0 (by decide),
   (session_id_allocation (reset_session_id idle_world) rfl).2.1 1 (by decide),
   (session_id_allocation (reset_session_id idle_world) rfl).2.1 2 (by decide),
   (session_id_allocation (reset_session_id idle_world) rfl).2.1 3 (by decide)⟩

end Tcpmux
